import Mathlib

/-!
# snappy-switcher: the wlr-foreign-toplevel backend (src/wlr_backend.c)

A shallow embedding of the backend's session state, its event handlers, the
activation history, the snapshot builder and the activation command, followed
by theorems about them.

Modelling conventions.

* A C pointer is a natural number, `0` being `NULL`.  A `WindowNode` carries its
  own address in `addr`; the singly linked list `backend_state.windows` is the
  Lean list of its nodes from the head on, and `curr == window` is equality of
  `addr`.
* A handler receives its `data` pointer as the node it points to.  A write
  through the pointer is `store`, which replaces the node of that address in
  the list.
* C `int` values are `Int` and do not wrap: the model agrees with the code as
  long as `activation_counter` stays at most `INT_MAX`, which takes 2^31 - 1
  activations to exceed; the statement about the growth of the counter carries
  that bound.  The flag word `WindowNode.state` is kept as its bit pattern, a
  `Nat`.
* Calls that leave the process (requests to the compositor, destruction of
  protocol objects, flushes) are appended to the ghost field `trace`.
* Results of `malloc`, `wl_registry_bind` and of the two connection calls are
  inputs of the function that makes the call.
-/

namespace WlrBackend

/-! ## Data model -/

/-- Calls that leave the process, in the order they are made. -/
inductive Action where
  | handle_destroy (handle : Nat)
  | manager_destroy (manager : Nat)
  | seat_destroy (seat : Nat)
  | registry_destroy (registry : Nat)
  | display_disconnect (display : Nat)
  | handle_activate (handle seat : Nat)
  | display_flush (display : Nat)
  deriving DecidableEq

/-- The struct `WindowNode`; `next` is the tail of the list the node sits in and
`addr` is the address of the node itself. -/
structure WindowNode where
  addr : Nat
  handle : Nat
  title : Option String
  app_id : Option String
  identifier : Option String
  state : Nat
  is_active : Bool
  is_minimized : Bool
  activation_serial : Int
  deriving DecidableEq

/-- The struct `WlrBackendState`, with the ghost field `trace`. -/
structure WlrBackendState where
  display : Nat
  registry : Nat
  manager : Nat
  seat : Nat
  windows : List WindowNode
  window_count : Int
  initialized : Bool
  needs_refresh : Bool
  activation_counter : Int
  trace : List Action
  deriving DecidableEq

/-- The static `backend_state = {0}`. -/
def backend_state : WlrBackendState :=
  { display := 0, registry := 0, manager := 0, seat := 0, windows := [],
    window_count := 0, initialized := false, needs_refresh := false,
    activation_counter := 0, trace := [] }

/-- Modelled from the spec: the struct `WindowInfo` of data.h (not under src/),
with the fields that `wlr_get_windows` fills. -/
structure WindowInfo where
  address : String
  title : String
  class_name : String
  workspace_id : Int
  focus_history_id : Int
  is_active : Bool
  is_floating : Bool
  group_count : Int
  deriving DecidableEq

/-- Modelled from the spec: the struct `AppState` of data.h (not under src/): the
array `windows`, whose length is `count`. -/
structure AppState where
  windows : List WindowInfo
  deriving DecidableEq

/-- Modelled from the spec: `state->count` of data.h (not under src/). -/
def AppState.count (state : AppState) : Nat := state.windows.length

/-- Modelled from the spec: `app_state_free` of data.c (not under src/) releases
the summaries of the caller's object. -/
def app_state_free (_state : AppState) : AppState := { windows := [] }

/-- Modelled from the spec: `app_state_init` of data.c (not under src/) leaves
an empty sequence. -/
def app_state_init (_state : AppState) : AppState := { windows := [] }

/-- Modelled from the spec: `app_state_add` of data.c (not under src/) appends a
copy of the summary; `none` stands for its negative return, which this model
(allocation succeeds) never produces. -/
def app_state_add (state : AppState) (info : WindowInfo) : Option AppState :=
  some { windows := state.windows ++ [info] }

/-- Modelled from the spec: state code `ZWLR_FOREIGN_TOPLEVEL_HANDLE_V1_STATE_MINIMIZED`
of the protocol header (not under src/). -/
def STATE_MINIMIZED : Nat := 1

/-- Modelled from the spec: state code `ZWLR_FOREIGN_TOPLEVEL_HANDLE_V1_STATE_ACTIVATED`
of the protocol header (not under src/). -/
def STATE_ACTIVATED : Nat := 2

/-- Modelled from the spec: `zwlr_foreign_toplevel_manager_v1_interface.name` of the
protocol header (not under src/). -/
def manager_interface_name : String := "zwlr_foreign_toplevel_manager_v1"

/-- Modelled from the spec: `wl_seat_interface.name` of the Wayland core protocol
(not under src/). -/
def seat_interface_name : String := "wl_seat"

/-! ## Pointer formatting (`snprintf(identifier, 64, "wlr-%p", toplevel)`) -/

/-- One lowercase hexadecimal digit. -/
def hexDigit (d : Nat) : Char :=
  if d < 10 then Char.ofNat (48 + d) else Char.ofNat (87 + d)

/-- Hexadecimal digits of `n`, most significant first; the first argument bounds
the number of digits. -/
def hexDigits : Nat → Nat → List Char
  | 0, _ => []
  | fuel + 1, n =>
    if n < 16 then [hexDigit n] else hexDigits fuel (n / 16) ++ [hexDigit (n % 16)]

/-- The text `%p` prints for a pointer (glibc): `(nil)` for `NULL`, else `0x` and
the hexadecimal digits of the address. -/
def format_pointer (p : Nat) : List Char :=
  if p = 0 then ['(', 'n', 'i', 'l', ')'] else '0' :: 'x' :: hexDigits p p

/-- The identifier written by `snprintf(window->identifier, 64, "wlr-%p", toplevel)`:
at most 63 characters are kept. -/
def snprintf_identifier (toplevel : Nat) : String :=
  String.mk (('w' :: 'l' :: 'r' :: '-' :: format_pointer toplevel).take 63)

/-! ## Activation history -/

/-- The unlink loop shared by `move_window_to_front` and `toplevel_handle_closed`:
the first node whose address is `window` is taken out of the list. -/
def unlink (window : Nat) : List WindowNode → List WindowNode
  | [] => []
  | curr :: next => if curr.addr = window then next else curr :: unlink window next

/-- Whether the unlink loop finds `window`. -/
def linked (window : Nat) : List WindowNode → Bool
  | [] => false
  | curr :: next => if curr.addr = window then true else linked window next

/-- A write through a node pointer: the node of that address is replaced. -/
def store (window : WindowNode) (l : List WindowNode) : List WindowNode :=
  l.map (fun curr => if curr.addr = window.addr then window else curr)

/-- Function `move_window_to_front`; `none` is the `NULL` argument.  The node given
stands for the pointer and what it points to. -/
def move_window_to_front (window : Option WindowNode) (s : WlrBackendState) :
    WlrBackendState :=
  match window, s.windows with
  | none, _ => s
  | some _, [] => s
  | some w, head :: _ =>
    if w.addr = head.addr then s
    else
      { s with
        windows :=
          { w with activation_serial := s.activation_counter + 1 } :: unlink w.addr s.windows
        activation_counter := s.activation_counter + 1 }

/-! ## Event handlers -/

/-- Handler `registry_handle_global`; `bound` is what `wl_registry_bind` returns. -/
def registry_handle_global (_name : Nat) (interface : String) (_version : Nat) (bound : Nat)
    (s : WlrBackendState) : WlrBackendState :=
  if interface = manager_interface_name then { s with manager := bound }
  else if interface = seat_interface_name then { s with seat := bound }
  else s

/-- Handler `registry_handle_global_remove`. -/
def registry_handle_global_remove (_name : Nat) (s : WlrBackendState) : WlrBackendState := s

/-- Handler `toplevel_handle_title`; `none` is a `NULL` string (`strdup` succeeds). -/
def toplevel_handle_title (window : WindowNode) (title : Option String)
    (s : WlrBackendState) : WlrBackendState :=
  { s with windows := store { window with title := some (title.getD "") } s.windows }

/-- Handler `toplevel_handle_app_id`; `none` is a `NULL` string (`strdup` succeeds). -/
def toplevel_handle_app_id (window : WindowNode) (app_id : Option String)
    (s : WlrBackendState) : WlrBackendState :=
  { s with windows := store { window with app_id := some (app_id.getD "") } s.windows }

/-- Handler `toplevel_handle_output_enter`. -/
def toplevel_handle_output_enter (_window : WindowNode) (s : WlrBackendState) :
    WlrBackendState := s

/-- Handler `toplevel_handle_output_leave`. -/
def toplevel_handle_output_leave (_window : WindowNode) (s : WlrBackendState) :
    WlrBackendState := s

/-- The body of `wl_array_for_each` in `toplevel_handle_state`, for one state code. -/
def state_step (window : WindowNode) (state : Nat) : WindowNode :=
  let window := { window with state := window.state ||| (1 <<< state) }
  let window := if state = STATE_ACTIVATED then { window with is_active := true } else window
  if state = STATE_MINIMIZED then { window with is_minimized := true } else window

/-- Handler `toplevel_handle_state`; `wl_state` is the array of state codes. -/
def toplevel_handle_state (window : WindowNode) (wl_state : List Nat)
    (s : WlrBackendState) : WlrBackendState :=
  let was_active := window.is_active
  let window := wl_state.foldl state_step
    { window with state := 0, is_active := false, is_minimized := false }
  let s := { s with windows := store window s.windows }
  if window.is_active && !was_active then move_window_to_front (some window) s else s

/-- Handler `toplevel_handle_done`. -/
def toplevel_handle_done (_window : WindowNode) (s : WlrBackendState) : WlrBackendState :=
  { s with needs_refresh := true }

/-- Handler `toplevel_handle_closed`. -/
def toplevel_handle_closed (window : WindowNode) (s : WlrBackendState) : WlrBackendState :=
  let s :=
    if linked window.addr s.windows then
      { s with windows := unlink window.addr s.windows, window_count := s.window_count - 1 }
    else s
  let s :=
    if window.handle ≠ 0 then { s with trace := s.trace ++ [Action.handle_destroy window.handle] }
    else s
  { s with needs_refresh := true }

/-- Handler `toplevel_handle_parent`. -/
def toplevel_handle_parent (_window : WindowNode) (s : WlrBackendState) : WlrBackendState := s

/-- The node `manager_handle_toplevel` fills in: zeroed by `memset`, then given its
handle and, when `malloc(64)` succeeds (`identifier_ok`), its identifier. -/
def new_window (toplevel : Nat) (node : Nat) (identifier_ok : Bool) : WindowNode :=
  { addr := node, handle := toplevel, title := none, app_id := none,
    identifier := if identifier_ok then some (snprintf_identifier toplevel) else none,
    state := 0, is_active := false, is_minimized := false, activation_serial := 0 }

/-- Handler `manager_handle_toplevel`; `node` is what `malloc(sizeof(WindowNode))` returns
and `identifier_ok` tells whether `malloc(64)` succeeds. -/
def manager_handle_toplevel (toplevel : Nat) (node : Nat) (identifier_ok : Bool)
    (s : WlrBackendState) : WlrBackendState :=
  if node = 0 then s
  else
    { s with
      windows := new_window toplevel node identifier_ok :: s.windows
      window_count := s.window_count + 1 }

/-- Handler `manager_handle_finished`. -/
def manager_handle_finished (s : WlrBackendState) : WlrBackendState :=
  { s with manager := 0 }

/-! ## Event delivery -/

/-- An event as libwayland hands it to a listener; `window` is the `data` pointer
the listener was registered with. -/
inductive Event where
  | global (name : Nat) (interface : String) (version : Nat) (bound : Nat)
  | global_remove (name : Nat)
  | toplevel (toplevel : Nat) (node : Nat) (identifier_ok : Bool)
  | finished
  | title (window : Nat) (title : Option String)
  | app_id (window : Nat) (app_id : Option String)
  | output_enter (window : Nat)
  | output_leave (window : Nat)
  | state (window : Nat) (wl_state : List Nat)
  | done (window : Nat)
  | closed (window : Nat)
  | parent (window : Nat)
  deriving DecidableEq

/-- Dereference of a `data` pointer: the linked node of that address. -/
def node_at (window : Nat) (l : List WindowNode) : Option WindowNode :=
  l.find? (fun curr => curr.addr = window)

/-- Run a handler on the node a `data` pointer refers to. -/
def with_node (window : Nat) (s : WlrBackendState)
    (handler : WindowNode → WlrBackendState → WlrBackendState) : WlrBackendState :=
  match node_at window s.windows with
  | some w => handler w s
  | none => s

/-- The listener tables `registry_listener`, `manager_listener` and
`toplevel_listener`: the handler an event is routed to. -/
def dispatch (e : Event) (s : WlrBackendState) : WlrBackendState :=
  match e with
  | .global name interface version bound => registry_handle_global name interface version bound s
  | .global_remove name => registry_handle_global_remove name s
  | .toplevel toplevel node identifier_ok => manager_handle_toplevel toplevel node identifier_ok s
  | .finished => manager_handle_finished s
  | .title window title => with_node window s (fun w => toplevel_handle_title w title)
  | .app_id window app_id => with_node window s (fun w => toplevel_handle_app_id w app_id)
  | .output_enter window => with_node window s toplevel_handle_output_enter
  | .output_leave window => with_node window s toplevel_handle_output_leave
  | .state window wl_state => with_node window s (fun w => toplevel_handle_state w wl_state)
  | .done window => with_node window s toplevel_handle_done
  | .closed window => with_node window s toplevel_handle_closed
  | .parent window => with_node window s toplevel_handle_parent

/-- The events of one `wl_display_dispatch_pending` or `wl_display_roundtrip`, in
order. -/
def dispatch_all (events : List Event) (s : WlrBackendState) : WlrBackendState :=
  events.foldl (fun s e => dispatch e s) s

/-- What the transport and the allocator guarantee about an event: a new toplevel
handle is a live, non-null 64-bit pointer no linked window holds, a node
returned by `malloc` is `NULL` or an address no linked node has, and a window
event goes to a linked node. -/
def deliverable (e : Event) (s : WlrBackendState) : Bool :=
  match e with
  | .toplevel toplevel node _ =>
    decide (toplevel ≠ 0) && decide (toplevel < 2 ^ 64)
      && !(s.windows.any (fun curr => curr.handle = toplevel))
      && (decide (node = 0) || !(s.windows.any (fun curr => curr.addr = node)))
  | .title window _ | .app_id window _ | .output_enter window | .output_leave window
  | .state window _ | .done window | .closed window | .parent window =>
    (node_at window s.windows).isSome
  | .global _ _ _ _ | .global_remove _ | .finished => true

/-- Every event of the sequence is deliverable in the state it arrives in. -/
def deliverable_all : List Event → WlrBackendState → Bool
  | [], _ => true
  | e :: rest, s => deliverable e s && deliverable_all rest (dispatch e s)

/-! ## Session lifecycle -/

/-- The loop of `cleanup_windows`: the handle of every node that has one is
destroyed, front to back. -/
def destroy_handles : List WindowNode → List Action
  | [] => []
  | curr :: next =>
    if curr.handle ≠ 0 then Action.handle_destroy curr.handle :: destroy_handles next
    else destroy_handles next

/-- Function `cleanup_windows`. -/
def cleanup_windows (s : WlrBackendState) : WlrBackendState :=
  { s with
    trace := s.trace ++ destroy_handles s.windows
    windows := []
    window_count := 0
    activation_counter := 0 }

/-- The loop of `wlr_backend_init` that sets the activation serial of the windows
already active at startup; it returns the list and the counter it leaves. -/
def init_serials : List WindowNode → Int → List WindowNode × Int
  | [], counter => ([], counter)
  | curr :: next, counter =>
    if curr.is_active then
      let rest := init_serials next (counter + 1)
      ({ curr with activation_serial := counter + 1 } :: rest.1, rest.2)
    else
      let rest := init_serials next counter
      (curr :: rest.1, rest.2)

/-- What the environment answers during `wlr_backend_init`: the results of
`wl_display_connect` and `wl_display_get_registry`, and the events the two
roundtrips dispatch. -/
structure InitEnv where
  display : Nat
  registry : Nat
  round1 : List Event
  round2 : List Event
  deriving DecidableEq

/-- Function `wlr_backend_init`: the return value and the state it leaves. -/
def wlr_backend_init (env : InitEnv) (s : WlrBackendState) : Int × WlrBackendState :=
  if s.initialized then (0, s)
  else
    let s := { s with display := env.display }
    if s.display = 0 then (-1, s)
    else
      let s := { s with registry := env.registry }
      if s.registry = 0 then
        (-1, { s with trace := s.trace ++ [Action.display_disconnect s.display] })
      else
        let s := dispatch_all env.round1 s
        if s.manager = 0 then
          (-1, { s with trace := s.trace ++
            [Action.registry_destroy s.registry, Action.display_disconnect s.display] })
        else
          let s := dispatch_all env.round2 s
          let derived := init_serials s.windows s.activation_counter
          (0, { s with
            windows := derived.1
            activation_counter := derived.2
            initialized := true
            needs_refresh := false })

/-- Function `wlr_backend_cleanup`. -/
def wlr_backend_cleanup (s : WlrBackendState) : WlrBackendState :=
  let s :=
    if s.manager ≠ 0 then
      { s with trace := s.trace ++ [Action.manager_destroy s.manager], manager := 0 }
    else s
  let s :=
    if s.seat ≠ 0 then { s with trace := s.trace ++ [Action.seat_destroy s.seat], seat := 0 }
    else s
  let s := cleanup_windows s
  let s :=
    if s.registry ≠ 0 then
      { s with trace := s.trace ++ [Action.registry_destroy s.registry], registry := 0 }
    else s
  let s :=
    if s.display ≠ 0 then
      { s with trace := s.trace ++ [Action.display_disconnect s.display], display := 0 }
    else s
  { s with initialized := false, window_count := 0, needs_refresh := false,
           activation_counter := 0 }

/-! ## Enumeration -/

/-- The summary the walk of `wlr_get_windows` builds for the node `curr` when the
running `index` has the given value. -/
def window_info (curr : WindowNode) (index : Nat) : WindowInfo :=
  let focus_history_id : Int :=
    if curr.activation_serial = 0 then 10000 + (index : Int)
    else 1000 - curr.activation_serial
  { address := curr.identifier.getD ""
    title := curr.title.getD "Untitled"
    class_name := curr.app_id.getD "unknown"
    workspace_id := 0
    focus_history_id := if curr.is_active then 0 else focus_history_id
    is_active := curr.is_active
    is_floating := false
    group_count := 1 }

/-- The walk of `wlr_get_windows` over the list, from `curr` on. -/
def collect_windows : List WindowNode → Nat → AppState → AppState
  | [], _, state => state
  | curr :: next, index, state =>
    if curr.is_minimized then collect_windows next index state
    else
      match app_state_add state (window_info curr index) with
      | none => collect_windows next (index + 1) state
      | some state => collect_windows next (index + 1) state

/-- The body of the inner sort loop: `windows[i]` and `windows[j]` are exchanged
when the first has the larger `focus_history_id`. -/
def sort_exchange (windows : List WindowInfo) (i j : Nat) : List WindowInfo :=
  match windows[i]?, windows[j]? with
  | some wi, some wj =>
    if wi.focus_history_id > wj.focus_history_id then (windows.set i wj).set j wi
    else windows
  | _, _ => windows

/-- The inner sort loop `for (j = ...; j < count; j++)`; the first argument is
the number of iterations left, `count - j`. -/
def sort_inner (i : Nat) : Nat → Nat → List WindowInfo → List WindowInfo
  | 0, _, windows => windows
  | left + 1, j, windows => sort_inner i left (j + 1) (sort_exchange windows i j)

/-- The outer sort loop `for (i = ...; i < count - 1; i++)`; the first argument is
the number of iterations left, `count - 1 - i`. -/
def sort_outer : Nat → Nat → List WindowInfo → List WindowInfo
  | 0, _, windows => windows
  | left + 1, i, windows =>
    sort_outer left (i + 1) (sort_inner i (windows.length - (i + 1)) (i + 1) windows)

/-- The final ordering pass of `wlr_get_windows`. -/
def sort_windows (state : AppState) : AppState :=
  if state.count > 1 then { windows := sort_outer (state.count - 1) 0 state.windows }
  else state

/-- Function `wlr_get_windows`: the return value, the backend state and the caller's
object it leaves.  `queued` are the events dispatched while a read cannot be
prepared, `arrived` those dispatched after the read. -/
def wlr_get_windows (queued arrived : List Event) (s : WlrBackendState) (state : AppState) :
    Int × WlrBackendState × AppState :=
  if !s.initialized then (-1, s, state)
  else
    let state := app_state_init (app_state_free state)
    let s := dispatch_all queued s
    let s := { s with trace := s.trace ++ [Action.display_flush s.display] }
    let s := dispatch_all arrived s
    if s.window_count = 0 then (0, s, state)
    else (0, s, sort_windows (collect_windows s.windows 0 state))

/-! ## Activation command -/

/-- The search loop of `wlr_activate_window`: the first node, in list order, that
has an identifier equal to the argument. -/
def find_identifier (identifier : String) : List WindowNode → Option WindowNode
  | [] => none
  | curr :: next =>
    if curr.identifier = some identifier then some curr else find_identifier identifier next

/-- Function `wlr_activate_window`; `none` is a `NULL` identifier. -/
def wlr_activate_window (identifier : Option String) (s : WlrBackendState) :
    WlrBackendState :=
  if !s.initialized then s
  else
    match identifier with
    | none => s
    | some identifier =>
      match find_identifier identifier s.windows with
      | none => s
      | some curr =>
        let s := move_window_to_front (some curr) s
        if curr.handle ≠ 0 ∧ s.seat ≠ 0 then
          { s with trace := s.trace ++
            [Action.handle_activate curr.handle s.seat, Action.display_flush s.display] }
        else s

/-- Function `wlr_get_name`. -/
def wlr_get_name : String := "wlr"

/-! ## Reachable states -/

/-- The state in which the first roundtrip of `wlr_backend_init` starts. -/
def init_connected (env : InitEnv) (s : WlrBackendState) : WlrBackendState :=
  { s with display := env.display, registry := env.registry }

/-- The state in which the events read by `wlr_get_windows` are dispatched. -/
def pump_flushed (queued : List Event) (s : WlrBackendState) : WlrBackendState :=
  { dispatch_all queued s with
    trace := (dispatch_all queued s).trace ++
      [Action.display_flush (dispatch_all queued s).display] }

/-- The states the backend can be in: the static zero state, closed under the
delivery of events, the three calls of the interface and teardown.  The event
sequences of a call are deliverable one after the other. -/
inductive Reach : WlrBackendState → Prop where
  | zero : Reach backend_state
  | event (e : Event) (s : WlrBackendState) :
      Reach s → deliverable e s = true → Reach (dispatch e s)
  | init (env : InitEnv) (s : WlrBackendState) :
      Reach s → deliverable_all env.round1 (init_connected env s) = true →
      deliverable_all env.round2 (dispatch_all env.round1 (init_connected env s)) = true →
      Reach (wlr_backend_init env s).2
  | get_windows (queued arrived : List Event) (s : WlrBackendState) (state : AppState) :
      Reach s → deliverable_all queued s = true →
      deliverable_all arrived (pump_flushed queued s) = true →
      Reach (wlr_get_windows queued arrived s state).2.1
  | activate (identifier : Option String) (s : WlrBackendState) :
      Reach s → Reach (wlr_activate_window identifier s)
  | cleanup (s : WlrBackendState) : Reach s → Reach (wlr_backend_cleanup s)

/-! ## The ordering pass as a function on lists -/

/-- One run of the inner sort loop seen from position `i`: the element held at `i`
and the elements after it, as the loop leaves them. -/
def exchange_pass (x : WindowInfo) : List WindowInfo → WindowInfo × List WindowInfo
  | [] => (x, [])
  | y :: ys =>
    if x.focus_history_id > y.focus_history_id then
      ((exchange_pass y ys).1, x :: (exchange_pass y ys).2)
    else ((exchange_pass x ys).1, y :: (exchange_pass x ys).2)

/-- The outer sort loop seen from position `i` on the elements from `i` on. -/
def exchange_sort : Nat → List WindowInfo → List WindowInfo
  | 0, l => l
  | _ + 1, [] => []
  | left + 1, x :: xs => (exchange_pass x xs).1 :: exchange_sort left (exchange_pass x xs).2

/-- The order the final pass establishes: ascending `focus_history_id`. -/
def Ascending (l : List WindowInfo) : Prop :=
  l.Pairwise (fun a b => a.focus_history_id ≤ b.focus_history_id)

/-- The summaries the walk of `wlr_get_windows` appends, for the list from `curr`
on and a running `index`. -/
def summaries : List WindowNode → Nat → List WindowInfo
  | [], _ => []
  | curr :: next, index =>
    if curr.is_minimized then summaries next index
    else window_info curr index :: summaries next (index + 1)

/-! ## Sample sessions -/

/-- A startup in which the compositor advertises the manager and a seat and no
window exists yet. -/
def sample_env : InitEnv :=
  { display := 7, registry := 8,
    round1 := [Event.global 1 "zwlr_foreign_toplevel_manager_v1" 3 9, Event.global 2 "wl_seat" 1 5],
    round2 := [] }

/-- The session after `wlr_backend_init` on `sample_env`. -/
def sample_session : WlrBackendState := (wlr_backend_init sample_env backend_state).2

/-- Three windows are announced; the first and then the second are activated
and deactivated again. -/
def sample_two_activations : List Event :=
  [Event.toplevel 4096 16 true, Event.toplevel 8192 32 true, Event.toplevel 12288 48 true,
   Event.state 16 [STATE_ACTIVATED], Event.state 16 [],
   Event.state 32 [STATE_ACTIVATED], Event.state 32 []]

/-- The first window of `sample_two_activations`, as that sequence leaves it. -/
def sample_first : WindowNode :=
  { addr := 16, handle := 4096, title := none, app_id := none, identifier := some "wlr-0x1000",
    state := 0, is_active := false, is_minimized := false, activation_serial := 1 }

/-- The second window of `sample_two_activations`, as that sequence leaves it. -/
def sample_second : WindowNode :=
  { addr := 32, handle := 8192, title := none, app_id := none, identifier := some "wlr-0x2000",
    state := 0, is_active := false, is_minimized := false, activation_serial := 2 }

/-- The third window of `sample_two_activations`, as that sequence leaves it. -/
def sample_third : WindowNode :=
  { addr := 48, handle := 12288, title := none, app_id := none, identifier := some "wlr-0x3000",
    state := 0, is_active := false, is_minimized := false, activation_serial := 0 }

/-- Two windows are announced and the first is activated and deactivated; then a
third window is announced and, sitting at the head of the list, reported
active. -/
def sample_new_window_focused : List Event :=
  [Event.toplevel 4096 16 true, Event.toplevel 8192 32 true,
   Event.state 16 [STATE_ACTIVATED], Event.state 16 [],
   Event.toplevel 12288 48 true, Event.state 48 [STATE_ACTIVATED]]

/-- The newly announced, active window of `sample_new_window_focused`: its serial
is still 0. -/
def sample_focused : WindowNode :=
  { addr := 48, handle := 12288, title := none, app_id := none, identifier := some "wlr-0x3000",
    state := 4, is_active := true, is_minimized := false, activation_serial := 0 }

/-- The second window of `sample_new_window_focused`, never activated. -/
def sample_idle : WindowNode :=
  { addr := 32, handle := 8192, title := none, app_id := none, identifier := some "wlr-0x2000",
    state := 0, is_active := false, is_minimized := false, activation_serial := 0 }

/-- The Created event of an announcement `(toplevel, node, identifier_ok)`. -/
def created (c : Nat × Nat × Bool) : Event := Event.toplevel c.1 c.2.1 c.2.2

/-- Three windows are announced. -/
def sample_three_created : List (Nat × Nat × Bool) :=
  [(4096, 16, true), (8192, 32, true), (12288, 48, true)]

/-- A node that is neither minimized nor active and has serial 0. -/
def Untouched (w : WindowNode) : Prop :=
  w.is_minimized = false ∧ w.is_active = false ∧ w.activation_serial = 0

/-! ## Invariants of the reachable states -/

/-- What holds of every linked node when the activation counter is `counter`: its
handle is a non-null 64-bit pointer, its identifier is absent or the text
printed from its handle, and its serial lies between 0 and the counter. -/
def NodeOk (counter : Int) (w : WindowNode) : Prop :=
  w.handle ≠ 0 ∧ w.handle < 2 ^ 64 ∧
    (w.identifier = none ∨ w.identifier = some (snprintf_identifier w.handle)) ∧
    0 ≤ w.activation_serial ∧ w.activation_serial ≤ counter

/-- The invariant of the window list: node addresses are pairwise distinct, so
are the handles, and every node is `NodeOk`. -/
def ListInv (l : List WindowNode) (counter : Int) : Prop :=
  (l.map (fun w => w.addr)).Nodup ∧ (l.map (fun w => w.handle)).Nodup ∧
    ∀ w ∈ l, NodeOk counter w

/-- The invariant of the session state: `window_count` is the length of the list,
the activation counter is not negative and the list satisfies `ListInv`. -/
def Inv (s : WlrBackendState) : Prop :=
  s.window_count = (s.windows.length : Int) ∧ 0 ≤ s.activation_counter ∧
    ListInv s.windows s.activation_counter

/-- Two values of one node that differ at most in title, application id and state
fields. -/
def SameNode (w v : WindowNode) : Prop :=
  v.addr = w.addr ∧ v.handle = w.handle ∧ v.identifier = w.identifier ∧
    v.activation_serial = w.activation_serial

/-- Three windows are announced and the first is reported minimized. -/
def sample_one_minimized : List Event :=
  [Event.toplevel 4096 16 true, Event.toplevel 8192 32 true, Event.toplevel 12288 48 true,
   Event.state 16 [STATE_MINIMIZED]]

/-- Two windows are announced and both are reported active, the second before
the first is reported inactive. -/
def sample_two_active : List Event :=
  [Event.toplevel 4096 16 true, Event.toplevel 8192 32 true,
   Event.state 16 [STATE_ACTIVATED], Event.state 32 [STATE_ACTIVATED]]

/-- The first window of `sample_two_active`, as that sequence leaves it. -/
def sample_active_first : WindowNode :=
  { addr := 16, handle := 4096, title := none, app_id := none, identifier := some "wlr-0x1000",
    state := 4, is_active := true, is_minimized := false, activation_serial := 1 }

/-- The second window of `sample_two_active`, as that sequence leaves it. -/
def sample_active_second : WindowNode :=
  { addr := 32, handle := 8192, title := none, app_id := none, identifier := some "wlr-0x2000",
    state := 4, is_active := true, is_minimized := false, activation_serial := 2 }

/-! ## The ordering the spec asks for -/

/-- Spec wording (stable sort, ties broken by pre-sort order): insertion of a
summary in front of the first one whose `focus_history_id` is not smaller. -/
def spec_stable_insert (x : WindowInfo) : List WindowInfo → List WindowInfo
  | [] => [x]
  | y :: ys =>
    if x.focus_history_id ≤ y.focus_history_id then x :: y :: ys
    else y :: spec_stable_insert x ys

/-- Spec wording: the stable ascending sort by `focus_history_id`; each summary is
inserted in front of the later ones, so equal keys keep their pre-sort order. -/
def spec_stable_sort : List WindowInfo → List WindowInfo
  | [] => []
  | x :: xs => spec_stable_insert x (spec_stable_sort xs)

/-- A summary with the given address and `focus_history_id`. -/
def sample_info (address : String) (focus_history_id : Int) : WindowInfo :=
  { address := address, title := "Untitled", class_name := "unknown", workspace_id := 0,
    focus_history_id := focus_history_id, is_active := false, is_floating := false,
    group_count := 1 }

/-- Two summaries with equal keys followed by one with a smaller key. -/
def sample_tie : AppState :=
  { windows := [sample_info "a" 2, sample_info "b" 2, sample_info "c" 1] }

/-- Three summaries with pairwise distinct keys. -/
def sample_distinct : AppState :=
  { windows := [sample_info "a" 3, sample_info "b" 2, sample_info "c" 1] }

/-- The session after three windows were announced to `sample_session`. -/
def sample_three_windows : WlrBackendState :=
  dispatch_all (sample_three_created.map created) sample_session

/-- A startup in which the compositor advertises the manager but no seat. -/
def sample_env_no_seat : InitEnv :=
  { display := 7, registry := 8,
    round1 := [Event.global 1 "zwlr_foreign_toplevel_manager_v1" 3 9], round2 := [] }

/-- Three windows announced to a session without a seat. -/
def sample_three_windows_no_seat : WlrBackendState :=
  dispatch_all (sample_three_created.map created)
    (wlr_backend_init sample_env_no_seat backend_state).2

/-- The value of one hexadecimal digit character. -/
def digitValue (c : Char) : Nat :=
  if c.toNat < 58 then c.toNat - 48 else c.toNat - 87

/-- The number a sequence of hexadecimal digits denotes. -/
def hexValue (l : List Char) : Nat :=
  l.foldl (fun acc c => acc * 16 + digitValue c) 0

/-! ## What happens after a window is closed -/

/-- Whether an event announces a toplevel with the handle `handle`. -/
def announces (handle : Nat) : Event → Bool
  | Event.toplevel toplevel _ _ => decide (toplevel = handle)
  | _ => false

/-- No event of the sequence announces a toplevel with the handle `handle`. -/
def avoids (handle : Nat) (events : List Event) : Bool :=
  events.all (fun e => !announces handle e)

/-- The relation `Later handle s t`: the state `t` is reached from `s` by delivered events and calls
of the interface, none of which announces a toplevel with the handle `handle`. -/
inductive Later (handle : Nat) (s : WlrBackendState) : WlrBackendState → Prop where
  | here : Later handle s s
  | event (e : Event) (t : WlrBackendState) :
      Later handle s t → deliverable e t = true → announces handle e = false →
      Later handle s (dispatch e t)
  | init (env : InitEnv) (t : WlrBackendState) :
      Later handle s t → deliverable_all env.round1 (init_connected env t) = true →
      deliverable_all env.round2 (dispatch_all env.round1 (init_connected env t)) = true →
      avoids handle env.round1 = true → avoids handle env.round2 = true →
      Later handle s (wlr_backend_init env t).2
  | get_windows (queued arrived : List Event) (t : WlrBackendState) (state : AppState) :
      Later handle s t → deliverable_all queued t = true →
      deliverable_all arrived (pump_flushed queued t) = true →
      avoids handle queued = true → avoids handle arrived = true →
      Later handle s (wlr_get_windows queued arrived t state).2.1
  | activate (identifier : Option String) (t : WlrBackendState) :
      Later handle s t → Later handle s (wlr_activate_window identifier t)
  | cleanup (t : WlrBackendState) : Later handle s t → Later handle s (wlr_backend_cleanup t)

/-- No linked window holds the handle `handle`. -/
def Absent (handle : Nat) (s : WlrBackendState) : Prop :=
  ∀ w ∈ s.windows, w.handle ≠ handle

/-- The session after `sample_one_minimized` was delivered to `sample_session`. -/
def sample_minimized_session : WlrBackendState :=
  dispatch_all sample_one_minimized sample_session

/-- The minimized window of `sample_minimized_session`. -/
def sample_minimized : WindowNode :=
  { addr := 16, handle := 4096, title := none, app_id := none, identifier := some "wlr-0x1000",
    state := 2, is_active := false, is_minimized := true, activation_serial := 0 }

/-! ## Titles and application ids received -/

/-- What a reader of the event stream records per node address: the payload of
the last title event and of the last app-id event the node received since it
was allocated (`none` when there was no such event; a payload is `none` for a
`NULL` string). -/
structure Received where
  title : Nat → Option (Option String)
  app_id : Nat → Option (Option String)

/-- Nothing has been received yet. -/
def Received.nothing : Received := { title := fun _ => none, app_id := fun _ => none }

/-- The record after one more event. -/
def receive (r : Received) (e : Event) : Received :=
  match e with
  | Event.toplevel _ node _ =>
    if node = 0 then r
    else
      { title := fun a => if a = node then none else r.title a
        app_id := fun a => if a = node then none else r.app_id a }
  | Event.title window title =>
    { r with title := fun a => if a = window then some title else r.title a }
  | Event.app_id window app_id =>
    { r with app_id := fun a => if a = window then some app_id else r.app_id a }
  | _ => r

/-- The record after a sequence of events. -/
def receive_all (r : Received) (events : List Event) : Received :=
  events.foldl receive r

/-- The string fields of every linked node hold what the record says the node
received last, a `NULL` payload stored as the empty string. -/
def Tracks (r : Received) (s : WlrBackendState) : Prop :=
  ∀ w ∈ s.windows,
    w.title = (r.title w.addr).map (fun t => t.getD "") ∧
    w.app_id = (r.app_id w.addr).map (fun t => t.getD "")

/-- Three windows are announced; the first receives a title and an application
id, the second a `NULL` title. -/
def sample_titles : List Event :=
  [Event.toplevel 4096 16 true, Event.toplevel 8192 32 true, Event.toplevel 12288 48 true,
   Event.title 16 (some "Terminal"), Event.app_id 16 (some "foot"), Event.title 32 none]

/-! ## Sample startups that fail -/

/-- A startup in which no display can be connected. -/
def sample_env_no_display : InitEnv :=
  { display := 0, registry := 0, round1 := [], round2 := [] }

/-- A startup in which the display is connected and the registry cannot be obtained. -/
def sample_env_no_registry : InitEnv :=
  { display := 7, registry := 0, round1 := [], round2 := [] }

/-- A startup in which the compositor advertises a seat and no foreign-toplevel
manager. -/
def sample_env_no_manager : InitEnv :=
  { display := 7, registry := 8, round1 := [Event.global 2 "wl_seat" 1 5], round2 := [] }

/-- A node that is not linked in `sample_three_windows`. -/
def sample_unlinked : WindowNode := new_window 16384 64 true

/-! ## History order against serials -/

/-- History/serial consistency: scanning the list from the front, the serials that
are positive do not increase. -/
def SerialsOrdered (l : List WindowNode) : Prop :=
  (l.map (fun w => w.activation_serial)).Pairwise (fun a b => 0 < a → 0 < b → b ≤ a)

/-- Whether the startup derivation of `wlr_backend_init` meets a list it keeps
ordered: at most one window is active and every window in front of it is
non-active with serial 0. -/
def derivation_ordered : List WindowNode → Bool
  | [] => true
  | w :: rest =>
    rest.all (fun x => !x.is_active) ||
      (!w.is_active && decide (w.activation_serial = 0) && derivation_ordered rest)

/-- Whether `wlr_backend_init` gets as far as its startup derivation. -/
def init_derives (env : InitEnv) (s : WlrBackendState) : Bool :=
  !s.initialized && decide (env.display ≠ 0) && decide (env.registry ≠ 0) &&
    decide ((dispatch_all env.round1 (init_connected env s)).manager ≠ 0)

/-- The states of `Reach` in whose history every startup derivation met a list
with `derivation_ordered`. -/
inductive ReachOrdered : WlrBackendState → Prop where
  | zero : ReachOrdered backend_state
  | event (e : Event) (s : WlrBackendState) :
      ReachOrdered s → deliverable e s = true → ReachOrdered (dispatch e s)
  | init (env : InitEnv) (s : WlrBackendState) :
      ReachOrdered s → deliverable_all env.round1 (init_connected env s) = true →
      deliverable_all env.round2 (dispatch_all env.round1 (init_connected env s)) = true →
      (init_derives env s = true →
        derivation_ordered (dispatch_all env.round2
          (dispatch_all env.round1 (init_connected env s))).windows = true) →
      ReachOrdered (wlr_backend_init env s).2
  | get_windows (queued arrived : List Event) (s : WlrBackendState) (state : AppState) :
      ReachOrdered s → deliverable_all queued s = true →
      deliverable_all arrived (pump_flushed queued s) = true →
      ReachOrdered (wlr_get_windows queued arrived s state).2.1
  | activate (identifier : Option String) (s : WlrBackendState) :
      ReachOrdered s → ReachOrdered (wlr_activate_window identifier s)
  | cleanup (s : WlrBackendState) : ReachOrdered s → ReachOrdered (wlr_backend_cleanup s)

/-- A startup in which two windows are announced and both reported active. -/
def sample_env_two_active : InitEnv :=
  { display := 7, registry := 8,
    round1 := [Event.global 1 "zwlr_foreign_toplevel_manager_v1" 3 9, Event.global 2 "wl_seat" 1 5],
    round2 := sample_two_active }

/-- A startup in which three windows are announced and the second is reported
active. -/
def sample_env_one_active : InitEnv :=
  { display := 7, registry := 8,
    round1 := [Event.global 1 "zwlr_foreign_toplevel_manager_v1" 3 9, Event.global 2 "wl_seat" 1 5],
    round2 := [Event.toplevel 4096 16 true, Event.state 16 [],
               Event.toplevel 8192 32 true, Event.state 32 [STATE_ACTIVATED],
               Event.toplevel 12288 48 true, Event.state 48 []] }

/-- The session after one window was announced to `sample_session`. -/
def sample_announced : WlrBackendState :=
  dispatch (Event.toplevel 4096 16 true) sample_session

/-! ## The state a State event reports -/

/-- The flags a reported array of state codes stands for: the bitwise OR of
`1 << code` over the codes of the array. -/
def reported_flags (wl_state : List Nat) : Nat :=
  wl_state.foldl (fun flags code => flags ||| (1 <<< code)) 0

/-- The node `window` with the three state fields as the reported array alone
determines them. -/
def reported_node (window : WindowNode) (wl_state : List Nat) : WindowNode :=
  { window with
    state := reported_flags wl_state
    is_active := decide (STATE_ACTIVATED ∈ wl_state)
    is_minimized := decide (STATE_MINIMIZED ∈ wl_state) }

/-! ## Events that carry no recency data -/

/-- The events other than State, Created and Closed that a window or the manager
can send: title, app-id, output enter and leave, parent, Done and Finished. -/
def quiet (e : Event) : Bool :=
  match e with
  | Event.title _ _ | Event.app_id _ _ | Event.output_enter _ | Event.output_leave _
  | Event.parent _ | Event.done _ | Event.finished => true
  | _ => false

/-- The recency data of a session: per node, in history order, its address,
activation serial, state flags and the two derived booleans; the window count
and the activation counter. -/
def recency (s : WlrBackendState) : List (Nat × Int × Nat × Bool × Bool) × Int × Int :=
  (s.windows.map (fun w => (w.addr, w.activation_serial, w.state, w.is_active, w.is_minimized)),
    s.window_count, s.activation_counter)

/-! ## Serial bookkeeping -/

/-- The events `wlr_backend_init` dispatches: none when it returns before the first
roundtrip, those of the first roundtrip when no manager is bound after it, and
those of both roundtrips otherwise. -/
def init_events (env : InitEnv) (s : WlrBackendState) : List Event :=
  if s.initialized then []
  else if env.display = 0 then []
  else if env.registry = 0 then []
  else if (dispatch_all env.round1 (init_connected env s)).manager = 0 then env.round1
  else env.round1 ++ env.round2

/-- The events `wlr_get_windows` dispatches: none while the backend is not
initialized. -/
def get_windows_events (queued arrived : List Event) (s : WlrBackendState) : List Event :=
  if s.initialized then queued ++ arrived else []

/-- The states of `Reach`, each with the record of the titles and application ids
that the events of its history carried: `ReachReceived r s` says that `s` is
reached by a history whose title and app-id events leave the record `r`. -/
inductive ReachReceived : Received → WlrBackendState → Prop where
  | zero : ReachReceived Received.nothing backend_state
  | event (e : Event) (r : Received) (s : WlrBackendState) :
      ReachReceived r s → deliverable e s = true → ReachReceived (receive r e) (dispatch e s)
  | init (env : InitEnv) (r : Received) (s : WlrBackendState) :
      ReachReceived r s → deliverable_all env.round1 (init_connected env s) = true →
      deliverable_all env.round2 (dispatch_all env.round1 (init_connected env s)) = true →
      ReachReceived (receive_all r (init_events env s)) (wlr_backend_init env s).2
  | get_windows (queued arrived : List Event) (r : Received) (s : WlrBackendState)
      (state : AppState) :
      ReachReceived r s → deliverable_all queued s = true →
      deliverable_all arrived (pump_flushed queued s) = true →
      ReachReceived (receive_all r (get_windows_events queued arrived s))
        (wlr_get_windows queued arrived s state).2.1
  | activate (identifier : Option String) (r : Received) (s : WlrBackendState) :
      ReachReceived r s → ReachReceived r (wlr_activate_window identifier s)
  | cleanup (r : Received) (s : WlrBackendState) :
      ReachReceived r s → ReachReceived r (wlr_backend_cleanup s)

/-- A startup whose second roundtrip announces three windows and delivers the
titles and the application id of `sample_titles`. -/
def sample_env_titles : InitEnv :=
  { display := 7, registry := 8,
    round1 := [Event.global 1 "zwlr_foreign_toplevel_manager_v1" 3 9, Event.global 2 "wl_seat" 1 5],
    round2 := sample_titles }

/-- The session after `wlr_backend_init` on `sample_env_titles`. -/
def sample_titled_session : WlrBackendState :=
  (wlr_backend_init sample_env_titles backend_state).2

/-- The record of the events of `sample_env_titles`. -/
def sample_titled_record : Received :=
  receive_all Received.nothing (init_events sample_env_titles backend_state)

/-! ## The range of the activation counter -/

/-- The largest value of the 32-bit C type `int`, the type of `activation_counter`
and `activation_serial`: `activation_counter++` is defined only below it. -/
def INT_MAX : Int := 2147483647

/-! ## A window activated while it is the head -/

/-- A window is announced, reported active and then inactive; a second window is
announced and, sitting at the head of the list, reported active. -/
def sample_head_activated : List Event :=
  [Event.toplevel 4096 16 true, Event.state 16 [STATE_ACTIVATED], Event.state 16 [],
   Event.toplevel 8192 32 true, Event.state 32 [STATE_ACTIVATED]]

end WlrBackend

/-! # Theorems -/

namespace WlrBackend

/-! ## The ordering pass -/

theorem getElem?_at_length {α : Type} (p : List α) (x : α) (t : List α) :
    (p ++ x :: t)[p.length]? = some x := by
  rw [List.getElem?_append_right (Nat.le_refl _)]
  simp

theorem set_at_length {α : Type} (p : List α) (x y : α) (t : List α) :
    (p ++ x :: t).set p.length y = p ++ y :: t := by
  simp

theorem sort_exchange_at (pre mid ys : List WindowInfo) (x y : WindowInfo) :
    sort_exchange (pre ++ x :: (mid ++ y :: ys)) pre.length (pre.length + 1 + mid.length) =
      if x.focus_history_id > y.focus_history_id then pre ++ y :: (mid ++ x :: ys)
      else pre ++ x :: (mid ++ y :: ys) := by
  have hj : pre.length + 1 + mid.length = (pre ++ x :: mid).length := by simp; omega
  have hi : (pre ++ x :: (mid ++ y :: ys))[pre.length]? = some x := getElem?_at_length _ _ _
  have hj1 : (pre ++ x :: (mid ++ y :: ys))[pre.length + 1 + mid.length]? = some y := by
    rw [hj]
    have : pre ++ x :: (mid ++ y :: ys) = (pre ++ x :: mid) ++ y :: ys := by simp
    rw [this]; exact getElem?_at_length _ _ _
  unfold sort_exchange
  rw [hi, hj1]
  simp only []
  split
  · rw [set_at_length]
    have : pre ++ y :: (mid ++ y :: ys) = (pre ++ y :: mid) ++ y :: ys := by simp
    rw [this]
    have hj2 : pre.length + 1 + mid.length = (pre ++ y :: mid).length := by simp; omega
    rw [hj2, set_at_length]; simp
  · rfl

theorem sort_inner_eq (pre : List WindowInfo) (rest : List WindowInfo) :
    ∀ (x : WindowInfo) (mid : List WindowInfo),
      sort_inner pre.length rest.length (pre.length + 1 + mid.length)
          (pre ++ x :: (mid ++ rest)) =
        pre ++ (exchange_pass x rest).1 :: (mid ++ (exchange_pass x rest).2) := by
  induction rest with
  | nil => intro x mid; simp [sort_inner, exchange_pass]
  | cons y ys ih =>
    intro x mid
    simp only [List.length_cons, sort_inner]
    rw [sort_exchange_at]
    by_cases h : x.focus_history_id > y.focus_history_id
    · simp only [h, if_true, exchange_pass]
      have := ih y (mid ++ [x])
      simp only [List.length_append, List.length_singleton, List.append_assoc,
        List.singleton_append] at this
      rw [← Nat.add_assoc] at this
      rw [this]
    · simp only [h, if_false, exchange_pass]
      have := ih x (mid ++ [y])
      simp only [List.length_append, List.length_singleton, List.append_assoc,
        List.singleton_append] at this
      rw [← Nat.add_assoc] at this
      rw [this]

theorem exchange_pass_length (rest : List WindowInfo) :
    ∀ x : WindowInfo, (exchange_pass x rest).2.length = rest.length := by
  induction rest with
  | nil => intro x; rfl
  | cons y ys ih =>
    intro x
    unfold exchange_pass
    split <;> simp [ih]

theorem sort_outer_eq (left : Nat) :
    ∀ (pre l : List WindowInfo), l.length = left + 1 →
      sort_outer left pre.length (pre ++ l) = pre ++ exchange_sort left l := by
  induction left with
  | zero => intro pre l _; simp [sort_outer, exchange_sort]
  | succ n ih =>
    intro pre l hl
    match l, hl with
    | x :: xs, hl =>
      simp only [List.length_cons] at hl
      have hx : xs.length = n + 1 := by omega
      simp only [sort_outer, exchange_sort]
      have hlen : (pre ++ x :: xs).length - (pre.length + 1) = xs.length := by
        simp only [List.length_append, List.length_cons]; omega
      rw [hlen]
      have := sort_inner_eq pre xs x []
      simp only [List.length_nil, Nat.add_zero, List.nil_append] at this
      rw [this]
      have h2 := ih (pre ++ [(exchange_pass x xs).1]) (exchange_pass x xs).2
        (by rw [exchange_pass_length]; exact hx)
      simp only [List.length_append, List.length_singleton, List.append_assoc,
        List.singleton_append] at h2
      exact h2

theorem sort_windows_eq (state : AppState) :
    (sort_windows state).windows = exchange_sort (state.windows.length - 1) state.windows := by
  unfold sort_windows AppState.count
  split
  · rename_i h
    have := sort_outer_eq (state.windows.length - 1) [] state.windows (by omega)
    simpa using this
  · rename_i h
    match hw : state.windows with
    | [] => simp [exchange_sort]
    | [x] => simp [exchange_sort]
    | x :: y :: t => rw [hw] at h; simp at h

theorem exchange_pass_perm (rest : List WindowInfo) :
    ∀ x : WindowInfo,
      ((exchange_pass x rest).1 :: (exchange_pass x rest).2).Perm (x :: rest) := by
  induction rest with
  | nil => intro x; simp [exchange_pass]
  | cons y ys ih =>
    intro x
    unfold exchange_pass
    split
    · exact ((List.Perm.swap _ _ _).trans ((ih y).cons x))
    · exact ((List.Perm.swap _ _ _).trans (((ih x).cons y).trans (List.Perm.swap _ _ _)))

theorem exchange_pass_le (rest : List WindowInfo) :
    ∀ x : WindowInfo,
      (exchange_pass x rest).1.focus_history_id ≤ x.focus_history_id ∧
        ∀ y ∈ rest, (exchange_pass x rest).1.focus_history_id ≤ y.focus_history_id := by
  induction rest with
  | nil => intro x; simp [exchange_pass]
  | cons y ys ih =>
    intro x
    unfold exchange_pass
    split
    · rename_i h
      refine ⟨by have := (ih y).1; simp only []; omega, ?_⟩
      intro z hz
      rcases List.mem_cons.mp hz with rfl | hz
      · exact (ih _).1
      · exact (ih y).2 z hz
    · rename_i h
      refine ⟨(ih x).1, ?_⟩
      intro z hz
      rcases List.mem_cons.mp hz with rfl | hz
      · have := (ih x).1; simp only []; omega
      · exact (ih x).2 z hz

theorem exchange_pass_le_rest (rest : List WindowInfo) (x : WindowInfo) :
    ∀ y ∈ (exchange_pass x rest).2,
      (exchange_pass x rest).1.focus_history_id ≤ y.focus_history_id := by
  intro y hy
  have hmem : y ∈ x :: rest :=
    (exchange_pass_perm rest x).subset (List.mem_cons_of_mem _ hy)
  rcases List.mem_cons.mp hmem with rfl | h
  · exact (exchange_pass_le rest _).1
  · exact (exchange_pass_le rest x).2 y h

theorem exchange_sort_perm (left : Nat) :
    ∀ l : List WindowInfo, (exchange_sort left l).Perm l := by
  induction left with
  | zero => intro l; exact List.Perm.refl _
  | succ n ih =>
    intro l
    match l with
    | [] => exact List.Perm.refl _
    | x :: xs =>
      simp only [exchange_sort]
      exact ((ih _).cons _).trans (exchange_pass_perm xs x)

theorem exchange_sort_ascending (left : Nat) :
    ∀ l : List WindowInfo, l.length ≤ left + 1 → Ascending (exchange_sort left l) := by
  induction left with
  | zero =>
    intro l hl
    match l, hl with
    | [], _ => exact List.Pairwise.nil
    | [x], _ => exact List.pairwise_singleton _ _
  | succ n ih =>
    intro l hl
    match l, hl with
    | [], _ => exact List.Pairwise.nil
    | x :: xs, hl =>
      simp only [exchange_sort]
      refine List.Pairwise.cons ?_ (ih _ ?_)
      · intro y hy
        exact exchange_pass_le_rest xs x y ((exchange_sort_perm n _).subset hy)
      · rw [exchange_pass_length]; simp only [List.length_cons] at hl; omega

theorem exchange_pass_fixed (rest : List WindowInfo) :
    ∀ x : WindowInfo, (∀ y ∈ rest, x.focus_history_id ≤ y.focus_history_id) →
      exchange_pass x rest = (x, rest) := by
  induction rest with
  | nil => intro x _; rfl
  | cons y ys ih =>
    intro x h
    have hy : ¬ x.focus_history_id > y.focus_history_id := by
      have := h y (List.mem_cons_self _ _); omega
    unfold exchange_pass
    rw [if_neg hy, ih x (fun z hz => h z (List.mem_cons_of_mem _ hz))]

theorem exchange_sort_fixed (left : Nat) :
    ∀ l : List WindowInfo, Ascending l → exchange_sort left l = l := by
  induction left with
  | zero => intro l _; rfl
  | succ n ih =>
    intro l hl
    match l, hl with
    | [], _ => rfl
    | x :: xs, hl =>
      have hx := List.pairwise_cons.mp hl
      simp only [exchange_sort]
      rw [exchange_pass_fixed xs x hx.1]
      simp only []
      rw [ih xs hx.2]

theorem sort_windows_perm (state : AppState) :
    (sort_windows state).windows.Perm state.windows := by
  rw [sort_windows_eq]; exact exchange_sort_perm _ _

theorem sort_windows_ascending (state : AppState) :
    Ascending (sort_windows state).windows := by
  rw [sort_windows_eq]; exact exchange_sort_ascending _ _ (by omega)

theorem sort_windows_fixed (state : AppState) (h : Ascending state.windows) :
    (sort_windows state).windows = state.windows := by
  rw [sort_windows_eq]; exact exchange_sort_fixed _ _ h

/-- In an ascending list a strictly smaller key sits at a strictly smaller index. -/
theorem ascending_index_lt (l : List WindowInfo) (h : Ascending l) (i j : Nat)
    (a b : WindowInfo) (hi : l[i]? = some a) (hj : l[j]? = some b)
    (hab : a.focus_history_id < b.focus_history_id) : i < j := by
  by_contra hij
  have hji : j ≤ i := Nat.le_of_not_lt hij
  rcases Nat.eq_or_lt_of_le hji with heq | hlt
  · subst heq
    rw [hi] at hj
    cases hj
    omega
  · obtain ⟨hi1, hi2⟩ := List.getElem?_eq_some.mp hi
    obtain ⟨hj1, hj2⟩ := List.getElem?_eq_some.mp hj
    have := (List.pairwise_iff_getElem.mp h) j i hj1 hi1 hlt
    rw [hi2, hj2] at this
    omega

/-! ## The snapshot -/

theorem collect_windows_eq (l : List WindowNode) :
    ∀ (index : Nat) (state : AppState),
      collect_windows l index state = { windows := state.windows ++ summaries l index } := by
  induction l with
  | nil => intro index state; simp [collect_windows, summaries]
  | cons curr next ih =>
    intro index state
    unfold collect_windows summaries
    split
    · exact ih _ _
    · simp only [app_state_add]
      rw [ih]
      simp

/-- The backend state in which `wlr_get_windows` builds its snapshot. -/
theorem wlr_get_windows_eq (queued arrived : List Event) (s : WlrBackendState)
    (state : AppState) (h : s.initialized = true) :
    wlr_get_windows queued arrived s state =
      (0, dispatch_all arrived (pump_flushed queued s),
        if (dispatch_all arrived (pump_flushed queued s)).window_count = 0 then { windows := [] }
        else sort_windows
          { windows := summaries (dispatch_all arrived (pump_flushed queued s)).windows 0 }) := by
  unfold wlr_get_windows
  simp only [h, Bool.not_true, Bool.false_eq_true, if_false, app_state_init, pump_flushed]
  split
  · rfl
  · rw [collect_windows_eq]; simp

theorem wlr_get_windows_ascending (queued arrived : List Event) (s : WlrBackendState)
    (state : AppState) (h : s.initialized = true) :
    Ascending (wlr_get_windows queued arrived s state).2.2.windows := by
  rw [wlr_get_windows_eq _ _ _ _ h]
  simp only []
  split
  · exact List.Pairwise.nil
  · exact sort_windows_ascending _

theorem window_info_key_activated (w : WindowNode) (k : Nat) (ha : w.is_active = false)
    (hs : w.activation_serial ≠ 0) :
    (window_info w k).focus_history_id = 1000 - w.activation_serial := by
  simp [window_info, ha, hs]

theorem window_info_key_never (w : WindowNode) (k : Nat) (ha : w.is_active = false)
    (hs : w.activation_serial = 0) :
    (window_info w k).focus_history_id = 10000 + (k : Int) := by
  simp [window_info, ha, hs]

theorem window_info_key_active (w : WindowNode) (k : Nat) (ha : w.is_active = true) :
    (window_info w k).focus_history_id = 0 := by
  simp [window_info, ha]

/-- C4 (recency order): in the result of a successful `wlr_get_windows`, whatever the
backend state, if the summaries at the indices `i` and `j` are those of two
windows `A` and `B` that are both non-active and have a positive activation
serial, and the serial of `A` is the larger one, then `i < j`. -/
theorem recency_order (queued arrived : List Event) (s : WlrBackendState) (state : AppState)
    (A B : WindowNode) (kA kB i j : Nat)
    (hinit : s.initialized = true)
    (hA : A.is_active = false) (hB : B.is_active = false)
    (hsA : 0 < A.activation_serial) (hsB : 0 < B.activation_serial)
    (hAB : A.activation_serial > B.activation_serial)
    (hi : (wlr_get_windows queued arrived s state).2.2.windows[i]? = some (window_info A kA))
    (hj : (wlr_get_windows queued arrived s state).2.2.windows[j]? = some (window_info B kB)) :
    i < j := by
  refine ascending_index_lt _ (wlr_get_windows_ascending queued arrived s state hinit) i j _ _
    hi hj ?_
  rw [window_info_key_activated A kA hA (by omega), window_info_key_activated B kB hB (by omega)]
  omega

theorem recency_order_witness :
    sample_session.initialized = true ∧
    sample_second.is_active = false ∧ sample_first.is_active = false ∧
    0 < sample_second.activation_serial ∧ 0 < sample_first.activation_serial ∧
    sample_second.activation_serial > sample_first.activation_serial ∧
    (wlr_get_windows [] sample_two_activations sample_session { windows := [] }).2.2.windows[0]?
      = some (window_info sample_second 0) ∧
    (wlr_get_windows [] sample_two_activations sample_session { windows := [] }).2.2.windows[1]?
      = some (window_info sample_first 1) ∧
    0 < 1 :=
  ⟨by decide, by decide, by decide, by decide, by decide, by decide, by decide, by decide,
    recency_order [] sample_two_activations sample_session { windows := [] }
      sample_second sample_first 0 1 0 1 (by decide) (by decide) (by decide) (by decide)
      (by decide) (by decide) (by decide) (by decide)⟩

theorem sample_session_reach : Reach sample_session :=
  Reach.init sample_env backend_state Reach.zero (by decide) (by decide)

/-- C3, as stated, fails: after `sample_new_window_focused` the window `sample_focused`
has activation serial 0 and `sample_first` has serial 1, both are in the
reachable registry and in the result, and `sample_focused` is at index 0, before
`sample_first` at index 1. -/
theorem never_activated_tail_counterexample :
    Reach (wlr_get_windows [] sample_new_window_focused sample_session { windows := [] }).2.1 ∧
    (wlr_get_windows [] sample_new_window_focused sample_session { windows := [] }).2.1.windows
      = [sample_focused, sample_first, sample_idle] ∧
    sample_focused.activation_serial = 0 ∧ 0 < sample_first.activation_serial ∧
    (wlr_get_windows [] sample_new_window_focused sample_session { windows := [] }).2.2.windows
      = [window_info sample_focused 0, window_info sample_first 1, window_info sample_idle 2] :=
  ⟨Reach.get_windows [] sample_new_window_focused sample_session { windows := [] }
      sample_session_reach (by decide) (by decide),
    by decide, by decide, by decide, by decide⟩

/-- C3 (never-activated tail), amended: in the result of a successful
`wlr_get_windows`, whatever the backend state, if the summary at index `i` is
that of a non-active window `A` with activation serial 0 and the summary at
index `j` is that of a window `B` with a positive activation serial, then
`j < i`: `A` does not come before `B`. -/
theorem never_activated_tail (queued arrived : List Event) (s : WlrBackendState)
    (state : AppState) (A B : WindowNode) (kA kB i j : Nat)
    (hinit : s.initialized = true)
    (hA : A.is_active = false) (hsA : A.activation_serial = 0)
    (hsB : 0 < B.activation_serial)
    (hi : (wlr_get_windows queued arrived s state).2.2.windows[i]? = some (window_info A kA))
    (hj : (wlr_get_windows queued arrived s state).2.2.windows[j]? = some (window_info B kB)) :
    j < i := by
  refine ascending_index_lt _ (wlr_get_windows_ascending queued arrived s state hinit) j i _ _
    hj hi ?_
  rw [window_info_key_never A kA hA hsA]
  cases hB : B.is_active
  · rw [window_info_key_activated B kB hB (by omega)]; omega
  · rw [window_info_key_active B kB hB]; omega

theorem never_activated_tail_witness :
    sample_session.initialized = true ∧
    sample_idle.is_active = false ∧ sample_idle.activation_serial = 0 ∧
    0 < sample_first.activation_serial ∧
    (wlr_get_windows [] sample_new_window_focused sample_session { windows := [] }).2.2.windows[2]?
      = some (window_info sample_idle 2) ∧
    (wlr_get_windows [] sample_new_window_focused sample_session { windows := [] }).2.2.windows[1]?
      = some (window_info sample_first 1) ∧
    1 < 2 :=
  ⟨by decide, by decide, by decide, by decide, by decide, by decide,
    never_activated_tail [] sample_new_window_focused sample_session { windows := [] }
      sample_idle sample_first 2 1 2 1 (by decide) (by decide) (by decide) (by decide)
      (by decide) (by decide)⟩

/-! ## Creation order -/

theorem dispatch_all_created (creations : List (Nat × Nat × Bool)) :
    ∀ s : WlrBackendState, (∀ c ∈ creations, c.2.1 ≠ 0) →
      (dispatch_all (creations.map created) s).windows =
          (creations.reverse.map (fun c => new_window c.1 c.2.1 c.2.2)) ++ s.windows ∧
        (dispatch_all (creations.map created) s).window_count =
          s.window_count + creations.length := by
  induction creations with
  | nil => intro s _; simp [dispatch_all]
  | cons c rest ih =>
    intro s h
    have hc : c.2.1 ≠ 0 := h c (List.mem_cons_self _ _)
    have hrest := ih (dispatch (created c) s) (fun d hd => h d (List.mem_cons_of_mem _ hd))
    have hstep : dispatch_all ((c :: rest).map created) s =
        dispatch_all (rest.map created) (dispatch (created c) s) := by
      simp [dispatch_all]
    rw [hstep, hrest.1, hrest.2]
    simp only [created, dispatch, manager_handle_toplevel, hc, if_false, List.reverse_cons,
      List.map_append, List.map_cons, List.map_nil, List.append_assoc, List.singleton_append,
      List.length_cons, Nat.cast_add, Nat.cast_one]
    exact ⟨trivial, by omega⟩

theorem summaries_untouched (l : List WindowNode) :
    ∀ index : Nat, (∀ w ∈ l, Untouched w) →
      (summaries l index).length = l.length ∧
      (∀ k : Nat, (summaries l index)[k]? = (l[k]?).map (fun w => window_info w (index + k))) ∧
      (∀ x ∈ summaries l index, 10000 + (index : Int) ≤ x.focus_history_id) ∧
      Ascending (summaries l index) := by
  induction l with
  | nil => intro index _; simp [summaries, Ascending]
  | cons w rest ih =>
    intro index h
    have hw := h w (List.mem_cons_self _ _)
    obtain ⟨hlen, hget, hlow, hasc⟩ := ih (index + 1) (fun v hv => h v (List.mem_cons_of_mem _ hv))
    have hkey : (window_info w index).focus_history_id = 10000 + (index : Int) :=
      window_info_key_never w index hw.2.1 hw.2.2
    simp only [summaries, hw.1, Bool.false_eq_true, if_false]
    refine ⟨by simp [hlen], ?_, ?_, ?_⟩
    · intro k
      cases k with
      | zero => simp
      | succ k =>
        simp only [List.getElem?_cons_succ]
        rw [hget k]
        have : index + 1 + k = index + (k + 1) := by omega
        rw [this]
    · intro x hx
      rcases List.mem_cons.mp hx with rfl | hx
      · omega
      · have := hlow x hx; push_cast at this; omega
    · refine List.Pairwise.cons ?_ hasc
      intro x hx
      have := hlow x hx
      push_cast at this
      omega

/-- C2 (creation order), amended: when the windows of a sequence of Created
events (node allocation succeeding) are announced to an initialized backend
without windows and none is activated or minimized, a following
`wlr_get_windows` succeeds and returns them in reverse creation order: the
summary at index `k` is that of the `k`-th window counted from the last one
announced, with `focus_history_id = 10000 + k`. -/
theorem creation_order_reversed (creations : List (Nat × Nat × Bool)) (s : WlrBackendState)
    (state : AppState) (hinit : s.initialized = true) (hempty : s.windows = [])
    (hcount : s.window_count = 0) (hnode : creations.all (fun c => c.2.1 ≠ 0) = true) :
    (wlr_get_windows [] (creations.map created) s state).1 = 0 ∧
    ∀ k : Nat, (wlr_get_windows [] (creations.map created) s state).2.2.windows[k]? =
      (creations.reverse[k]?).map (fun c => window_info (new_window c.1 c.2.1 c.2.2) k) := by
  have halloc : ∀ c ∈ creations, c.2.1 ≠ 0 := by
    intro c hc
    have := List.all_eq_true.mp hnode c hc
    simpa using this
  rw [wlr_get_windows_eq _ _ _ _ hinit]
  refine ⟨rfl, ?_⟩
  obtain ⟨hw, hc⟩ := dispatch_all_created creations (pump_flushed [] s) halloc
  have hw0 : (pump_flushed [] s).windows = [] := by simp [pump_flushed, dispatch_all, hempty]
  have hc0 : (pump_flushed [] s).window_count = 0 := by simp [pump_flushed, dispatch_all, hcount]
  rw [hw0, List.append_nil] at hw
  rw [hc0] at hc
  simp only []
  rw [hc, hw]
  have hun : ∀ w ∈ creations.reverse.map (fun c => new_window c.1 c.2.1 c.2.2), Untouched w := by
    intro w hw
    obtain ⟨c, _, rfl⟩ := List.mem_map.mp hw
    exact ⟨rfl, rfl, rfl⟩
  obtain ⟨_, hget, _, hasc⟩ := summaries_untouched _ 0 hun
  intro k
  split
  · rename_i h0
    have hnil : creations = [] := by
      cases creations with
      | nil => rfl
      | cons c rest => simp only [List.length_cons] at h0; push_cast at h0; omega
    subst hnil
    simp
  · rw [sort_windows_fixed _ hasc]
    simp only []
    rw [hget k, List.getElem?_map, Option.map_map, Nat.zero_add]
    rfl

theorem creation_order_reversed_witness :
    sample_session.initialized = true ∧ sample_session.windows = [] ∧
    sample_session.window_count = 0 ∧
    sample_three_created.all (fun c => c.2.1 ≠ 0) = true ∧
    (wlr_get_windows [] (sample_three_created.map created) sample_session { windows := [] }).1
      = 0 ∧
    (wlr_get_windows [] (sample_three_created.map created) sample_session
        { windows := [] }).2.2.windows[0]? =
      (sample_three_created.reverse[0]?).map
        (fun c => window_info (new_window c.1 c.2.1 c.2.2) 0) :=
  ⟨by decide, by decide, by decide, by decide,
    (creation_order_reversed sample_three_created sample_session { windows := [] }
      (by decide) (by decide) (by decide) (by decide)).1,
    (creation_order_reversed sample_three_created sample_session { windows := [] }
      (by decide) (by decide) (by decide) (by decide)).2 0⟩

/-- C2, as stated, fails: three windows announced in the order `0x1000`, `0x2000`,
`0x3000` and never activated or minimized come back last-announced first, which
is not the order of creation. -/
theorem creation_order_counterexample :
    (wlr_get_windows [] (sample_three_created.map created) sample_session
        { windows := [] }).2.2.windows.map (fun info => info.address)
      = ["wlr-0x3000", "wlr-0x2000", "wlr-0x1000"] ∧
    (wlr_get_windows [] (sample_three_created.map created) sample_session
        { windows := [] }).2.2.windows.map (fun info => info.address)
      ≠ sample_three_created.map (fun c => snprintf_identifier c.1) := by
  decide

/-! ## List operations of the handlers -/

theorem node_at_some {a : Nat} {l : List WindowNode} {w : WindowNode}
    (h : node_at a l = some w) : w ∈ l ∧ w.addr = a := by
  unfold node_at at h
  refine ⟨List.mem_of_find?_eq_some h, ?_⟩
  have := List.find?_some h
  simpa using this

theorem addr_unique {l : List WindowNode} (hnd : (l.map (fun w => w.addr)).Nodup)
    {w v : WindowNode} (hw : w ∈ l) (hv : v ∈ l) (h : v.addr = w.addr) : v = w :=
  List.inj_on_of_nodup_map hnd hv hw h

theorem store_map {β : Type} (f : WindowNode → β) (v : WindowNode) (l : List WindowNode)
    (h : ∀ curr ∈ l, curr.addr = v.addr → f v = f curr) :
    (store v l).map f = l.map f := by
  unfold store
  rw [List.map_map]
  apply List.map_congr_left
  intro curr hcurr
  simp only [Function.comp]
  split
  · rename_i heq; exact h curr hcurr heq
  · rfl

theorem mem_store {v x : WindowNode} {l : List WindowNode} (h : x ∈ store v l) :
    x = v ∨ x ∈ l := by
  unfold store at h
  obtain ⟨curr, hcurr, rfl⟩ := List.mem_map.mp h
  split
  · exact Or.inl rfl
  · exact Or.inr hcurr

theorem store_mem {v w : WindowNode} {l : List WindowNode} (hw : w ∈ l)
    (h : w.addr = v.addr) : v ∈ store v l := by
  unfold store
  exact List.mem_map.mpr ⟨w, hw, by simp [h]⟩

theorem store_length (v : WindowNode) (l : List WindowNode) :
    (store v l).length = l.length := by
  simp [store]

theorem store_listInv {l : List WindowNode} {c : Int} (h : ListInv l c) {w v : WindowNode}
    (hw : w ∈ l) (hs : SameNode w v) : ListInv (store v l) c := by
  obtain ⟨ha, hh, hok⟩ := h
  have huniq : ∀ curr ∈ l, curr.addr = v.addr → curr = w := fun curr hc he =>
    addr_unique ha hw hc (he.trans hs.1)
  refine ⟨?_, ?_, ?_⟩
  · rw [store_map (fun w => w.addr) v l (fun curr _ he => he.symm)]; exact ha
  · rw [store_map (fun w => w.handle) v l (fun curr hc he => by
      rw [huniq curr hc he]; exact hs.2.1)]
    exact hh
  · intro x hx
    rcases mem_store hx with rfl | hx
    · have := hok w hw
      unfold NodeOk at this ⊢
      rw [hs.2.1, hs.2.2.1, hs.2.2.2]
      exact this
    · exact hok x hx

theorem unlink_sublist (a : Nat) (l : List WindowNode) : (unlink a l).Sublist l := by
  induction l with
  | nil => exact List.Sublist.refl _
  | cons curr next ih =>
    unfold unlink
    split
    · exact List.sublist_cons_self _ _
    · exact ih.cons₂ _

theorem unlink_perm {l : List WindowNode} {w : WindowNode} (hw : w ∈ l)
    (huniq : ∀ curr ∈ l, curr.addr = w.addr → curr = w) : (w :: unlink w.addr l).Perm l := by
  induction l with
  | nil => cases hw
  | cons curr next ih =>
    unfold unlink
    split
    · rename_i heq
      rw [huniq curr (List.mem_cons_self _ _) heq]
    · rename_i hne
      have hw2 : w ∈ next := by
        rcases List.mem_cons.mp hw with rfl | h
        · exact absurd rfl hne
        · exact h
      exact (List.Perm.swap _ _ _).trans
        ((ih hw2 (fun c hc he => huniq c (List.mem_cons_of_mem _ hc) he)).cons curr)

theorem linked_iff (a : Nat) (l : List WindowNode) :
    linked a l = true ↔ ∃ w ∈ l, w.addr = a := by
  induction l with
  | nil => simp [linked]
  | cons curr next ih =>
    unfold linked
    split
    · rename_i heq; simp [heq]
    · rename_i hne; rw [ih]; simp [hne]

theorem unlink_length {l : List WindowNode} {a : Nat} (h : linked a l = true) :
    (unlink a l).length + 1 = l.length := by
  induction l with
  | nil => simp [linked] at h
  | cons curr next ih =>
    unfold unlink
    unfold linked at h
    split
    · simp
    · rename_i hne
      simp only [hne, if_false] at h
      simp [ih h]

theorem listInv_sublist {l l2 : List WindowNode} {c : Int} (h : ListInv l c)
    (hs : l2.Sublist l) : ListInv l2 c :=
  ⟨h.1.sublist (hs.map _), h.2.1.sublist (hs.map _), fun w hw => h.2.2 w (hs.subset hw)⟩

theorem listInv_perm {l l2 : List WindowNode} {c : Int} (h : ListInv l c)
    (hp : l2.Perm l) : ListInv l2 c :=
  ⟨(List.Perm.nodup_iff (hp.map _)).mpr h.1, (List.Perm.nodup_iff (hp.map _)).mpr h.2.1,
    fun w hw => h.2.2 w (hp.subset hw)⟩

theorem nodeOk_mono {c d : Int} (hcd : c ≤ d) {w : WindowNode} (h : NodeOk c w) : NodeOk d w :=
  ⟨h.1, h.2.1, h.2.2.1, h.2.2.2.1, le_trans h.2.2.2.2 hcd⟩

theorem listInv_mono {l : List WindowNode} {c d : Int} (h : ListInv l c) (hcd : c ≤ d) :
    ListInv l d :=
  ⟨h.1, h.2.1, fun w hw => nodeOk_mono hcd (h.2.2 w hw)⟩

/-! ## The invariant is kept by every operation -/

theorem listInv_front_serial {w : WindowNode} {t : List WindowNode} {c : Int}
    (h : ListInv (w :: t) c) :
    ListInv ({ w with activation_serial := c + 1 } :: t) (c + 1) := by
  obtain ⟨ha, hh, hok⟩ := h
  refine ⟨ha, hh, ?_⟩
  intro x hx
  rcases List.mem_cons.mp hx with rfl | hx
  · have := hok w (List.mem_cons_self _ _)
    unfold NodeOk at this ⊢
    refine ⟨this.1, this.2.1, this.2.2.1, ?_, ?_⟩
    · simp only []; omega
    · simp only []; omega
  · exact nodeOk_mono (by omega) (hok x (List.mem_cons_of_mem _ hx))

theorem move_window_to_front_inv {s : WlrBackendState} {w : WindowNode} (h : Inv s)
    (hw : w ∈ s.windows) : Inv (move_window_to_front (some w) s) := by
  unfold move_window_to_front
  split
  · exact h
  · exact h
  · rename_i w1 head tail heq hl
    cases heq
    split
    · exact h
    · obtain ⟨hc, hpos, hli⟩ := h
      have huniq : ∀ curr ∈ s.windows, curr.addr = w.addr → curr = w := fun curr hcurr he =>
        addr_unique hli.1 hw hcurr he
      have hperm := unlink_perm hw huniq
      have hlinked : linked w.addr s.windows = true := (linked_iff _ _).mpr ⟨w, hw, rfl⟩
      refine ⟨?_, by simp only []; omega, listInv_front_serial (listInv_perm hli hperm)⟩
      simp only [List.length_cons]
      rw [hc, ← unlink_length hlinked]

theorem foldl_state_step_same (wl_state : List Nat) :
    ∀ v : WindowNode, SameNode v (wl_state.foldl state_step v) := by
  induction wl_state with
  | nil => intro v; exact ⟨rfl, rfl, rfl, rfl⟩
  | cons st rest ih =>
    intro v
    have h1 : SameNode v (state_step v st) := by
      unfold state_step
      simp only []
      split <;> split <;> exact ⟨rfl, rfl, rfl, rfl⟩
    have h2 := ih (state_step v st)
    simp only [List.foldl_cons]
    exact ⟨h2.1.trans h1.1, h2.2.1.trans h1.2.1, h2.2.2.1.trans h1.2.2.1,
      h2.2.2.2.trans h1.2.2.2⟩

theorem state_update_same (w : WindowNode) (wl_state : List Nat) :
    SameNode w (wl_state.foldl state_step
      { w with state := 0, is_active := false, is_minimized := false }) :=
  foldl_state_step_same wl_state _

theorem toplevel_handle_state_inv {s : WlrBackendState} {w : WindowNode} (wl_state : List Nat)
    (h : Inv s) (hw : w ∈ s.windows) : Inv (toplevel_handle_state w wl_state s) := by
  have hsame := state_update_same w wl_state
  have hstore : Inv { s with windows := store (wl_state.foldl state_step
      { w with state := 0, is_active := false, is_minimized := false }) s.windows } :=
    ⟨by simp only [store_length]; exact h.1, h.2.1, store_listInv h.2.2 hw hsame⟩
  unfold toplevel_handle_state
  simp only []
  split
  · exact move_window_to_front_inv hstore (store_mem hw hsame.1.symm)
  · exact hstore

theorem toplevel_handle_title_inv {s : WlrBackendState} {w : WindowNode} (title : Option String)
    (h : Inv s) (hw : w ∈ s.windows) : Inv (toplevel_handle_title w title s) :=
  ⟨by simp only [toplevel_handle_title, store_length]; exact h.1, h.2.1,
    store_listInv h.2.2 hw ⟨rfl, rfl, rfl, rfl⟩⟩

theorem toplevel_handle_app_id_inv {s : WlrBackendState} {w : WindowNode}
    (app_id : Option String) (h : Inv s) (hw : w ∈ s.windows) :
    Inv (toplevel_handle_app_id w app_id s) :=
  ⟨by simp only [toplevel_handle_app_id, store_length]; exact h.1, h.2.1,
    store_listInv h.2.2 hw ⟨rfl, rfl, rfl, rfl⟩⟩

theorem toplevel_handle_closed_inv {s : WlrBackendState} {w : WindowNode}
    (h : Inv s) (hw : w ∈ s.windows) : Inv (toplevel_handle_closed w s) := by
  have hlinked : linked w.addr s.windows = true := (linked_iff _ _).mpr ⟨w, hw, rfl⟩
  unfold toplevel_handle_closed
  simp only [hlinked, if_true]
  have hlen := unlink_length hlinked
  have hcount : s.window_count - 1 = ((unlink w.addr s.windows).length : Int) := by
    rw [h.1, ← hlen]; push_cast; omega
  have hlist := listInv_sublist h.2.2 (unlink_sublist w.addr s.windows)
  split <;> exact ⟨hcount, h.2.1, hlist⟩

theorem manager_handle_toplevel_inv {s : WlrBackendState} (toplevel node : Nat)
    (identifier_ok : Bool) (h : Inv s)
    (hd : deliverable (Event.toplevel toplevel node identifier_ok) s = true) :
    Inv (manager_handle_toplevel toplevel node identifier_ok s) := by
  unfold manager_handle_toplevel
  split
  · exact h
  · rename_i hnode
    simp only [deliverable, Bool.and_eq_true, decide_eq_true_eq, Bool.not_eq_true',
      Bool.or_eq_true, hnode, false_or, List.any_eq_false] at hd
    obtain ⟨⟨⟨h0, h64⟩, hfresh⟩, hnew⟩ := hd
    obtain ⟨hc, hpos, ha, hh, hok⟩ := h
    refine ⟨by simp only [List.length_cons]; rw [hc]; push_cast; rfl, hpos, ?_, ?_, ?_⟩
    · simp only [List.map_cons, List.nodup_cons]
      refine ⟨?_, ha⟩
      intro hmem
      obtain ⟨x, hx, hxa⟩ := List.mem_map.mp hmem
      have := hnew x hx
      simp only [new_window] at hxa
      simp [hxa] at this
    · simp only [List.map_cons, List.nodup_cons]
      refine ⟨?_, hh⟩
      intro hmem
      obtain ⟨x, hx, hxa⟩ := List.mem_map.mp hmem
      have := hfresh x hx
      simp only [new_window] at hxa
      simp [hxa] at this
    · intro x hx
      rcases List.mem_cons.mp hx with rfl | hx
      · refine ⟨h0, h64, ?_, le_refl _, ?_⟩
        · cases identifier_ok
          · exact Or.inl rfl
          · exact Or.inr rfl
        · exact hpos
      · exact hok x hx

theorem with_node_inv {s : WlrBackendState} (window : Nat)
    (handler : WindowNode → WlrBackendState → WlrBackendState) (h : Inv s)
    (hh : ∀ w ∈ s.windows, Inv (handler w s)) : Inv (with_node window s handler) := by
  unfold with_node
  split
  · rename_i w hw; exact hh w (node_at_some hw).1
  · exact h

theorem dispatch_inv {s : WlrBackendState} (e : Event) (h : Inv s)
    (hd : deliverable e s = true) : Inv (dispatch e s) := by
  cases e with
  | global name interface version bound =>
    simp only [dispatch, registry_handle_global]
    split
    · exact h
    · split <;> exact h
  | global_remove name => exact h
  | toplevel toplevel node identifier_ok => exact manager_handle_toplevel_inv _ _ _ h hd
  | finished => exact h
  | title window title =>
    exact with_node_inv _ _ h (fun w hw => toplevel_handle_title_inv title h hw)
  | app_id window app_id =>
    exact with_node_inv _ _ h (fun w hw => toplevel_handle_app_id_inv app_id h hw)
  | output_enter window => exact with_node_inv _ _ h (fun _ _ => h)
  | output_leave window => exact with_node_inv _ _ h (fun _ _ => h)
  | state window wl_state =>
    exact with_node_inv _ _ h (fun w hw => toplevel_handle_state_inv wl_state h hw)
  | done window => exact with_node_inv _ _ h (fun _ _ => h)
  | closed window => exact with_node_inv _ _ h (fun w hw => toplevel_handle_closed_inv h hw)
  | parent window => exact with_node_inv _ _ h (fun _ _ => h)

theorem dispatch_all_cons (e : Event) (rest : List Event) (s : WlrBackendState) :
    dispatch_all (e :: rest) s = dispatch_all rest (dispatch e s) := rfl

theorem dispatch_all_inv (events : List Event) :
    ∀ s : WlrBackendState, Inv s → deliverable_all events s = true →
      Inv (dispatch_all events s) := by
  induction events with
  | nil => intro s h _; exact h
  | cons e rest ih =>
    intro s h hd
    simp only [deliverable_all, Bool.and_eq_true] at hd
    rw [dispatch_all_cons]
    exact ih _ (dispatch_inv e h hd.1) hd.2

theorem init_serials_inv (l : List WindowNode) :
    ∀ c : Int, 0 ≤ c → ListInv l c →
      c ≤ (init_serials l c).2 ∧ (init_serials l c).1.length = l.length ∧
      (init_serials l c).1.map (fun w => w.addr) = l.map (fun w => w.addr) ∧
      (init_serials l c).1.map (fun w => w.handle) = l.map (fun w => w.handle) ∧
      ∀ w ∈ (init_serials l c).1, NodeOk (init_serials l c).2 w := by
  induction l with
  | nil => intro c _ _; simp [init_serials]
  | cons curr next ih =>
    intro c hc h
    have hnext : ∀ d : Int, c ≤ d → ListInv next d := fun d hd =>
      listInv_mono (listInv_sublist h (List.sublist_cons_self _ _)) hd
    have hcurr := h.2.2 curr (List.mem_cons_self _ _)
    unfold init_serials
    split
    · obtain ⟨h1, h2, h3, h4, h5⟩ := ih (c + 1) (by omega) (hnext _ (by omega))
      refine ⟨by simp only []; omega, by simp [h2], by simp [h3], by simp [h4], ?_⟩
      intro w hw
      rcases List.mem_cons.mp hw with rfl | hw
      · exact ⟨hcurr.1, hcurr.2.1, hcurr.2.2.1, by simp only []; omega, by simp only []; omega⟩
      · exact h5 w hw
    · obtain ⟨h1, h2, h3, h4, h5⟩ := ih c hc (hnext _ (le_refl _))
      refine ⟨h1, by simp [h2], by simp [h3], by simp [h4], ?_⟩
      intro w hw
      rcases List.mem_cons.mp hw with rfl | hw
      · exact nodeOk_mono h1 hcurr
      · exact h5 w hw

theorem wlr_backend_init_inv (env : InitEnv) {s : WlrBackendState} (h : Inv s)
    (h1 : deliverable_all env.round1 (init_connected env s) = true)
    (h2 : deliverable_all env.round2 (dispatch_all env.round1 (init_connected env s)) = true) :
    Inv (wlr_backend_init env s).2 := by
  have hconn : Inv (init_connected env s) := h
  have hr1 := dispatch_all_inv _ _ hconn h1
  have hr2 := dispatch_all_inv _ _ hr1 h2
  unfold init_connected at hr1 hr2
  unfold wlr_backend_init
  dsimp only
  split
  · exact h
  · split
    · exact h
    · split
      · exact h
      · split
        · exact hr1
        · obtain ⟨hc, hpos, hli⟩ := hr2
          obtain ⟨g1, g2, g3, g4, g5⟩ := init_serials_inv _ _ hpos hli
          refine ⟨?_, ?_, ?_, ?_, g5⟩
          · dsimp only; rw [g2]; exact hc
          · exact le_trans hpos g1
          · dsimp only; rw [g3]; exact hli.1
          · dsimp only; rw [g4]; exact hli.2.1

theorem wlr_get_windows_inv (queued arrived : List Event) {s : WlrBackendState}
    (state : AppState) (h : Inv s) (h1 : deliverable_all queued s = true)
    (h2 : deliverable_all arrived (pump_flushed queued s) = true) :
    Inv (wlr_get_windows queued arrived s state).2.1 := by
  cases hi : s.initialized
  · simp [wlr_get_windows, hi]; exact h
  · rw [wlr_get_windows_eq _ _ _ _ hi]
    have hq : Inv (pump_flushed queued s) := dispatch_all_inv _ _ h h1
    exact dispatch_all_inv _ _ hq h2

theorem find_identifier_some {identifier : String} {l : List WindowNode} {w : WindowNode}
    (h : find_identifier identifier l = some w) : w ∈ l ∧ w.identifier = some identifier := by
  induction l with
  | nil => simp [find_identifier] at h
  | cons curr next ih =>
    unfold find_identifier at h
    split at h
    · rename_i heq
      cases h
      exact ⟨List.mem_cons_self _ _, heq⟩
    · exact ⟨List.mem_cons_of_mem _ (ih h).1, (ih h).2⟩

theorem wlr_activate_window_inv (identifier : Option String) {s : WlrBackendState}
    (h : Inv s) : Inv (wlr_activate_window identifier s) := by
  unfold wlr_activate_window
  split
  · exact h
  · split
    · exact h
    · split
      · exact h
      · rename_i curr hfind
        have hm := move_window_to_front_inv h (find_identifier_some hfind).1
        simp only []
        split
        · exact hm
        · exact hm

theorem wlr_backend_cleanup_fields (s : WlrBackendState) :
    (wlr_backend_cleanup s).windows = [] ∧ (wlr_backend_cleanup s).window_count = 0 ∧
      (wlr_backend_cleanup s).activation_counter = 0 ∧
      (wlr_backend_cleanup s).initialized = false := by
  simp only [wlr_backend_cleanup, cleanup_windows, apply_ite WlrBackendState.windows, ite_self,
    and_self]

theorem wlr_backend_cleanup_inv (s : WlrBackendState) : Inv (wlr_backend_cleanup s) := by
  obtain ⟨hw, hc, ha, _⟩ := wlr_backend_cleanup_fields s
  unfold Inv ListInv
  rw [hw, hc, ha]
  simp

/-- Every reachable state satisfies the invariant. -/
theorem reach_inv {s : WlrBackendState} (h : Reach s) : Inv s := by
  induction h with
  | zero => exact ⟨rfl, le_refl _, List.nodup_nil, List.nodup_nil, fun _ hw => nomatch hw⟩
  | event e s _ hd ih => exact dispatch_inv e ih hd
  | init env s _ h1 h2 ih => exact wlr_backend_init_inv env ih h1 h2
  | get_windows queued arrived s state _ h1 h2 ih => exact wlr_get_windows_inv _ _ state ih h1 h2
  | activate identifier s _ ih => exact wlr_activate_window_inv identifier ih
  | cleanup s _ _ => exact wlr_backend_cleanup_inv s

/-! ## What the snapshot contains -/

theorem mem_summaries (l : List WindowNode) :
    ∀ (index : Nat) (info : WindowInfo), info ∈ summaries l index →
      ∃ w ∈ l, w.is_minimized = false ∧ ∃ k : Nat, index ≤ k ∧ info = window_info w k := by
  induction l with
  | nil => intro index info h; simp [summaries] at h
  | cons curr next ih =>
    intro index info h
    unfold summaries at h
    split at h
    · obtain ⟨w, hw, hm, k, hk, he⟩ := ih index info h
      exact ⟨w, List.mem_cons_of_mem _ hw, hm, k, hk, he⟩
    · rename_i hmin
      rcases List.mem_cons.mp h with rfl | h
      · exact ⟨curr, List.mem_cons_self _ _, by simpa using hmin, index, le_refl _, rfl⟩
      · obtain ⟨w, hw, hm, k, hk, he⟩ := ih (index + 1) info h
        exact ⟨w, List.mem_cons_of_mem _ hw, hm, k, by omega, he⟩

theorem summaries_mem (l : List WindowNode) :
    ∀ (index : Nat) (w : WindowNode), w ∈ l → w.is_minimized = false →
      ∃ k : Nat, window_info w k ∈ summaries l index := by
  induction l with
  | nil => intro index w h; cases h
  | cons curr next ih =>
    intro index w h hm
    unfold summaries
    rcases List.mem_cons.mp h with rfl | h
    · exact ⟨index, by simp [hm]⟩
    · split
      · exact ih index w h hm
      · obtain ⟨k, hk⟩ := ih (index + 1) w h hm
        exact ⟨k, List.mem_cons_of_mem _ hk⟩

theorem summaries_length (l : List WindowNode) :
    ∀ index : Nat,
      (summaries l index).length = (l.filter (fun w => !w.is_minimized)).length := by
  induction l with
  | nil => intro index; rfl
  | cons curr next ih =>
    intro index
    unfold summaries
    cases h : curr.is_minimized
    · simp [List.filter, h, ih]
    · simp [List.filter, h, ih]

/-- The result of a successful `wlr_get_windows` on a state whose post-pump
`window_count` is the length of the list is a permutation of the summaries of
the walk. -/
theorem wlr_get_windows_perm (queued arrived : List Event) (s : WlrBackendState)
    (state : AppState) (hinit : s.initialized = true)
    (hcount : (wlr_get_windows queued arrived s state).2.1.window_count =
      ((wlr_get_windows queued arrived s state).2.1.windows.length : Int)) :
    (wlr_get_windows queued arrived s state).2.2.windows.Perm
      (summaries (wlr_get_windows queued arrived s state).2.1.windows 0) := by
  rw [wlr_get_windows_eq _ _ _ _ hinit] at hcount ⊢
  dsimp only at hcount ⊢
  split
  · rename_i h0
    rw [h0] at hcount
    have : (dispatch_all arrived (pump_flushed queued s)).windows = [] := by
      apply List.eq_nil_of_length_eq_zero
      exact_mod_cast hcount.symm
    rw [this]
    exact List.Perm.refl _
  · exact sort_windows_perm _

/-- Every summary of a successful `wlr_get_windows` is one the walk builds,
whatever the backend state. -/
theorem wlr_get_windows_subset (queued arrived : List Event) (s : WlrBackendState)
    (state : AppState) (hinit : s.initialized = true) :
    ∀ info ∈ (wlr_get_windows queued arrived s state).2.2.windows,
      info ∈ summaries (wlr_get_windows queued arrived s state).2.1.windows 0 := by
  rw [wlr_get_windows_eq _ _ _ _ hinit]
  dsimp only
  intro info hinfo
  split at hinfo
  · cases hinfo
  · exact (sort_windows_perm _).subset hinfo

theorem summaries_all_minimized (l : List WindowNode) :
    ∀ index : Nat, (∀ w ∈ l, w.is_minimized = true) → summaries l index = [] := by
  induction l with
  | nil => intro index _; rfl
  | cons curr next ih =>
    intro index h
    unfold summaries
    rw [if_pos (h curr (List.mem_cons_self _ _))]
    exact ih index (fun w hw => h w (List.mem_cons_of_mem _ hw))

/-- C5 (minimized exclusion): for every backend state in which a successful
`wlr_get_windows` takes its snapshot, the call returns 0, every summary of the
result is the summary of a window of the registry that is not minimized, and
the result is empty when there is no window or every window is minimized; when
the state is reachable (so that `window_count` is the length of the list),
every window that is not minimized has its summary in the result and the result
has exactly as many summaries as there are windows that are not minimized. -/
theorem minimized_exclusion (queued arrived : List Event) (s : WlrBackendState)
    (state : AppState) (hinit : s.initialized = true) :
    (wlr_get_windows queued arrived s state).1 = 0 ∧
    (∀ info ∈ (wlr_get_windows queued arrived s state).2.2.windows,
      ∃ w ∈ (wlr_get_windows queued arrived s state).2.1.windows,
        w.is_minimized = false ∧ ∃ k : Nat, info = window_info w k) ∧
    ((∀ w ∈ (wlr_get_windows queued arrived s state).2.1.windows, w.is_minimized = true) →
      (wlr_get_windows queued arrived s state).2.2.windows = []) ∧
    (Reach (wlr_get_windows queued arrived s state).2.1 →
      (∀ w ∈ (wlr_get_windows queued arrived s state).2.1.windows, w.is_minimized = false →
        ∃ k : Nat, window_info w k ∈ (wlr_get_windows queued arrived s state).2.2.windows) ∧
      (wlr_get_windows queued arrived s state).2.2.windows.length =
        ((wlr_get_windows queued arrived s state).2.1.windows.filter
          (fun w => !w.is_minimized)).length) := by
  have hsub := wlr_get_windows_subset queued arrived s state hinit
  refine ⟨by rw [wlr_get_windows_eq _ _ _ _ hinit], ?_, ?_, ?_⟩
  · intro info hinfo
    obtain ⟨w, hw, hm, k, _, he⟩ := mem_summaries _ _ _ (hsub info hinfo)
    exact ⟨w, hw, hm, k, he⟩
  · intro hall
    apply List.eq_nil_iff_forall_not_mem.mpr
    intro info hinfo
    have := hsub info hinfo
    rw [summaries_all_minimized _ 0 hall] at this
    cases this
  · intro hreach
    have hperm := wlr_get_windows_perm queued arrived s state hinit (reach_inv hreach).1
    have hlen := hperm.length_eq
    rw [summaries_length] at hlen
    refine ⟨?_, hlen⟩
    intro w hw hm
    obtain ⟨k, hk⟩ := summaries_mem _ 0 w hw hm
    exact ⟨k, hperm.symm.subset hk⟩

theorem minimized_exclusion_witness :
    sample_session.initialized = true ∧
    Reach (wlr_get_windows [] sample_one_minimized sample_session { windows := [] }).2.1 ∧
    (wlr_get_windows [] sample_one_minimized sample_session { windows := [] }).1 = 0 ∧
    (wlr_get_windows [] sample_one_minimized sample_session { windows := [] }).2.2.windows.length =
      ((wlr_get_windows [] sample_one_minimized sample_session { windows := [] }).2.1.windows.filter
        (fun w => !w.is_minimized)).length ∧
    (wlr_get_windows [] sample_one_minimized sample_session
        { windows := [] }).2.2.windows.map (fun info => info.address)
      = ["wlr-0x3000", "wlr-0x2000"] :=
  ⟨by decide,
    Reach.get_windows [] sample_one_minimized sample_session { windows := [] }
      sample_session_reach (by decide) (by decide),
    (minimized_exclusion [] sample_one_minimized sample_session { windows := [] }
      (by decide)).1,
    ((minimized_exclusion [] sample_one_minimized sample_session { windows := [] }
      (by decide)).2.2.2
        (Reach.get_windows [] sample_one_minimized sample_session { windows := [] }
          sample_session_reach (by decide) (by decide))).2,
    by decide⟩

/-! ## The active window -/

/-- C1, as stated, fails: after `sample_two_active` the window `sample_active_first`
is in the reachable registry with `is_active = true`, yet index 0 of the result
holds the summary of `sample_active_second` and the summary of
`sample_active_first` is at index 1. -/
theorem active_first_counterexample :
    Reach (wlr_get_windows [] sample_two_active sample_session { windows := [] }).2.1 ∧
    (wlr_get_windows [] sample_two_active sample_session { windows := [] }).2.1.windows
      = [sample_active_second, sample_active_first] ∧
    sample_active_first.is_active = true ∧
    (wlr_get_windows [] sample_two_active sample_session { windows := [] }).2.2.windows
      = [window_info sample_active_second 0, window_info sample_active_first 1] ∧
    (window_info sample_active_second 0).address ≠ (window_info sample_active_first 1).address :=
  ⟨Reach.get_windows [] sample_two_active sample_session { windows := [] }
      sample_session_reach (by decide) (by decide),
    by decide, by decide, by decide, by decide⟩

theorem window_info_active_index (w : WindowNode) (k : Nat) (h : w.is_active = true) :
    window_info w k = window_info w 0 := by
  simp [window_info, h]

/-- C1 (active first), amended: for every reachable backend state in which
`wlr_get_windows` takes its snapshot and whose activation counter is below
1000: if a window `W` of the registry is active and not minimized and no other
window is active, then the summary of `W` is at index 0 of the result and its
`focus_history_id` is 0. -/
theorem active_first (queued arrived : List Event) (s : WlrBackendState) (state : AppState)
    (W : WindowNode) (hinit : s.initialized = true)
    (hreach : Reach (wlr_get_windows queued arrived s state).2.1)
    (hcounter : (wlr_get_windows queued arrived s state).2.1.activation_counter < 1000)
    (hW : W ∈ (wlr_get_windows queued arrived s state).2.1.windows)
    (hactive : W.is_active = true) (hmin : W.is_minimized = false)
    (hsole : ∀ w ∈ (wlr_get_windows queued arrived s state).2.1.windows,
      w.is_active = true → w = W) :
    (wlr_get_windows queued arrived s state).2.2.windows[0]? = some (window_info W 0) ∧
    (window_info W 0).focus_history_id = 0 := by
  have hinv := reach_inv hreach
  have hperm := wlr_get_windows_perm queued arrived s state hinit hinv.1
  have hasc := wlr_get_windows_ascending queued arrived s state hinit
  have hkey0 : (window_info W 0).focus_history_id = 0 := window_info_key_active W 0 hactive
  refine ⟨?_, hkey0⟩
  -- every summary is that of `W` or has a positive key
  have hothers : ∀ info ∈ (wlr_get_windows queued arrived s state).2.2.windows,
      info = window_info W 0 ∨ 0 < info.focus_history_id := by
    intro info hinfo
    obtain ⟨w, hw, _, k, _, he⟩ := mem_summaries _ _ _ (hperm.subset hinfo)
    cases ha : w.is_active
    · right
      have hok := hinv.2.2.2.2 w hw
      rw [he]
      by_cases hs : w.activation_serial = 0
      · rw [window_info_key_never w k ha hs]; omega
      · rw [window_info_key_activated w k ha hs]
        have := hok.2.2.2.2
        omega
    · left
      rw [he, hsole w hw ha]
      exact window_info_active_index W k hactive
  -- the summary of `W` is in the result
  obtain ⟨k, hk⟩ := summaries_mem _ 0 W hW hmin
  rw [window_info_active_index W k hactive] at hk
  have hin : window_info W 0 ∈ (wlr_get_windows queued arrived s state).2.2.windows :=
    hperm.symm.subset hk
  obtain ⟨i, hi⟩ := List.mem_iff_getElem?.mp hin
  match hres : (wlr_get_windows queued arrived s state).2.2.windows with
  | [] => rw [hres] at hin; cases hin
  | first :: rest =>
    rw [hres] at hothers hasc hi
    simp only [List.getElem?_cons_zero, Option.some.injEq]
    rcases hothers first (List.mem_cons_self _ _) with h | h
    · exact h
    · exfalso
      have := ascending_index_lt (first :: rest) hasc i 0 (window_info W 0) first hi
        (by simp) (by omega)
      omega

theorem active_first_witness :
    sample_session.initialized = true ∧
    Reach (wlr_get_windows [] sample_new_window_focused sample_session { windows := [] }).2.1 ∧
    (wlr_get_windows [] sample_new_window_focused sample_session
      { windows := [] }).2.1.activation_counter < 1000 ∧
    sample_focused ∈
      (wlr_get_windows [] sample_new_window_focused sample_session { windows := [] }).2.1.windows ∧
    sample_focused.is_active = true ∧ sample_focused.is_minimized = false ∧
    (∀ w ∈ (wlr_get_windows [] sample_new_window_focused sample_session
        { windows := [] }).2.1.windows, w.is_active = true → w = sample_focused) ∧
    (wlr_get_windows [] sample_new_window_focused sample_session { windows := [] }).2.2.windows[0]?
      = some (window_info sample_focused 0) ∧
    (window_info sample_focused 0).focus_history_id = 0 :=
  ⟨by decide,
    Reach.get_windows [] sample_new_window_focused sample_session { windows := [] }
      sample_session_reach (by decide) (by decide),
    by decide, by decide, by decide, by decide, by decide,
    active_first [] sample_new_window_focused sample_session { windows := [] } sample_focused
      (by decide)
      (Reach.get_windows [] sample_new_window_focused sample_session { windows := [] }
        sample_session_reach (by decide) (by decide))
      (by decide) (by decide) (by decide) (by decide) (by decide)⟩

/-! ## The ordering pass against the stable sort -/

theorem spec_stable_insert_perm (x : WindowInfo) (l : List WindowInfo) :
    (spec_stable_insert x l).Perm (x :: l) := by
  induction l with
  | nil => exact List.Perm.refl _
  | cons y ys ih =>
    unfold spec_stable_insert
    split
    · exact List.Perm.refl _
    · exact (ih.cons y).trans (List.Perm.swap _ _ _)

theorem spec_stable_sort_perm (l : List WindowInfo) : (spec_stable_sort l).Perm l := by
  induction l with
  | nil => exact List.Perm.refl _
  | cons x xs ih =>
    unfold spec_stable_sort
    exact (spec_stable_insert_perm x _).trans (ih.cons x)

theorem spec_stable_insert_ascending (x : WindowInfo) (l : List WindowInfo)
    (h : Ascending l) : Ascending (spec_stable_insert x l) := by
  induction l with
  | nil => exact List.pairwise_singleton _ _
  | cons y ys ih =>
    have hy := List.pairwise_cons.mp h
    unfold spec_stable_insert
    split
    · rename_i hxy
      refine List.Pairwise.cons ?_ h
      intro z hz
      rcases List.mem_cons.mp hz with rfl | hz
      · exact hxy
      · exact le_trans hxy (hy.1 z hz)
    · rename_i hxy
      refine List.Pairwise.cons ?_ (ih hy.2)
      intro z hz
      rcases List.mem_cons.mp ((spec_stable_insert_perm x ys).subset hz) with rfl | hz
      · omega
      · exact hy.1 z hz

theorem spec_stable_sort_ascending (l : List WindowInfo) : Ascending (spec_stable_sort l) := by
  induction l with
  | nil => exact List.Pairwise.nil
  | cons x xs ih => exact spec_stable_insert_ascending x _ ih

theorem spec_stable_insert_filter (k : Int) (x : WindowInfo) (l : List WindowInfo) :
    (spec_stable_insert x l).filter (fun a => a.focus_history_id = k) =
      (x :: l).filter (fun a => a.focus_history_id = k) := by
  induction l with
  | nil => rfl
  | cons y ys ih =>
    unfold spec_stable_insert
    split
    · rfl
    · rename_i hxy
      simp only [List.filter_cons, ih]
      by_cases hx : x.focus_history_id = k
      · have hyk : ¬ y.focus_history_id = k := by omega
        simp [hx, hyk]
      · simp [hx]

/-- The sort `spec_stable_sort` is stable: the summaries of any one key come out
in the order they went in. -/
theorem spec_stable_sort_stable (k : Int) (l : List WindowInfo) :
    (spec_stable_sort l).filter (fun a => a.focus_history_id = k) =
      l.filter (fun a => a.focus_history_id = k) := by
  induction l with
  | nil => rfl
  | cons x xs ih =>
    unfold spec_stable_sort
    rw [spec_stable_insert_filter]
    simp only [List.filter_cons, ih]

theorem eq_of_map_eq_of_inj {l1 : List WindowInfo} :
    ∀ {l2 : List WindowInfo},
      l1.map (fun a => a.focus_history_id) = l2.map (fun a => a.focus_history_id) →
      (∀ a ∈ l1, ∀ b ∈ l2, a.focus_history_id = b.focus_history_id → a = b) → l1 = l2 := by
  induction l1 with
  | nil => intro l2 h _; cases l2 with
    | nil => rfl
    | cons b t => simp at h
  | cons a t ih =>
    intro l2 h hinj
    cases l2 with
    | nil => simp at h
    | cons b t2 =>
      simp only [List.map_cons, List.cons.injEq] at h
      have hab := hinj a (List.mem_cons_self _ _) b (List.mem_cons_self _ _) h.1
      have ht := ih h.2 (fun x hx y hy =>
        hinj x (List.mem_cons_of_mem _ hx) y (List.mem_cons_of_mem _ hy))
      rw [hab, ht]

/-- Two ascending arrangements of summaries with pairwise distinct keys agree. -/
theorem ascending_unique {l1 l2 : List WindowInfo} (hp : l1.Perm l2) (h1 : Ascending l1)
    (h2 : Ascending l2) (hnd : (l1.map (fun a => a.focus_history_id)).Nodup) : l1 = l2 := by
  have hs1 : List.Sorted (· ≤ ·) (l1.map (fun a => a.focus_history_id)) :=
    List.pairwise_map.mpr h1
  have hs2 : List.Sorted (· ≤ ·) (l2.map (fun a => a.focus_history_id)) :=
    List.pairwise_map.mpr h2
  have hmap := List.eq_of_perm_of_sorted (hp.map _) hs1 hs2
  refine eq_of_map_eq_of_inj hmap ?_
  intro a ha b hb hab
  exact List.inj_on_of_nodup_map hnd ha (hp.symm.subset hb) hab

/-- C6, as stated, fails: on `sample_tie` (keys 2, 2, 1) the ordering pass returns
`c, b, a`, the two summaries with key 2 exchanged, while the stable sort returns
`c, a, b`. -/
theorem ordering_pass_counterexample :
    (sort_windows sample_tie).windows =
      [sample_info "c" 1, sample_info "b" 2, sample_info "a" 2] ∧
    spec_stable_sort sample_tie.windows =
      [sample_info "c" 1, sample_info "a" 2, sample_info "b" 2] ∧
    (sort_windows sample_tie).windows ≠ spec_stable_sort sample_tie.windows := by
  decide

/-- C6 (ordering pass), amended: for every array of summaries the output of the
final ordering pass is ascending in `focus_history_id` and a permutation of the
input; when no two summaries of the input have the same `focus_history_id` it
equals the stable ascending sort of the input. -/
theorem ordering_pass_sorts (state : AppState) :
    Ascending (sort_windows state).windows ∧
    (sort_windows state).windows.Perm state.windows ∧
    ((state.windows.map (fun a => a.focus_history_id)).Nodup →
      (sort_windows state).windows = spec_stable_sort state.windows) := by
  refine ⟨sort_windows_ascending state, sort_windows_perm state, ?_⟩
  intro hnd
  refine ascending_unique ((sort_windows_perm state).trans (spec_stable_sort_perm _).symm)
    (sort_windows_ascending state) (spec_stable_sort_ascending _) ?_
  exact (List.Perm.nodup_iff ((sort_windows_perm state).map _)).mpr hnd

theorem ordering_pass_sorts_witness :
    (sample_distinct.windows.map (fun a => a.focus_history_id)).Nodup ∧
    (sort_windows sample_distinct).windows = spec_stable_sort sample_distinct.windows ∧
    (sort_windows sample_distinct).windows =
      [sample_info "c" 1, sample_info "b" 2, sample_info "a" 3] :=
  ⟨by decide, (ordering_pass_sorts sample_distinct).2.2 (by decide), by decide⟩

/-! ## The activation command -/

theorem find_identifier_none {identifier : String} {l : List WindowNode}
    (h : ∀ w ∈ l, w.identifier ≠ some identifier) : find_identifier identifier l = none := by
  induction l with
  | nil => rfl
  | cons curr next ih =>
    unfold find_identifier
    rw [if_neg (h curr (List.mem_cons_self _ _))]
    exact ih (fun w hw => h w (List.mem_cons_of_mem _ hw))

theorem find_identifier_first {identifier : String} {pre post : List WindowNode}
    {W : WindowNode} (hpre : ∀ w ∈ pre, w.identifier ≠ some identifier)
    (hW : W.identifier = some identifier) :
    find_identifier identifier (pre ++ W :: post) = some W := by
  induction pre with
  | nil => simp [find_identifier, hW]
  | cons curr next ih =>
    simp only [List.cons_append, find_identifier]
    rw [if_neg (hpre curr (List.mem_cons_self _ _))]
    exact ih (fun w hw => hpre w (List.mem_cons_of_mem _ hw))

/-- C9 (activation of an unknown identifier): `wlr_activate_window` called while
the backend is not initialized, with a `NULL` identifier, or with an identifier
no window of the registry has, returns the state it was given: history order,
every field of every window, activation counter, `window_count` and the trace
of requests sent are unchanged. -/
theorem activate_unknown (identifier : Option String) (s : WlrBackendState)
    (h : s.initialized = false ∨ identifier = none ∨
      ∀ w ∈ s.windows, w.identifier ≠ identifier) :
    wlr_activate_window identifier s = s := by
  unfold wlr_activate_window
  rcases h with h | h | h
  · simp [h]
  · subst h
    split <;> rfl
  · split
    · rfl
    · cases identifier with
      | none => rfl
      | some id => simp only []; rw [find_identifier_none h]

theorem activate_unknown_witness :
    (sample_three_windows.initialized = false ∨ some "wlr-0x4000" = (none : Option String) ∨
      ∀ w ∈ sample_three_windows.windows, w.identifier ≠ some "wlr-0x4000") ∧
    wlr_activate_window (some "wlr-0x4000") sample_three_windows = sample_three_windows :=
  ⟨Or.inr (Or.inr (by decide)),
    activate_unknown (some "wlr-0x4000") sample_three_windows (Or.inr (Or.inr (by decide)))⟩

theorem move_window_to_front_frame (window : Option WindowNode) (s : WlrBackendState) :
    (move_window_to_front window s).trace = s.trace ∧
    (move_window_to_front window s).seat = s.seat ∧
    (move_window_to_front window s).display = s.display ∧
    (move_window_to_front window s).window_count = s.window_count := by
  unfold move_window_to_front
  split
  · exact ⟨rfl, rfl, rfl, rfl⟩
  · exact ⟨rfl, rfl, rfl, rfl⟩
  · split <;> exact ⟨rfl, rfl, rfl, rfl⟩

/-- C10 (activation of a known identifier): when the backend is initialized and `W`
is the first window, in history order, whose identifier is the argument,
`wlr_activate_window` leaves the state `move_window_to_front` makes of `W`, with
the trace extended by exactly one activate request for the handle of `W` on
the bound seat and one flush when `W` has a handle and a seat is bound, and by
nothing otherwise; without a seat the result is that of `move_window_to_front`
alone. -/
theorem activate_known (identifier : String) (s : WlrBackendState)
    (pre post : List WindowNode) (W : WindowNode) (hinit : s.initialized = true)
    (hw : s.windows = pre ++ W :: post) (hpre : ∀ w ∈ pre, w.identifier ≠ some identifier)
    (hW : W.identifier = some identifier) :
    wlr_activate_window (some identifier) s =
      { move_window_to_front (some W) s with
        trace := s.trace ++
          (if W.handle ≠ 0 ∧ s.seat ≠ 0 then
            [Action.handle_activate W.handle s.seat, Action.display_flush s.display]
          else []) } ∧
    (s.seat = 0 → wlr_activate_window (some identifier) s = move_window_to_front (some W) s) := by
  obtain ⟨ht, hs, hd, _⟩ := move_window_to_front_frame (some W) s
  have hfind : find_identifier identifier s.windows = some W := by
    rw [hw]; exact find_identifier_first hpre hW
  have hrun : wlr_activate_window (some identifier) s =
      if W.handle ≠ 0 ∧ (move_window_to_front (some W) s).seat ≠ 0 then
        { move_window_to_front (some W) s with
          trace := (move_window_to_front (some W) s).trace ++
            [Action.handle_activate W.handle (move_window_to_front (some W) s).seat,
             Action.display_flush (move_window_to_front (some W) s).display] }
      else move_window_to_front (some W) s := by
    unfold wlr_activate_window
    simp only [hinit, Bool.not_true, Bool.false_eq_true, if_false, hfind]
  rw [hrun, ht, hs, hd]
  constructor
  · split
    · rfl
    · rw [List.append_nil, ← ht]
  · intro hseat
    rw [if_neg (by simp [hseat])]

theorem activate_known_witness :
    sample_three_windows.initialized = true ∧
    sample_three_windows.windows =
      [new_window 12288 48 true, new_window 8192 32 true] ++ new_window 4096 16 true :: [] ∧
    (∀ w ∈ [new_window 12288 48 true, new_window 8192 32 true],
      w.identifier ≠ some "wlr-0x1000") ∧
    (new_window 4096 16 true).identifier = some "wlr-0x1000" ∧
    wlr_activate_window (some "wlr-0x1000") sample_three_windows =
      { move_window_to_front (some (new_window 4096 16 true)) sample_three_windows with
        trace := sample_three_windows.trace ++
          (if (new_window 4096 16 true).handle ≠ 0 ∧ sample_three_windows.seat ≠ 0 then
            [Action.handle_activate (new_window 4096 16 true).handle sample_three_windows.seat,
             Action.display_flush sample_three_windows.display]
          else []) } ∧
    (wlr_activate_window (some "wlr-0x1000") sample_three_windows).trace =
      [Action.handle_activate 4096 5, Action.display_flush 7] ∧
    (wlr_activate_window (some "wlr-0x1000") sample_three_windows).windows.map
      (fun w => (w.addr, w.activation_serial)) = [(16, 1), (48, 0), (32, 0)] ∧
    sample_three_windows_no_seat.seat = 0 ∧
    wlr_activate_window (some "wlr-0x1000") sample_three_windows_no_seat =
      move_window_to_front (some (new_window 4096 16 true)) sample_three_windows_no_seat ∧
    (wlr_activate_window (some "wlr-0x1000") sample_three_windows_no_seat).trace = [] :=
  ⟨by decide, by decide, by decide, by decide,
    (activate_known "wlr-0x1000" sample_three_windows
      [new_window 12288 48 true, new_window 8192 32 true] [] (new_window 4096 16 true)
      (by decide) (by decide) (by decide) (by decide)).1,
    by decide, by decide, by decide,
    (activate_known "wlr-0x1000" sample_three_windows_no_seat
      [new_window 12288 48 true, new_window 8192 32 true] [] (new_window 4096 16 true)
      (by decide) (by decide) (by decide) (by decide)).2 (by decide),
    by decide⟩

/-! ## Identifiers determine handles -/

theorem digitValue_hexDigit (d : Nat) (h : d < 16) : digitValue (hexDigit d) = d := by
  interval_cases d <;> decide

theorem hexValue_append (l : List Char) (c : Char) :
    hexValue (l ++ [c]) = hexValue l * 16 + digitValue c := by
  simp [hexValue, List.foldl_append]

theorem hexValue_hexDigits (fuel : Nat) :
    ∀ n : Nat, n ≤ fuel → 0 < fuel → hexValue (hexDigits fuel n) = n := by
  induction fuel with
  | zero => intro n _ h; omega
  | succ f ih =>
    intro n hn _
    unfold hexDigits
    split
    · rename_i h16
      simp [hexValue, digitValue_hexDigit n h16]
    · rename_i h16
      rw [hexValue_append, ih (n / 16) (by omega) (by omega),
        digitValue_hexDigit _ (Nat.mod_lt _ (by omega))]
      omega

theorem hexDigits_length (fuel : Nat) :
    ∀ n k : Nat, n < 16 ^ (k + 1) → (hexDigits fuel n).length ≤ k + 1 := by
  induction fuel with
  | zero => intro n k _; simp [hexDigits]
  | succ f ih =>
    intro n k hn
    unfold hexDigits
    split
    · simp
    · rename_i h16
      cases k with
      | zero => simp at hn; omega
      | succ k =>
        have : n / 16 < 16 ^ (k + 1) := by
          rw [Nat.div_lt_iff_lt_mul (by omega)]
          rw [pow_succ] at hn
          exact hn
        have := ih (n / 16) k this
        simp only [List.length_append, List.length_singleton]
        omega

theorem snprintf_identifier_data (p : Nat) (h0 : p ≠ 0) (h64 : p < 2 ^ 64) :
    (snprintf_identifier p).data = 'w' :: 'l' :: 'r' :: '-' :: '0' :: 'x' :: hexDigits p p := by
  have hlen := hexDigits_length p p 15 (by norm_num at h64 ⊢; omega)
  unfold snprintf_identifier format_pointer
  rw [if_neg h0]
  apply List.take_of_length_le
  simp only [List.length_cons]
  omega

/-- The identifier text determines the handle it was printed from. -/
theorem snprintf_identifier_inj {p q : Nat} (hp0 : p ≠ 0) (hp : p < 2 ^ 64) (hq0 : q ≠ 0)
    (hq : q < 2 ^ 64) (h : snprintf_identifier p = snprintf_identifier q) : p = q := by
  have hd := congrArg String.data h
  rw [snprintf_identifier_data p hp0 hp, snprintf_identifier_data q hq0 hq] at hd
  simp only [List.cons.injEq, true_and] at hd
  have := congrArg hexValue hd
  rwa [hexValue_hexDigits p p (le_refl _) (by omega),
    hexValue_hexDigits q q (le_refl _) (by omega)] at this

theorem snprintf_identifier_ne_empty (p : Nat) : snprintf_identifier p ≠ "" := by
  intro h
  have hd := congrArg String.data h
  unfold snprintf_identifier at hd
  simp at hd

/-! ## Frame of the list operations -/

theorem mem_store_ne {v x : WindowNode} {l : List WindowNode} (h : x ∈ store v l) :
    x = v ∨ (x ∈ l ∧ x.addr ≠ v.addr) := by
  unfold store at h
  obtain ⟨curr, hcurr, rfl⟩ := List.mem_map.mp h
  split
  · exact Or.inl rfl
  · rename_i hne; exact Or.inr ⟨hcurr, hne⟩

theorem mem_move_window_to_front {s : WlrBackendState} {w x : WindowNode}
    (hx : x ∈ (move_window_to_front (some w) s).windows) :
    x ∈ s.windows ∨ x = { w with activation_serial := s.activation_counter + 1 } := by
  unfold move_window_to_front at hx
  split at hx
  · exact Or.inl hx
  · exact Or.inl hx
  · rename_i w1 head tail heq hl
    cases heq
    split at hx
    · exact Or.inl hx
    · rcases List.mem_cons.mp hx with rfl | hx
      · exact Or.inr rfl
      · exact Or.inl ((unlink_sublist _ _).subset hx)

theorem mem_init_serials (l : List WindowNode) :
    ∀ (c : Int) (x : WindowNode), x ∈ (init_serials l c).1 →
      ∃ y ∈ l, ∃ n : Int, x = { y with activation_serial := n } := by
  induction l with
  | nil => intro c x hx; simp [init_serials] at hx
  | cons curr next ih =>
    intro c x hx
    unfold init_serials at hx
    split at hx
    · rcases List.mem_cons.mp hx with rfl | hx
      · exact ⟨curr, List.mem_cons_self _ _, c + 1, rfl⟩
      · obtain ⟨y, hy, n, hn⟩ := ih _ x hx
        exact ⟨y, List.mem_cons_of_mem _ hy, n, hn⟩
    · rcases List.mem_cons.mp hx with rfl | hx
      · exact ⟨x, List.mem_cons_self _ _, x.activation_serial, rfl⟩
      · obtain ⟨y, hy, n, hn⟩ := ih _ x hx
        exact ⟨y, List.mem_cons_of_mem _ hy, n, hn⟩

/-! ## A closed handle stays absent -/

theorem move_window_to_front_absent {handle : Nat} {s : WlrBackendState} {w : WindowNode}
    (h : Absent handle s) (hw : w ∈ s.windows) :
    Absent handle (move_window_to_front (some w) s) := by
  intro x hx
  rcases mem_move_window_to_front hx with hx | rfl
  · exact h x hx
  · exact h w hw

theorem store_absent {handle : Nat} {s : WlrBackendState} {w v : WindowNode}
    (h : Absent handle s) (hw : w ∈ s.windows) (hv : v.handle = w.handle) :
    ∀ x ∈ store v s.windows, x.handle ≠ handle := by
  intro x hx
  rcases mem_store hx with rfl | hx
  · rw [hv]; exact h w hw
  · exact h x hx

theorem with_node_absent {handle : Nat} {s : WlrBackendState} (window : Nat)
    (handler : WindowNode → WlrBackendState → WlrBackendState) (h : Absent handle s)
    (hh : ∀ w ∈ s.windows, Absent handle (handler w s)) :
    Absent handle (with_node window s handler) := by
  unfold with_node
  split
  · rename_i w hw; exact hh w (node_at_some hw).1
  · exact h

theorem toplevel_handle_state_absent {handle : Nat} {s : WlrBackendState} {w : WindowNode}
    (wl_state : List Nat) (h : Absent handle s) (hw : w ∈ s.windows) :
    Absent handle (toplevel_handle_state w wl_state s) := by
  have hsame := state_update_same w wl_state
  have hstore : Absent handle { s with windows := store (wl_state.foldl state_step
      { w with state := 0, is_active := false, is_minimized := false }) s.windows } :=
    store_absent h hw hsame.2.1
  unfold toplevel_handle_state
  dsimp only
  split
  · exact move_window_to_front_absent hstore (store_mem hw hsame.1.symm)
  · exact hstore

theorem unlink_not_linked (a : Nat) (l : List WindowNode) (h : linked a l = false) :
    unlink a l = l := by
  induction l with
  | nil => rfl
  | cons curr next ih =>
    unfold linked at h
    unfold unlink
    by_cases hc : curr.addr = a
    · simp [hc] at h
    · simp only [hc, if_false] at h ⊢
      rw [ih h]

theorem toplevel_handle_closed_windows (w : WindowNode) (s : WlrBackendState) :
    (toplevel_handle_closed w s).windows = unlink w.addr s.windows := by
  unfold toplevel_handle_closed
  dsimp only
  cases hl : linked w.addr s.windows
  · simp only [Bool.false_eq_true, if_false]
    split <;> exact (unlink_not_linked _ _ hl).symm
  · simp only [if_true]
    split <;> rfl

theorem dispatch_absent {handle : Nat} {s : WlrBackendState} (e : Event)
    (h : Absent handle s) (ha : announces handle e = false) : Absent handle (dispatch e s) := by
  cases e with
  | global name interface version bound =>
    simp only [dispatch, registry_handle_global]
    split
    · exact h
    · split <;> exact h
  | global_remove name => exact h
  | toplevel toplevel node identifier_ok =>
    simp only [dispatch, manager_handle_toplevel]
    split
    · exact h
    · intro x hx
      rcases List.mem_cons.mp hx with rfl | hx
      · simpa [announces] using ha
      · exact h x hx
  | finished => exact h
  | title window title =>
    exact with_node_absent _ _ h (fun w hw => store_absent h hw rfl)
  | app_id window app_id =>
    exact with_node_absent _ _ h (fun w hw => store_absent h hw rfl)
  | output_enter window => exact with_node_absent _ _ h (fun _ _ => h)
  | output_leave window => exact with_node_absent _ _ h (fun _ _ => h)
  | state window wl_state =>
    exact with_node_absent _ _ h (fun w hw => toplevel_handle_state_absent wl_state h hw)
  | done window => exact with_node_absent _ _ h (fun _ _ => h)
  | closed window =>
    refine with_node_absent _ _ h (fun w _ => ?_)
    intro x hx
    rw [toplevel_handle_closed_windows] at hx
    exact h x ((unlink_sublist _ _).subset hx)
  | parent window => exact with_node_absent _ _ h (fun _ _ => h)

theorem dispatch_all_absent {handle : Nat} (events : List Event) :
    ∀ s : WlrBackendState, Absent handle s → avoids handle events = true →
      Absent handle (dispatch_all events s) := by
  induction events with
  | nil => intro s h _; exact h
  | cons e rest ih =>
    intro s h ha
    simp only [avoids, List.all_cons, Bool.and_eq_true, Bool.not_eq_true'] at ha
    rw [dispatch_all_cons]
    exact ih _ (dispatch_absent e h ha.1) (by simpa [avoids] using ha.2)

theorem wlr_backend_init_windows (env : InitEnv) (s : WlrBackendState) :
    (wlr_backend_init env s).2.windows = s.windows ∨
    (wlr_backend_init env s).2.windows =
      (dispatch_all env.round1 (init_connected env s)).windows ∨
    (wlr_backend_init env s).2.windows =
      (init_serials (dispatch_all env.round2 (dispatch_all env.round1
          (init_connected env s))).windows
        (dispatch_all env.round2 (dispatch_all env.round1
          (init_connected env s))).activation_counter).1 := by
  unfold wlr_backend_init init_connected
  dsimp only
  split
  · exact Or.inl rfl
  · split
    · exact Or.inl rfl
    · split
      · exact Or.inl rfl
      · split
        · exact Or.inr (Or.inl rfl)
        · exact Or.inr (Or.inr rfl)

theorem wlr_backend_init_absent {handle : Nat} (env : InitEnv) {s : WlrBackendState}
    (h : Absent handle s) (h1 : avoids handle env.round1 = true)
    (h2 : avoids handle env.round2 = true) : Absent handle (wlr_backend_init env s).2 := by
  have hconn : Absent handle (init_connected env s) := h
  have hr1 := dispatch_all_absent env.round1 _ hconn h1
  have hr2 := dispatch_all_absent env.round2 _ hr1 h2
  intro x hx
  rcases wlr_backend_init_windows env s with hw | hw | hw
  · rw [hw] at hx; exact h x hx
  · rw [hw] at hx; exact hr1 x hx
  · rw [hw] at hx
    obtain ⟨y, hy, n, rfl⟩ := mem_init_serials _ _ _ hx
    exact hr2 y hy

theorem wlr_get_windows_absent {handle : Nat} (queued arrived : List Event)
    {s : WlrBackendState} (state : AppState) (h : Absent handle s)
    (h1 : avoids handle queued = true) (h2 : avoids handle arrived = true) :
    Absent handle (wlr_get_windows queued arrived s state).2.1 := by
  cases hi : s.initialized
  · simp [wlr_get_windows, hi]; exact h
  · rw [wlr_get_windows_eq _ _ _ _ hi]
    have hq : Absent handle (pump_flushed queued s) := dispatch_all_absent queued _ h h1
    exact dispatch_all_absent arrived _ hq h2

theorem wlr_activate_window_absent {handle : Nat} (identifier : Option String)
    {s : WlrBackendState} (h : Absent handle s) :
    Absent handle (wlr_activate_window identifier s) := by
  unfold wlr_activate_window
  split
  · exact h
  · split
    · exact h
    · split
      · exact h
      · rename_i curr hfind
        have hm := move_window_to_front_absent h (find_identifier_some hfind).1
        dsimp only
        split
        · exact hm
        · exact hm

theorem later_inv_absent {handle : Nat} {s t : WlrBackendState} (hl : Later handle s t)
    (hinv : Inv s) (habs : Absent handle s) : Inv t ∧ Absent handle t := by
  induction hl with
  | here => exact ⟨hinv, habs⟩
  | event e t _ hd ha ih => exact ⟨dispatch_inv e ih.1 hd, dispatch_absent e ih.2 ha⟩
  | init env t _ h1 h2 a1 a2 ih =>
    exact ⟨wlr_backend_init_inv env ih.1 h1 h2, wlr_backend_init_absent env ih.2 a1 a2⟩
  | get_windows queued arrived t state _ h1 h2 a1 a2 ih =>
    exact ⟨wlr_get_windows_inv _ _ state ih.1 h1 h2, wlr_get_windows_absent _ _ state ih.2 a1 a2⟩
  | activate identifier t _ ih =>
    exact ⟨wlr_activate_window_inv identifier ih.1, wlr_activate_window_absent identifier ih.2⟩
  | cleanup t _ _ =>
    refine ⟨wlr_backend_cleanup_inv t, ?_⟩
    intro x hx
    rw [(wlr_backend_cleanup_fields t).1] at hx
    cases hx

/-- In a state that satisfies the invariant and holds no window with the handle of
`W`, no window has the identifier of `W`. -/
theorem identifier_absent {t : WlrBackendState} {W : WindowNode} (hinv : Inv t)
    (hW : NodeOk t.activation_counter W ∨ W.identifier = none ∨
      (W.handle ≠ 0 ∧ W.handle < 2 ^ 64 ∧
        W.identifier = some (snprintf_identifier W.handle)))
    (habs : Absent W.handle t) :
    ∀ w ∈ t.windows, w.identifier = none ∨ w.identifier ≠ W.identifier := by
  intro w hw
  have hok := hinv.2.2.2.2 w hw
  rcases hok.2.2.1 with hn | hs
  · exact Or.inl hn
  · right
    intro heq
    have hWid : W.handle ≠ 0 ∧ W.handle < 2 ^ 64 ∧
        W.identifier = some (snprintf_identifier W.handle) := by
      rcases hW with h | h | h
      · rcases h.2.2.1 with hn | hs2
        · rw [hs, hn] at heq; cases heq
        · exact ⟨h.1, h.2.1, hs2⟩
      · rw [hs, h] at heq; cases heq
      · exact h
    rw [hs, hWid.2.2] at heq
    have := snprintf_identifier_inj hok.1 hok.2.1 hWid.1 hWid.2.1 (Option.some.inj heq)
    exact habs w hw this

theorem unlink_eq_erase {l : List WindowNode} {w : WindowNode} (hw : w ∈ l)
    (huniq : ∀ curr ∈ l, curr.addr = w.addr → curr = w) : unlink w.addr l = l.erase w := by
  induction l with
  | nil => cases hw
  | cons curr next ih =>
    unfold unlink
    by_cases hc : curr.addr = w.addr
    · have := huniq curr (List.mem_cons_self _ _) hc
      subst this
      simp
    · have hne : curr ≠ w := fun h => hc (by rw [h])
      have hw2 : w ∈ next := by
        rcases List.mem_cons.mp hw with rfl | h
        · exact absurd rfl hne
        · exact h
      rw [if_neg hc, List.erase_cons_tail (by simpa using hne),
        ih hw2 (fun c hcm he => huniq c (List.mem_cons_of_mem _ hcm) he)]

theorem wlr_activate_window_no_match (identifier : Option String) (s : WlrBackendState)
    (h : ∀ w ∈ s.windows, w.identifier = none ∨ w.identifier ≠ identifier) :
    wlr_activate_window identifier s = s := by
  unfold wlr_activate_window
  split
  · rfl
  · cases identifier with
    | none => rfl
    | some id =>
      have hnone : find_identifier id s.windows = none :=
        find_identifier_none (fun w hw => by
          rcases h w hw with hn | hne
          · rw [hn]; exact fun hc => nomatch hc
          · exact hne)
      dsimp only
      rw [hnone]

theorem window_info_address (w : WindowNode) (k : Nat) :
    (window_info w k).address = w.identifier.getD "" := rfl

/-- C8 (close removes): a Closed event for a window `W` registered in a reachable
state leaves the old list with `W` erased (the other nodes in their order,
unchanged), `W` is no longer in it and `window_count` is one less, whatever the
minimized flag of `W`; and in every state reached later without a Created event
for the handle of `W`, activating the identifier of `W` changes nothing and no
result of `wlr_get_windows` contains the identifier of `W`. -/
theorem close_removes (s : WlrBackendState) (W : WindowNode) (hreach : Reach s)
    (hW : W ∈ s.windows) :
    (toplevel_handle_closed W s).windows = s.windows.erase W ∧
    W ∉ (toplevel_handle_closed W s).windows ∧
    (toplevel_handle_closed W s).window_count = s.window_count - 1 ∧
    ∀ t : WlrBackendState, Later W.handle (toplevel_handle_closed W s) t →
      wlr_activate_window W.identifier t = t ∧
      ∀ (queued arrived : List Event) (t0 : WlrBackendState) (state : AppState),
        t0.initialized = true → (wlr_get_windows queued arrived t0 state).2.1 = t →
        ∀ info ∈ (wlr_get_windows queued arrived t0 state).2.2.windows,
          W.identifier ≠ some info.address := by
  have hinv := reach_inv hreach
  have huniq : ∀ curr ∈ s.windows, curr.addr = W.addr → curr = W := fun curr hc he =>
    addr_unique hinv.2.2.1 hW hc he
  have hnodup : s.windows.Nodup := List.Nodup.of_map _ hinv.2.2.1
  have hwin : (toplevel_handle_closed W s).windows = s.windows.erase W := by
    rw [toplevel_handle_closed_windows, unlink_eq_erase hW huniq]
  have hgone : W ∉ (toplevel_handle_closed W s).windows := by
    rw [hwin]; exact fun h => (List.Nodup.mem_erase_iff hnodup).mp h |>.1 rfl
  have hinv2 : Inv (toplevel_handle_closed W s) := toplevel_handle_closed_inv hinv hW
  have hWok := hinv.2.2.2.2 W hW
  have habs : Absent W.handle (toplevel_handle_closed W s) := by
    intro x hx
    rw [hwin] at hx
    have hxs : x ∈ s.windows := List.mem_of_mem_erase hx
    intro hh
    have hxW : x = W := List.inj_on_of_nodup_map hinv.2.2.2.1 hxs hW hh
    rw [hxW, ← hwin] at hx
    exact hgone hx
  refine ⟨hwin, hgone, ?_, ?_⟩
  · have hlinked : linked W.addr s.windows = true := (linked_iff _ _).mpr ⟨W, hW, rfl⟩
    unfold toplevel_handle_closed
    simp only [hlinked, if_true]
    split <;> rfl
  · intro t hlater
    obtain ⟨hinvt, habst⟩ := later_inv_absent hlater hinv2 habs
    have hnomatch := identifier_absent (W := W) hinvt
      (Or.inr (by
        rcases hWok.2.2.1 with hn | hs
        · exact Or.inl hn
        · exact Or.inr ⟨hWok.1, hWok.2.1, hs⟩)) habst
    refine ⟨wlr_activate_window_no_match _ _ hnomatch, ?_⟩
    intro queued arrived t0 state hinit ht info hinfo hid
    have hperm := wlr_get_windows_perm queued arrived t0 state hinit (by rw [ht]; exact hinvt.1)
    rw [ht] at hperm
    obtain ⟨w, hw, _, k, _, he⟩ := mem_summaries _ _ _ (hperm.subset hinfo)
    rw [he, window_info_address] at hid
    rcases hnomatch w hw with hn | hne
    · rw [hn] at hid
      rcases hWok.2.2.1 with hWn | hWs
      · rw [hWn] at hid; cases hid
      · rw [hWs] at hid
        exact snprintf_identifier_ne_empty _ (Option.some.inj hid)
    · apply hne
      rw [hid]
      cases hwi : w.identifier with
      | none => rw [hwi] at hid; simp only [Option.getD_none] at hid
                rcases hWok.2.2.1 with hWn | hWs
                · rw [hWn] at hid; cases hid
                · rw [hWs] at hid
                  exact absurd (Option.some.inj hid) (snprintf_identifier_ne_empty _)
      | some x => rfl

theorem reach_dispatch_all (events : List Event) :
    ∀ s : WlrBackendState, Reach s → deliverable_all events s = true →
      Reach (dispatch_all events s) := by
  induction events with
  | nil => intro s h _; exact h
  | cons e rest ih =>
    intro s h hd
    simp only [deliverable_all, Bool.and_eq_true] at hd
    rw [dispatch_all_cons]
    exact ih _ (Reach.event e s h hd.1) hd.2

theorem sample_minimized_session_reach : Reach sample_minimized_session :=
  reach_dispatch_all sample_one_minimized sample_session sample_session_reach (by decide)

theorem close_removes_witness :
    Reach sample_minimized_session ∧ sample_minimized ∈ sample_minimized_session.windows ∧
    (toplevel_handle_closed sample_minimized sample_minimized_session).windows =
      sample_minimized_session.windows.erase sample_minimized ∧
    sample_minimized ∉ (toplevel_handle_closed sample_minimized sample_minimized_session).windows ∧
    (toplevel_handle_closed sample_minimized sample_minimized_session).window_count =
      sample_minimized_session.window_count - 1 ∧
    wlr_activate_window sample_minimized.identifier
        (dispatch (Event.toplevel 16384 16 true)
          (toplevel_handle_closed sample_minimized sample_minimized_session)) =
      dispatch (Event.toplevel 16384 16 true)
        (toplevel_handle_closed sample_minimized sample_minimized_session) :=
  ⟨sample_minimized_session_reach, by decide,
    (close_removes sample_minimized_session sample_minimized sample_minimized_session_reach
      (by decide)).1,
    (close_removes sample_minimized_session sample_minimized sample_minimized_session_reach
      (by decide)).2.1,
    (close_removes sample_minimized_session sample_minimized sample_minimized_session_reach
      (by decide)).2.2.1,
    ((close_removes sample_minimized_session sample_minimized sample_minimized_session_reach
      (by decide)).2.2.2 _
        (Later.event (Event.toplevel 16384 16 true) _ Later.here (by decide) (by decide))).1⟩

/-! ## The string fields follow the events -/

theorem foldl_state_step_strings (wl_state : List Nat) :
    ∀ v : WindowNode, (wl_state.foldl state_step v).title = v.title ∧
      (wl_state.foldl state_step v).app_id = v.app_id := by
  induction wl_state with
  | nil => intro v; exact ⟨rfl, rfl⟩
  | cons st rest ih =>
    intro v
    have h1 : (state_step v st).title = v.title ∧ (state_step v st).app_id = v.app_id := by
      unfold state_step
      dsimp only
      split <;> split <;> exact ⟨rfl, rfl⟩
    have h2 := ih (state_step v st)
    simp only [List.foldl_cons]
    exact ⟨h2.1.trans h1.1, h2.2.trans h1.2⟩

theorem move_window_to_front_tracks {r : Received} {s : WlrBackendState} {w : WindowNode}
    (h : Tracks r s) (hw : w ∈ s.windows) : Tracks r (move_window_to_front (some w) s) := by
  intro x hx
  rcases mem_move_window_to_front hx with hx | rfl
  · exact h x hx
  · exact h w hw

theorem deliverable_node {s : WlrBackendState} {window : Nat}
    (h : (node_at window s.windows).isSome = true) :
    ∃ w, node_at window s.windows = some w ∧ w ∈ s.windows ∧ w.addr = window := by
  obtain ⟨w, hw⟩ := Option.isSome_iff_exists.mp h
  exact ⟨w, hw, (node_at_some hw).1, (node_at_some hw).2⟩

theorem dispatch_tracks {r : Received} {s : WlrBackendState} (e : Event) (h : Tracks r s)
    (hd : deliverable e s = true) : Tracks (receive r e) (dispatch e s) := by
  cases e with
  | global name interface version bound =>
    simp only [dispatch, registry_handle_global, receive]
    split
    · exact h
    · split <;> exact h
  | global_remove name => exact h
  | toplevel toplevel node identifier_ok =>
    simp only [dispatch, manager_handle_toplevel, receive]
    split
    · exact h
    · rename_i hnode
      simp only [deliverable, Bool.and_eq_true, decide_eq_true_eq, Bool.not_eq_true',
        Bool.or_eq_true, hnode, false_or, List.any_eq_false] at hd
      intro x hx
      rcases List.mem_cons.mp hx with rfl | hx
      · simp [new_window]
      · have hne : x.addr ≠ node := by simpa using hd.2 x hx
        simp only [hne, if_false]
        exact h x hx
  | finished => exact h
  | title window title =>
    obtain ⟨w, hnode, hw, ha⟩ := deliverable_node hd
    simp only [dispatch, with_node, hnode, toplevel_handle_title, receive]
    intro x hx
    rcases mem_store_ne hx with rfl | ⟨hx, hne⟩
    · simp only [ha, if_true, Option.map_some']
      exact ⟨trivial, (h w hw).2.trans (by rw [ha])⟩
    · have hne2 : x.addr ≠ window := by rw [← ha]; exact hne
      simp only [hne2, if_false]
      exact h x hx
  | app_id window app_id =>
    obtain ⟨w, hnode, hw, ha⟩ := deliverable_node hd
    simp only [dispatch, with_node, hnode, toplevel_handle_app_id, receive]
    intro x hx
    rcases mem_store_ne hx with rfl | ⟨hx, hne⟩
    · simp only [ha, if_true, Option.map_some']
      exact ⟨(h w hw).1.trans (by rw [ha]), trivial⟩
    · have hne2 : x.addr ≠ window := by rw [← ha]; exact hne
      simp only [hne2, if_false]
      exact h x hx
  | output_enter window =>
    simp only [dispatch, with_node, receive]; split <;> exact h
  | output_leave window =>
    simp only [dispatch, with_node, receive]; split <;> exact h
  | state window wl_state =>
    obtain ⟨w, hnode, hw, ha⟩ := deliverable_node hd
    simp only [dispatch, with_node, hnode, receive]
    have hsame := state_update_same w wl_state
    have hstr := foldl_state_step_strings wl_state
      { w with state := 0, is_active := false, is_minimized := false }
    have hstore : Tracks r { s with windows := store (wl_state.foldl state_step
        { w with state := 0, is_active := false, is_minimized := false }) s.windows } := by
      intro x hx
      rcases mem_store hx with rfl | hx
      · rw [hstr.1, hstr.2, hsame.1]
        exact h w hw
      · exact h x hx
    unfold toplevel_handle_state
    dsimp only
    split
    · exact move_window_to_front_tracks hstore (store_mem hw hsame.1.symm)
    · exact hstore
  | done window =>
    simp only [dispatch, with_node, receive]; split <;> exact h
  | closed window =>
    simp only [dispatch, with_node, receive]
    split
    · intro x hx
      rw [toplevel_handle_closed_windows] at hx
      exact h x ((unlink_sublist _ _).subset hx)
    · exact h
  | parent window =>
    simp only [dispatch, with_node, receive]; split <;> exact h

theorem dispatch_all_tracks (events : List Event) :
    ∀ (r : Received) (s : WlrBackendState), Tracks r s → deliverable_all events s = true →
      Tracks (receive_all r events) (dispatch_all events s) := by
  induction events with
  | nil => intro r s h _; exact h
  | cons e rest ih =>
    intro r s h hd
    simp only [deliverable_all, Bool.and_eq_true] at hd
    exact ih _ _ (dispatch_tracks e h hd.1) hd.2

theorem receive_all_append (r : Received) (a b : List Event) :
    receive_all r (a ++ b) = receive_all (receive_all r a) b := by
  simp [receive_all, List.foldl_append]

/-- C7, as stated, fails: three windows that were announced and received no title
and no app-id event are returned with the title `Untitled` and the application
id `unknown`, not with empty strings. -/
theorem summary_strings_counterexample :
    (wlr_get_windows [] (sample_three_created.map created) sample_session
        { windows := [] }).2.2.windows.map (fun info => (info.title, info.class_name))
      = [("Untitled", "unknown"), ("Untitled", "unknown"), ("Untitled", "unknown")] ∧
    "Untitled" ≠ "" ∧ "unknown" ≠ "" := by
  decide

theorem reachReceived_reach {r : Received} {s : WlrBackendState} (h : ReachReceived r s) :
    Reach s := by
  induction h with
  | zero => exact Reach.zero
  | event e r s _ hd ih => exact Reach.event e s ih hd
  | init env r s _ h1 h2 ih => exact Reach.init env s ih h1 h2
  | get_windows queued arrived r s state _ h1 h2 ih =>
    exact Reach.get_windows queued arrived s state ih h1 h2
  | activate identifier r s _ ih => exact Reach.activate identifier s ih
  | cleanup r s _ ih => exact Reach.cleanup s ih

theorem wlr_backend_init_events (env : InitEnv) (s : WlrBackendState) :
    (init_events env s = [] ∧ (wlr_backend_init env s).2.windows = s.windows) ∨
    (init_events env s = env.round1 ∧ (wlr_backend_init env s).2.windows =
      (dispatch_all env.round1 (init_connected env s)).windows) ∨
    (init_events env s = env.round1 ++ env.round2 ∧ (wlr_backend_init env s).2.windows =
      (init_serials (dispatch_all env.round2 (dispatch_all env.round1
          (init_connected env s))).windows
        (dispatch_all env.round2 (dispatch_all env.round1
          (init_connected env s))).activation_counter).1) := by
  unfold wlr_backend_init init_events init_connected
  dsimp only
  split
  · exact Or.inl ⟨rfl, rfl⟩
  · split
    · exact Or.inl ⟨rfl, rfl⟩
    · split
      · exact Or.inl ⟨rfl, rfl⟩
      · split
        · exact Or.inr (Or.inl ⟨rfl, rfl⟩)
        · exact Or.inr (Or.inr ⟨rfl, rfl⟩)

theorem wlr_backend_init_tracks (env : InitEnv) {r : Received} {s : WlrBackendState}
    (h : Tracks r s) (h1 : deliverable_all env.round1 (init_connected env s) = true)
    (h2 : deliverable_all env.round2 (dispatch_all env.round1 (init_connected env s)) = true) :
    Tracks (receive_all r (init_events env s)) (wlr_backend_init env s).2 := by
  have hconn : Tracks r (init_connected env s) := h
  have hr1 := dispatch_all_tracks env.round1 r _ hconn h1
  have hr2 := dispatch_all_tracks env.round2 _ _ hr1 h2
  rw [← receive_all_append] at hr2
  intro x hx
  rcases wlr_backend_init_events env s with ⟨he, hw⟩ | ⟨he, hw⟩ | ⟨he, hw⟩
  · rw [hw] at hx
    rw [he]
    exact h x hx
  · rw [hw] at hx
    rw [he]
    exact hr1 x hx
  · rw [hw] at hx
    rw [he]
    obtain ⟨y, hy, n, rfl⟩ := mem_init_serials _ _ _ hx
    exact hr2 y hy

theorem wlr_get_windows_tracks (queued arrived : List Event) {r : Received}
    {s : WlrBackendState} (state : AppState) (h : Tracks r s)
    (h1 : deliverable_all queued s = true)
    (h2 : deliverable_all arrived (pump_flushed queued s) = true) :
    Tracks (receive_all r (get_windows_events queued arrived s))
      (wlr_get_windows queued arrived s state).2.1 := by
  cases hi : s.initialized
  · simp only [wlr_get_windows, get_windows_events, hi, Bool.not_false, if_true,
      Bool.false_eq_true, if_false]
    exact h
  · rw [wlr_get_windows_eq _ _ _ _ hi]
    simp only [get_windows_events, hi, if_true]
    rw [receive_all_append]
    have hq : Tracks (receive_all r queued) (pump_flushed queued s) :=
      dispatch_all_tracks queued r s h h1
    exact dispatch_all_tracks arrived _ _ hq h2

theorem wlr_activate_window_tracks (identifier : Option String) {r : Received}
    {s : WlrBackendState} (h : Tracks r s) : Tracks r (wlr_activate_window identifier s) := by
  unfold wlr_activate_window
  split
  · exact h
  · split
    · exact h
    · split
      · exact h
      · rename_i curr hfind
        have hm := move_window_to_front_tracks h (find_identifier_some hfind).1
        dsimp only
        split
        · exact hm
        · exact hm

/-- Every reachable state is reached by a history with some record. -/
theorem reach_reachReceived {s : WlrBackendState} (h : Reach s) :
    ∃ r : Received, ReachReceived r s := by
  induction h with
  | zero => exact ⟨_, ReachReceived.zero⟩
  | event e s _ hd ih =>
    obtain ⟨r, hr⟩ := ih
    exact ⟨_, ReachReceived.event e r s hr hd⟩
  | init env s _ h1 h2 ih =>
    obtain ⟨r, hr⟩ := ih
    exact ⟨_, ReachReceived.init env r s hr h1 h2⟩
  | get_windows queued arrived s state _ h1 h2 ih =>
    obtain ⟨r, hr⟩ := ih
    exact ⟨_, ReachReceived.get_windows queued arrived r s state hr h1 h2⟩
  | activate identifier s _ ih =>
    obtain ⟨r, hr⟩ := ih
    exact ⟨_, ReachReceived.activate identifier r s hr⟩
  | cleanup s _ ih =>
    obtain ⟨r, hr⟩ := ih
    exact ⟨_, ReachReceived.cleanup r s hr⟩

/-- In every reachable state the string fields of the linked nodes hold what the
title and app-id events of the history delivered last. -/
theorem reachReceived_tracks {r : Received} {s : WlrBackendState} (h : ReachReceived r s) :
    Tracks r s := by
  induction h with
  | zero => exact fun _ hw => nomatch hw
  | event e r s _ hd ih => exact dispatch_tracks e ih hd
  | init env r s _ h1 h2 ih => exact wlr_backend_init_tracks env ih h1 h2
  | get_windows queued arrived r s state _ h1 h2 ih =>
    exact wlr_get_windows_tracks queued arrived state ih h1 h2
  | activate identifier r s _ ih => exact wlr_activate_window_tracks identifier ih
  | cleanup r s _ _ =>
    intro x hx
    rw [(wlr_backend_cleanup_fields s).1] at hx
    cases hx

/-- C7 (summary strings), amended: on an initialized state reached by a history
whose title and app-id events leave the record `r` (events delivered during
`wlr_backend_init` and during earlier `wlr_get_windows` calls included), the
string fields of the registry after the events of a `wlr_get_windows` call
agree with the record extended by these events, and every summary returned is
that of a window of the registry and carries the last title (resp. application
id) that window received, the empty string for a `NULL` payload, and
`Untitled` (resp. `unknown`) for a window that has not received a title
(resp. app-id) event. -/
theorem summary_strings (queued arrived : List Event) (s : WlrBackendState) (state : AppState)
    (r : Received) (hinit : s.initialized = true) (hreach : ReachReceived r s)
    (hd1 : deliverable_all queued s = true)
    (hd2 : deliverable_all arrived (pump_flushed queued s) = true) :
    Tracks (receive_all r (queued ++ arrived)) (wlr_get_windows queued arrived s state).2.1 ∧
    ∀ info ∈ (wlr_get_windows queued arrived s state).2.2.windows,
      ∃ w ∈ (wlr_get_windows queued arrived s state).2.1.windows, ∃ k : Nat,
        info = window_info w k ∧
        info.title = (match (receive_all r (queued ++ arrived)).title w.addr with
          | none => "Untitled"
          | some title => title.getD "") ∧
        info.class_name = (match (receive_all r (queued ++ arrived)).app_id w.addr with
          | none => "unknown"
          | some app_id => app_id.getD "") := by
  have hinv := wlr_get_windows_inv queued arrived state (reach_inv (reachReceived_reach hreach))
    hd1 hd2
  have hperm := wlr_get_windows_perm queued arrived s state hinit hinv.1
  have htracks : Tracks (receive_all r (queued ++ arrived))
      (wlr_get_windows queued arrived s state).2.1 := by
    have h := wlr_get_windows_tracks queued arrived state (reachReceived_tracks hreach) hd1 hd2
    simp only [get_windows_events, hinit, if_true] at h
    exact h
  refine ⟨htracks, ?_⟩
  intro info hinfo
  obtain ⟨w, hw, _, k, _, he⟩ := mem_summaries _ _ _ (hperm.subset hinfo)
  refine ⟨w, hw, k, he, ?_, ?_⟩
  · rw [he]
    show w.title.getD "Untitled" = _
    rw [(htracks w hw).1]
    cases (receive_all r (queued ++ arrived)).title w.addr <;> rfl
  · rw [he]
    show w.app_id.getD "unknown" = _
    rw [(htracks w hw).2]
    cases (receive_all r (queued ++ arrived)).app_id w.addr <;> rfl

theorem summary_strings_witness :
    sample_titled_session.initialized = true ∧
    ReachReceived sample_titled_record sample_titled_session ∧
    deliverable_all [] sample_titled_session = true ∧
    deliverable_all [Event.title 48 (some "Editor")] (pump_flushed [] sample_titled_session)
      = true ∧
    Tracks (receive_all sample_titled_record ([] ++ [Event.title 48 (some "Editor")]))
      (wlr_get_windows [] [Event.title 48 (some "Editor")] sample_titled_session
        { windows := [] }).2.1 ∧
    (wlr_get_windows [] [Event.title 48 (some "Editor")] sample_titled_session
        { windows := [] }).2.2.windows.map (fun info => (info.address, info.title, info.class_name))
      = [("wlr-0x3000", "Editor", "unknown"), ("wlr-0x2000", "", "unknown"),
         ("wlr-0x1000", "Terminal", "foot")] :=
  ⟨by decide,
    ReachReceived.init sample_env_titles Received.nothing backend_state ReachReceived.zero
      (by decide) (by decide),
    by decide, by decide,
    (summary_strings [] [Event.title 48 (some "Editor")] sample_titled_session { windows := [] }
      sample_titled_record (by decide)
      (ReachReceived.init sample_env_titles Received.nothing backend_state ReachReceived.zero
        (by decide) (by decide))
      (by decide) (by decide)).1,
    by decide⟩

/-! ## Lifecycle: error results and repeated calls -/

/-- C11 (not initialized): `wlr_get_windows` called while `initialized` is false
returns -1 and leaves the backend state and the caller's object as they were;
called while `initialized` is true it returns 0. -/
theorem get_windows_initialized (queued arrived : List Event) (s : WlrBackendState)
    (state : AppState) :
    (s.initialized = false → wlr_get_windows queued arrived s state = (-1, s, state)) ∧
    (s.initialized = true → (wlr_get_windows queued arrived s state).1 = 0) := by
  constructor
  · intro h
    simp [wlr_get_windows, h]
  · intro h
    rw [wlr_get_windows_eq _ _ _ _ h]

theorem get_windows_initialized_witness :
    backend_state.initialized = false ∧
    wlr_get_windows [] sample_two_active backend_state sample_tie =
      (-1, backend_state, sample_tie) ∧
    sample_session.initialized = true ∧
    (wlr_get_windows [] sample_two_active sample_session sample_tie).1 = 0 :=
  ⟨by decide,
    (get_windows_initialized [] sample_two_active backend_state sample_tie).1 (by decide),
    by decide,
    (get_windows_initialized [] sample_two_active sample_session sample_tie).2 (by decide)⟩

/-- The return value of `wlr_backend_init` on every path. -/
theorem wlr_backend_init_result (env : InitEnv) (s : WlrBackendState) :
    (wlr_backend_init env s).1 =
      if s.initialized = true then 0
      else if env.display = 0 then -1
      else if env.registry = 0 then -1
      else if (dispatch_all env.round1 (init_connected env s)).manager = 0 then -1
      else 0 := by
  unfold wlr_backend_init init_connected
  dsimp only
  split
  · rfl
  · split
    · rfl
    · split
      · rfl
      · split <;> rfl

/-- C12, as stated, fails: `wlr_backend_init` returns -1 when the manager global is
absent, -1 when the registry cannot be obtained and -1 when no display can be
connected; the three results are equal. -/
theorem init_failures_counterexample :
    (wlr_backend_init sample_env_no_manager backend_state).1 = -1 ∧
    (wlr_backend_init sample_env_no_registry backend_state).1 = -1 ∧
    (wlr_backend_init sample_env_no_display backend_state).1 = -1 ∧
    (wlr_backend_init sample_env_no_manager backend_state).1 =
      (wlr_backend_init sample_env_no_registry backend_state).1 ∧
    (wlr_backend_init sample_env_no_manager backend_state).1 =
      (wlr_backend_init sample_env_no_display backend_state).1 := by
  decide

/-- C12 (failure results), amended: called while not initialized,
`wlr_backend_init` returns the same value -1 on each of its failing paths (no
display connected, registry not obtained, manager global absent after the first
roundtrip) and 0 when none of them is taken; the return value does not tell the
failures apart. -/
theorem init_failures (env : InitEnv) (s : WlrBackendState) (h : s.initialized = false) :
    (env.display = 0 → (wlr_backend_init env s).1 = -1) ∧
    (env.display ≠ 0 → env.registry = 0 → (wlr_backend_init env s).1 = -1) ∧
    (env.display ≠ 0 → env.registry ≠ 0 →
      (dispatch_all env.round1 (init_connected env s)).manager = 0 →
      (wlr_backend_init env s).1 = -1) ∧
    (env.display ≠ 0 → env.registry ≠ 0 →
      (dispatch_all env.round1 (init_connected env s)).manager ≠ 0 →
      (wlr_backend_init env s).1 = 0) := by
  rw [wlr_backend_init_result]
  refine ⟨?_, ?_, ?_, ?_⟩
  · intro hd; simp [h, hd]
  · intro hd hr; simp [h, hd, hr]
  · intro hd hr hm; simp [h, hd, hr, hm]
  · intro hd hr hm; simp [h, hd, hr, hm]

theorem init_failures_witness :
    backend_state.initialized = false ∧
    sample_env_no_manager.display ≠ 0 ∧ sample_env_no_manager.registry ≠ 0 ∧
    (dispatch_all sample_env_no_manager.round1
      (init_connected sample_env_no_manager backend_state)).manager = 0 ∧
    (wlr_backend_init sample_env_no_manager backend_state).1 = -1 ∧
    sample_env_no_registry.display ≠ 0 ∧ sample_env_no_registry.registry = 0 ∧
    (wlr_backend_init sample_env_no_registry backend_state).1 = -1 :=
  ⟨by decide, by decide, by decide, by decide,
    (init_failures sample_env_no_manager backend_state (by decide)).2.2.1
      (by decide) (by decide) (by decide),
    by decide, by decide,
    (init_failures sample_env_no_registry backend_state (by decide)).2.1
      (by decide) (by decide)⟩

/-- C13 fails on the code: after `wlr_backend_init` has failed because the manager
global is absent, it has destroyed registry 8 and disconnected display 7 and
left both fields set; the following `wlr_backend_cleanup` destroys registry 8
and disconnects display 7 a second time.  After a failure to obtain the
registry, display 7 is disconnected twice. -/
theorem teardown_after_failed_init :
    (wlr_backend_init sample_env_no_manager backend_state).1 = -1 ∧
    (wlr_backend_init sample_env_no_manager backend_state).2.registry = 8 ∧
    (wlr_backend_init sample_env_no_manager backend_state).2.display = 7 ∧
    (wlr_backend_init sample_env_no_manager backend_state).2.trace =
      [Action.registry_destroy 8, Action.display_disconnect 7] ∧
    (wlr_backend_cleanup (wlr_backend_init sample_env_no_manager backend_state).2).trace =
      [Action.registry_destroy 8, Action.display_disconnect 7, Action.seat_destroy 5,
       Action.registry_destroy 8, Action.display_disconnect 7] ∧
    (wlr_backend_init sample_env_no_registry backend_state).1 = -1 ∧
    (wlr_backend_cleanup (wlr_backend_init sample_env_no_registry backend_state).2).trace =
      [Action.display_disconnect 7, Action.display_disconnect 7] := by
  decide

theorem destroy_handles_nil : destroy_handles [] = [] := rfl

/-- The state `wlr_backend_cleanup` leaves, whatever it started from. -/
theorem wlr_backend_cleanup_state (s : WlrBackendState) :
    (wlr_backend_cleanup s).display = 0 ∧ (wlr_backend_cleanup s).registry = 0 ∧
    (wlr_backend_cleanup s).manager = 0 ∧ (wlr_backend_cleanup s).seat = 0 ∧
    (wlr_backend_cleanup s).windows = [] ∧ (wlr_backend_cleanup s).window_count = 0 ∧
    (wlr_backend_cleanup s).initialized = false ∧
    (wlr_backend_cleanup s).needs_refresh = false ∧
    (wlr_backend_cleanup s).activation_counter = 0 := by
  unfold wlr_backend_cleanup cleanup_windows
  dsimp only
  refine ⟨?_, ?_, ?_, ?_, ?_, rfl, rfl, rfl, rfl⟩
  · split <;> split <;> split <;> split <;> simp_all
  · split <;> split <;> split <;> split <;> simp_all
  · split <;> split <;> split <;> split <;> simp_all
  · split <;> split <;> split <;> split <;> simp_all
  · split <;> split <;> split <;> split <;> simp_all

/-- A state in which every reference is null and there is no window is left as it
is by `wlr_backend_cleanup`. -/
theorem wlr_backend_cleanup_fixed (t : WlrBackendState) (hd : t.display = 0)
    (hr : t.registry = 0) (hm : t.manager = 0) (hs : t.seat = 0) (hw : t.windows = [])
    (hc : t.window_count = 0) (hi : t.initialized = false) (hn : t.needs_refresh = false)
    (ha : t.activation_counter = 0) : wlr_backend_cleanup t = t := by
  cases t
  simp only at hd hr hm hs hw hc hi hn ha
  subst hd hr hm hs hw hc hi hn ha
  simp [wlr_backend_cleanup, cleanup_windows, destroy_handles]

/-- C14 (repeated lifecycle calls): a second consecutive `wlr_backend_cleanup`
returns the state the first one left, trace of destroy and disconnect actions
included, so it performs no such action; and `wlr_backend_init` called while
`initialized` is set returns 0 and the state it was given. -/
theorem lifecycle_idempotent (env : InitEnv) (s : WlrBackendState) :
    wlr_backend_cleanup (wlr_backend_cleanup s) = wlr_backend_cleanup s ∧
    (wlr_backend_cleanup (wlr_backend_cleanup s)).trace = (wlr_backend_cleanup s).trace ∧
    (s.initialized = true → wlr_backend_init env s = (0, s)) := by
  obtain ⟨hd, hr, hm, hs, hw, hc, hi, hn, ha⟩ := wlr_backend_cleanup_state s
  have hfix := wlr_backend_cleanup_fixed (wlr_backend_cleanup s) hd hr hm hs hw hc hi hn ha
  refine ⟨hfix, by rw [hfix], ?_⟩
  intro h
  simp [wlr_backend_init, h]

theorem lifecycle_idempotent_witness :
    wlr_backend_cleanup (wlr_backend_cleanup sample_three_windows) =
      wlr_backend_cleanup sample_three_windows ∧
    (wlr_backend_cleanup sample_three_windows).trace =
      [Action.manager_destroy 9, Action.seat_destroy 5, Action.handle_destroy 12288,
       Action.handle_destroy 8192, Action.handle_destroy 4096, Action.registry_destroy 8,
       Action.display_disconnect 7] ∧
    sample_three_windows.initialized = true ∧
    wlr_backend_init sample_env_no_manager sample_three_windows = (0, sample_three_windows) :=
  ⟨(lifecycle_idempotent sample_env_no_manager sample_three_windows).1, by decide, by decide,
    (lifecycle_idempotent sample_env_no_manager sample_three_windows).2.2 (by decide)⟩

/-! ## The reordering operation -/

/-- C17, as stated, fails: `sample_unlinked` is not a member of the list of
`sample_three_windows`, yet `move_window_to_front` links it at the front (the list
grows from three to four nodes while `window_count` stays 3), raises the
activation counter from 0 to 1 and gives the node serial 1. -/
theorem move_to_front_noop_counterexample :
    sample_unlinked ∉ sample_three_windows.windows ∧
    linked sample_unlinked.addr sample_three_windows.windows = false ∧
    (move_window_to_front (some sample_unlinked) sample_three_windows).windows =
      { sample_unlinked with activation_serial := 1 } :: sample_three_windows.windows ∧
    sample_three_windows.activation_counter = 0 ∧
    (move_window_to_front (some sample_unlinked) sample_three_windows).activation_counter = 1 ∧
    (move_window_to_front (some sample_unlinked) sample_three_windows).window_count = 3 ∧
    move_window_to_front (some sample_unlinked) sample_three_windows ≠ sample_three_windows := by
  decide

/-- C17 (no-op of the reordering), amended: `move_window_to_front` returns the state
it was given (history list, every serial, counter and all other fields) when
the window is `NULL`, when the history list is empty, and when the window is
the front element of the history list. -/
theorem move_to_front_noop (W : WindowNode) (s : WlrBackendState) :
    move_window_to_front none s = s ∧
    (s.windows = [] → move_window_to_front (some W) s = s) ∧
    (∀ (head : WindowNode) (rest : List WindowNode), s.windows = head :: rest →
      W.addr = head.addr → move_window_to_front (some W) s = s) := by
  refine ⟨rfl, ?_, ?_⟩
  · intro h
    unfold move_window_to_front
    rw [h]
  · intro head rest h ha
    unfold move_window_to_front
    rw [h]
    simp [ha]

theorem move_to_front_noop_witness :
    sample_three_windows.windows =
      new_window 12288 48 true :: [new_window 8192 32 true, new_window 4096 16 true] ∧
    (new_window 12288 48 true).addr = (new_window 12288 48 true).addr ∧
    move_window_to_front (some (new_window 12288 48 true)) sample_three_windows =
      sample_three_windows ∧
    sample_session.windows = [] ∧
    move_window_to_front (some sample_unlinked) sample_session = sample_session :=
  ⟨by decide, rfl,
    (move_to_front_noop (new_window 12288 48 true) sample_three_windows).2.2
      (new_window 12288 48 true) [new_window 8192 32 true, new_window 4096 16 true]
      (by decide) rfl,
    by decide,
    (move_to_front_noop sample_unlinked sample_session).2.1 (by decide)⟩

/-- C18 (reordering of a member): in a history list whose nodes have pairwise
distinct addresses, for a member `W` that is not the front element,
`move_window_to_front` leaves `W`, with the incremented counter as its serial,
followed by the old list with `W` erased (the other nodes unchanged, in their
order), the counter incremented by exactly one, and every other field of the
state, `window_count` included, as it was; the list keeps its length. -/
theorem move_to_front_member (W : WindowNode) (s : WlrBackendState)
    (hnodup : (s.windows.map (fun w => w.addr)).Nodup) (hW : W ∈ s.windows)
    (hfront : s.windows.head? ≠ some W) :
    move_window_to_front (some W) s =
      { s with
        windows := { W with activation_serial := s.activation_counter + 1 } :: s.windows.erase W
        activation_counter := s.activation_counter + 1 } ∧
    (move_window_to_front (some W) s).windows.length = s.windows.length ∧
    (move_window_to_front (some W) s).window_count = s.window_count := by
  have huniq : ∀ curr ∈ s.windows, curr.addr = W.addr → curr = W := fun curr hc he =>
    addr_unique hnodup hW hc he
  have hstate : move_window_to_front (some W) s =
      { s with
        windows := { W with activation_serial := s.activation_counter + 1 } :: s.windows.erase W
        activation_counter := s.activation_counter + 1 } := by
    unfold move_window_to_front
    match hl : s.windows with
    | [] => rw [hl] at hW; cases hW
    | head :: tail =>
      have hne : ¬ W.addr = head.addr := by
        intro ha
        have := huniq head (by rw [hl]; exact List.mem_cons_self _ _) ha.symm
        rw [hl, this] at hfront
        exact hfront rfl
      simp only [hne, if_false]
      rw [← hl, unlink_eq_erase hW huniq]
  refine ⟨hstate, ?_, ?_⟩
  · rw [hstate]
    simp only [List.length_cons]
    rw [List.length_erase_of_mem hW]
    have : 0 < s.windows.length := List.length_pos_of_mem hW
    omega
  · rw [hstate]

theorem move_to_front_member_witness :
    (sample_three_windows.windows.map (fun w => w.addr)).Nodup ∧
    new_window 4096 16 true ∈ sample_three_windows.windows ∧
    sample_three_windows.windows.head? ≠ some (new_window 4096 16 true) ∧
    (move_window_to_front (some (new_window 4096 16 true)) sample_three_windows).windows =
      [{ new_window 4096 16 true with activation_serial := 1 }, new_window 12288 48 true,
       new_window 8192 32 true] ∧
    (move_window_to_front (some (new_window 4096 16 true)) sample_three_windows).windows.length =
      sample_three_windows.windows.length ∧
    (move_window_to_front (some (new_window 4096 16 true)) sample_three_windows).window_count =
      sample_three_windows.window_count :=
  ⟨by decide, by decide, by decide, by decide,
    (move_to_front_member (new_window 4096 16 true) sample_three_windows
      (by decide) (by decide) (by decide)).2.1,
    (move_to_front_member (new_window 4096 16 true) sample_three_windows
      (by decide) (by decide) (by decide)).2.2⟩

/-! ## The activation counter -/

theorem move_window_to_front_counter (window : Option WindowNode) (s : WlrBackendState) :
    s.activation_counter ≤ (move_window_to_front window s).activation_counter := by
  unfold move_window_to_front
  split
  · exact le_refl _
  · exact le_refl _
  · split
    · exact le_refl _
    · dsimp only; omega

theorem with_node_counter (window : Nat) (s : WlrBackendState)
    (handler : WindowNode → WlrBackendState → WlrBackendState)
    (h : ∀ w, s.activation_counter ≤ (handler w s).activation_counter) :
    s.activation_counter ≤ (with_node window s handler).activation_counter := by
  unfold with_node
  split
  · exact h _
  · exact le_refl _

theorem toplevel_handle_closed_counter (w : WindowNode) (s : WlrBackendState) :
    (toplevel_handle_closed w s).activation_counter = s.activation_counter := by
  unfold toplevel_handle_closed
  dsimp only
  split <;> split <;> rfl

theorem dispatch_counter (e : Event) (s : WlrBackendState) :
    s.activation_counter ≤ (dispatch e s).activation_counter := by
  cases e with
  | global name interface version bound =>
    simp only [dispatch, registry_handle_global]
    split
    · exact le_refl _
    · split <;> exact le_refl _
  | global_remove name => exact le_refl _
  | toplevel toplevel node identifier_ok =>
    simp only [dispatch, manager_handle_toplevel]
    split <;> exact le_refl _
  | finished => exact le_refl _
  | title window title => exact with_node_counter _ _ _ (fun _ => le_refl _)
  | app_id window app_id => exact with_node_counter _ _ _ (fun _ => le_refl _)
  | output_enter window => exact with_node_counter _ _ _ (fun _ => le_refl _)
  | output_leave window => exact with_node_counter _ _ _ (fun _ => le_refl _)
  | state window wl_state =>
    refine with_node_counter _ _ _ (fun w => ?_)
    unfold toplevel_handle_state
    dsimp only
    split
    · exact move_window_to_front_counter _ _
    · exact le_refl _
  | done window => exact with_node_counter _ _ _ (fun _ => le_refl _)
  | closed window =>
    exact with_node_counter _ _ _ (fun w => le_of_eq (toplevel_handle_closed_counter w s).symm)
  | parent window => exact with_node_counter _ _ _ (fun _ => le_refl _)

theorem dispatch_all_counter (events : List Event) :
    ∀ s : WlrBackendState, s.activation_counter ≤ (dispatch_all events s).activation_counter := by
  induction events with
  | nil => intro s; exact le_refl _
  | cons e rest ih =>
    intro s
    rw [dispatch_all_cons]
    exact le_trans (dispatch_counter e s) (ih _)

theorem init_serials_counter (l : List WindowNode) :
    ∀ c : Int, c ≤ (init_serials l c).2 := by
  induction l with
  | nil => intro c; exact le_refl _
  | cons curr next ih =>
    intro c
    unfold init_serials
    split
    · have := ih (c + 1); dsimp only; omega
    · exact ih c

theorem wlr_backend_init_counter (env : InitEnv) (s : WlrBackendState) :
    s.activation_counter ≤ (wlr_backend_init env s).2.activation_counter := by
  have h1 : s.activation_counter ≤
      (dispatch_all env.round1 (init_connected env s)).activation_counter :=
    dispatch_all_counter env.round1 (init_connected env s)
  have h2 := dispatch_all_counter env.round2 (dispatch_all env.round1 (init_connected env s))
  have h3 := init_serials_counter
    (dispatch_all env.round2 (dispatch_all env.round1 (init_connected env s))).windows
    (dispatch_all env.round2 (dispatch_all env.round1 (init_connected env s))).activation_counter
  unfold init_connected at h1 h2 h3
  unfold wlr_backend_init
  dsimp only
  split
  · exact le_refl _
  · split
    · exact le_refl _
    · split
      · exact le_refl _
      · split
        · exact h1
        · exact le_trans h1 (le_trans h2 h3)

theorem wlr_get_windows_counter (queued arrived : List Event) (s : WlrBackendState)
    (state : AppState) :
    s.activation_counter ≤ (wlr_get_windows queued arrived s state).2.1.activation_counter := by
  cases hi : s.initialized
  · simp [wlr_get_windows, hi]
  · rw [wlr_get_windows_eq _ _ _ _ hi]
    have h1 : s.activation_counter ≤ (pump_flushed queued s).activation_counter :=
      dispatch_all_counter queued s
    exact le_trans h1 (dispatch_all_counter arrived _)

theorem wlr_activate_window_counter (identifier : Option String) (s : WlrBackendState) :
    s.activation_counter ≤ (wlr_activate_window identifier s).activation_counter := by
  unfold wlr_activate_window
  split
  · exact le_refl _
  · split
    · exact le_refl _
    · split
      · exact le_refl _
      · dsimp only
        split <;> exact move_window_to_front_counter _ _

theorem move_window_to_front_counter_step (window : Option WindowNode) (s : WlrBackendState) :
    (move_window_to_front window s).activation_counter ≤ s.activation_counter + 1 := by
  unfold move_window_to_front
  split
  · omega
  · omega
  · split
    · omega
    · dsimp only; omega

theorem with_node_counter_step (window : Nat) (s : WlrBackendState)
    (handler : WindowNode → WlrBackendState → WlrBackendState)
    (h : ∀ w, (handler w s).activation_counter ≤ s.activation_counter + 1) :
    (with_node window s handler).activation_counter ≤ s.activation_counter + 1 := by
  unfold with_node
  split
  · exact h _
  · omega

/-- One event runs `activation_counter++` at most once. -/
theorem dispatch_counter_step (e : Event) (s : WlrBackendState) :
    (dispatch e s).activation_counter ≤ s.activation_counter + 1 := by
  have hself : s.activation_counter ≤ s.activation_counter + 1 := by omega
  cases e with
  | global name interface version bound =>
    simp only [dispatch, registry_handle_global]
    split
    · exact hself
    · split <;> exact hself
  | global_remove name => exact hself
  | toplevel toplevel node identifier_ok =>
    simp only [dispatch, manager_handle_toplevel]
    split <;> exact hself
  | finished => exact hself
  | title window title => exact with_node_counter_step _ _ _ (fun _ => hself)
  | app_id window app_id => exact with_node_counter_step _ _ _ (fun _ => hself)
  | output_enter window => exact with_node_counter_step _ _ _ (fun _ => hself)
  | output_leave window => exact with_node_counter_step _ _ _ (fun _ => hself)
  | state window wl_state =>
    refine with_node_counter_step _ _ _ (fun w => ?_)
    unfold toplevel_handle_state
    dsimp only
    split
    · exact move_window_to_front_counter_step _ _
    · exact hself
  | done window => exact with_node_counter_step _ _ _ (fun _ => hself)
  | closed window =>
    refine with_node_counter_step _ _ _ (fun w => ?_)
    rw [toplevel_handle_closed_counter w s]
    exact hself
  | parent window => exact with_node_counter_step _ _ _ (fun _ => hself)

/-- One `wlr_activate_window` call runs `activation_counter++` at most once. -/
theorem wlr_activate_window_counter_step (identifier : Option String) (s : WlrBackendState) :
    (wlr_activate_window identifier s).activation_counter ≤ s.activation_counter + 1 := by
  have hself : s.activation_counter ≤ s.activation_counter + 1 := by omega
  unfold wlr_activate_window
  split
  · exact hself
  · split
    · exact hself
    · split
      · exact hself
      · dsimp only
        split <;> exact move_window_to_front_counter_step _ _

/-- Along the events of one call the counter only grows: the counter after a
prefix of the events is at most the counter after all of them, so when the
call leaves a counter of at most `INT_MAX`, no `activation_counter++` of the
call was applied to `INT_MAX`. -/
theorem dispatch_all_counter_prefix (pre post : List Event) (s : WlrBackendState) :
    (dispatch_all pre s).activation_counter ≤
      (dispatch_all (pre ++ post) s).activation_counter := by
  have h : dispatch_all (pre ++ post) s = dispatch_all post (dispatch_all pre s) := by
    simp [dispatch_all, List.foldl_append]
  rw [h]
  exact dispatch_all_counter post _

/-- C20 (activation counter): in a state whose activation counter is below
`INT_MAX`, so that `activation_counter++` does not overflow the C `int`: no
event handler and no `wlr_activate_window` lowers the counter, and the counter
they leave is at most `INT_MAX`; `wlr_backend_init` and `wlr_get_windows`,
which can increment several times, do not lower it when the counter they leave
is at most `INT_MAX` (no increment of the call overflows); so none of the four
brings a positive counter back to zero, while `cleanup_windows` and
`wlr_backend_cleanup` set it to zero and leave an empty window list with
`window_count = 0`. -/
theorem counter_monotone (s : WlrBackendState) (hbound : s.activation_counter < INT_MAX) :
    (∀ e : Event, s.activation_counter ≤ (dispatch e s).activation_counter ∧
      (dispatch e s).activation_counter ≤ INT_MAX) ∧
    (∀ env : InitEnv, (wlr_backend_init env s).2.activation_counter ≤ INT_MAX →
      s.activation_counter ≤ (wlr_backend_init env s).2.activation_counter) ∧
    (∀ (queued arrived : List Event) (state : AppState),
      (wlr_get_windows queued arrived s state).2.1.activation_counter ≤ INT_MAX →
      s.activation_counter ≤
        (wlr_get_windows queued arrived s state).2.1.activation_counter) ∧
    (∀ identifier : Option String,
      s.activation_counter ≤ (wlr_activate_window identifier s).activation_counter ∧
      (wlr_activate_window identifier s).activation_counter ≤ INT_MAX) ∧
    ((cleanup_windows s).activation_counter = 0 ∧ (cleanup_windows s).windows = [] ∧
      (cleanup_windows s).window_count = 0) ∧
    ((wlr_backend_cleanup s).activation_counter = 0 ∧ (wlr_backend_cleanup s).windows = [] ∧
      (wlr_backend_cleanup s).window_count = 0) := by
  obtain ⟨_, _, _, _, hw, hc, _, _, ha⟩ := wlr_backend_cleanup_state s
  refine ⟨fun e => ⟨dispatch_counter e s, ?_⟩, fun env _ => wlr_backend_init_counter env s,
    fun queued arrived state _ => wlr_get_windows_counter queued arrived s state,
    fun identifier => ⟨wlr_activate_window_counter identifier s, ?_⟩,
    ⟨rfl, rfl, rfl⟩, ⟨ha, hw, hc⟩⟩
  · have := dispatch_counter_step e s
    omega
  · have := wlr_activate_window_counter_step identifier s
    omega

theorem counter_monotone_witness :
    sample_three_windows.activation_counter < INT_MAX ∧
    (sample_three_windows.activation_counter ≤
        (dispatch (Event.state 16 [STATE_ACTIVATED]) sample_three_windows).activation_counter ∧
      (dispatch (Event.state 16 [STATE_ACTIVATED]) sample_three_windows).activation_counter
        ≤ INT_MAX) ∧
    (sample_three_windows.activation_counter,
      (dispatch (Event.state 16 [STATE_ACTIVATED]) sample_three_windows).activation_counter,
      (wlr_get_windows [] sample_two_activations sample_session
        { windows := [] }).2.1.activation_counter) = (0, 1, 2) ∧
    sample_session.activation_counter < INT_MAX ∧
    (wlr_get_windows [] sample_two_activations sample_session
      { windows := [] }).2.1.activation_counter ≤ INT_MAX ∧
    sample_session.activation_counter ≤
      (wlr_get_windows [] sample_two_activations sample_session
        { windows := [] }).2.1.activation_counter :=
  ⟨by decide,
    (counter_monotone sample_three_windows (by decide)).1 (Event.state 16 [STATE_ACTIVATED]),
    by decide, by decide, by decide,
    (counter_monotone sample_session (by decide)).2.2.1 [] sample_two_activations
      { windows := [] } (by decide)⟩

/-! ## Identifier uniqueness -/

theorem summaries_address (l : List WindowNode) :
    ∀ index : Nat, (summaries l index).map (fun info => info.address) =
      (l.filter (fun w => !w.is_minimized)).map (fun w => w.identifier.getD "") := by
  induction l with
  | nil => intro index; rfl
  | cons curr next ih =>
    intro index
    unfold summaries
    cases h : curr.is_minimized
    · simp [List.filter, h, ih, window_info]
    · simp [List.filter, h, ih]

theorem identifiers_nodup {l : List WindowNode} {c : Int} (h : ListInv l c)
    (halloc : ∀ w ∈ l, w.identifier ≠ none) :
    (l.map (fun w => w.identifier)).Nodup ∧
    (l.map (fun w => w.identifier.getD "")).Nodup := by
  have hid : ∀ w ∈ l, w.identifier = some (snprintf_identifier w.handle) := by
    intro w hw
    rcases (h.2.2 w hw).2.2.1 with hn | hs
    · exact absurd hn (halloc w hw)
    · exact hs
  have hinj : ∀ a ∈ l, ∀ b ∈ l, a.identifier.getD "" = b.identifier.getD "" → a = b := by
    intro a ha b hb hab
    rw [hid a ha, hid b hb] at hab
    simp only [Option.getD_some] at hab
    have hh := snprintf_identifier_inj (h.2.2 a ha).1 (h.2.2 a ha).2.1 (h.2.2 b hb).1
      (h.2.2 b hb).2.1 hab
    exact List.inj_on_of_nodup_map h.2.1 ha hb hh
  have hnd : l.Nodup := List.Nodup.of_map _ h.1
  refine ⟨?_, List.Nodup.map_on hinj hnd⟩
  refine List.Nodup.map_on ?_ hnd
  intro a ha b hb hab
  exact hinj a ha b hb (by rw [hab])

/-- C15 (identifier uniqueness): in every reachable state (each Created event
carried a handle no live window held) in which every window of the registry
has its identifier allocated, the identifiers of the windows are pairwise
distinct, and so are the `address` values of the result of every successful
`wlr_get_windows` that takes its snapshot in that state. -/
theorem identifier_uniqueness (s : WlrBackendState) (hreach : Reach s)
    (halloc : ∀ w ∈ s.windows, w.identifier ≠ none) :
    (s.windows.map (fun w => w.identifier)).Nodup ∧
    ∀ (queued arrived : List Event) (s0 : WlrBackendState) (state : AppState),
      s0.initialized = true → (wlr_get_windows queued arrived s0 state).2.1 = s →
      ((wlr_get_windows queued arrived s0 state).2.2.windows.map
        (fun info => info.address)).Nodup := by
  have hinv := reach_inv hreach
  obtain ⟨h1, h2⟩ := identifiers_nodup hinv.2.2 halloc
  refine ⟨h1, ?_⟩
  intro queued arrived s0 state hinit hs
  have hperm := wlr_get_windows_perm queued arrived s0 state hinit (by rw [hs]; exact hinv.1)
  rw [hs] at hperm
  rw [List.Perm.nodup_iff (hperm.map _), summaries_address]
  exact h2.sublist (List.Sublist.map _ (List.filter_sublist _))

theorem identifier_uniqueness_witness :
    Reach (wlr_get_windows [] sample_one_minimized sample_session { windows := [] }).2.1 ∧
    (∀ w ∈ (wlr_get_windows [] sample_one_minimized sample_session { windows := [] }).2.1.windows,
      w.identifier ≠ none) ∧
    ((wlr_get_windows [] sample_one_minimized sample_session { windows := [] }).2.1.windows.map
      (fun w => w.identifier)).Nodup ∧
    sample_session.initialized = true ∧
    ((wlr_get_windows [] sample_one_minimized sample_session { windows := [] }).2.2.windows.map
      (fun info => info.address)).Nodup :=
  ⟨Reach.get_windows [] sample_one_minimized sample_session { windows := [] }
      sample_session_reach (by decide) (by decide),
    by decide,
    (identifier_uniqueness _
      (Reach.get_windows [] sample_one_minimized sample_session { windows := [] }
        sample_session_reach (by decide) (by decide)) (by decide)).1,
    by decide,
    (identifier_uniqueness _
      (Reach.get_windows [] sample_one_minimized sample_session { windows := [] }
        sample_session_reach (by decide) (by decide)) (by decide)).2
      [] sample_one_minimized sample_session { windows := [] } (by decide) rfl⟩

/-! ## History order against serials -/

theorem serialsOrdered_sublist {l l2 : List WindowNode} (hs : l2.Sublist l)
    (h : SerialsOrdered l) : SerialsOrdered l2 :=
  List.Pairwise.sublist (hs.map _) h

theorem serialsOrdered_store {l : List WindowNode} {c : Int} (hinv : ListInv l c)
    {w v : WindowNode} (hw : w ∈ l) (hs : SameNode w v) (h : SerialsOrdered l) :
    SerialsOrdered (store v l) := by
  unfold SerialsOrdered
  rw [store_map (fun w => w.activation_serial) v l (fun curr hc he => by
    rw [addr_unique hinv.1 hw hc (he.trans hs.1)]; exact hs.2.2.2)]
  exact h

theorem move_window_to_front_ordered {s : WlrBackendState} {w : WindowNode} (hinv : Inv s)
    (h : SerialsOrdered s.windows) :
    SerialsOrdered (move_window_to_front (some w) s).windows := by
  unfold move_window_to_front
  split
  · exact h
  · exact h
  · rename_i w1 head tail heq hl
    cases heq
    split
    · exact h
    · unfold SerialsOrdered
      simp only [List.map_cons]
      refine List.Pairwise.cons ?_ (serialsOrdered_sublist (unlink_sublist _ _) h)
      intro b hb _ _
      obtain ⟨x, hx, rfl⟩ := List.mem_map.mp hb
      have := (hinv.2.2.2.2 x ((unlink_sublist _ _).subset hx)).2.2.2.2
      omega

theorem toplevel_handle_state_ordered {s : WlrBackendState} {w : WindowNode}
    (wl_state : List Nat) (hinv : Inv s) (hw : w ∈ s.windows)
    (h : SerialsOrdered s.windows) :
    SerialsOrdered (toplevel_handle_state w wl_state s).windows := by
  have hsame := state_update_same w wl_state
  have hinv1 : Inv { s with windows := store (wl_state.foldl state_step
      { w with state := 0, is_active := false, is_minimized := false }) s.windows } :=
    ⟨by simp only [store_length]; exact hinv.1, hinv.2.1, store_listInv hinv.2.2 hw hsame⟩
  have hord := serialsOrdered_store hinv.2.2 hw hsame h
  unfold toplevel_handle_state
  dsimp only
  split
  · exact move_window_to_front_ordered hinv1 hord
  · exact hord

theorem with_node_ordered {s : WlrBackendState} (window : Nat)
    (handler : WindowNode → WlrBackendState → WlrBackendState)
    (h : SerialsOrdered s.windows)
    (hh : ∀ w ∈ s.windows, SerialsOrdered (handler w s).windows) :
    SerialsOrdered (with_node window s handler).windows := by
  unfold with_node
  split
  · rename_i w hw; exact hh w (node_at_some hw).1
  · exact h

theorem dispatch_ordered {s : WlrBackendState} (e : Event) (hinv : Inv s)
    (h : SerialsOrdered s.windows) : SerialsOrdered (dispatch e s).windows := by
  cases e with
  | global name interface version bound =>
    simp only [dispatch, registry_handle_global]
    split
    · exact h
    · split <;> exact h
  | global_remove name => exact h
  | toplevel toplevel node identifier_ok =>
    simp only [dispatch, manager_handle_toplevel]
    split
    · exact h
    · unfold SerialsOrdered
      simp only [List.map_cons]
      refine List.Pairwise.cons ?_ h
      intro b _ h0 _
      simp [new_window] at h0
  | finished => exact h
  | title window title =>
    exact with_node_ordered _ _ h (fun w hw =>
      serialsOrdered_store hinv.2.2 hw ⟨rfl, rfl, rfl, rfl⟩ h)
  | app_id window app_id =>
    exact with_node_ordered _ _ h (fun w hw =>
      serialsOrdered_store hinv.2.2 hw ⟨rfl, rfl, rfl, rfl⟩ h)
  | output_enter window => exact with_node_ordered _ _ h (fun _ _ => h)
  | output_leave window => exact with_node_ordered _ _ h (fun _ _ => h)
  | state window wl_state =>
    exact with_node_ordered _ _ h (fun w hw => toplevel_handle_state_ordered wl_state hinv hw h)
  | done window => exact with_node_ordered _ _ h (fun _ _ => h)
  | closed window =>
    refine with_node_ordered _ _ h (fun w _ => ?_)
    rw [toplevel_handle_closed_windows]
    exact serialsOrdered_sublist (unlink_sublist _ _) h
  | parent window => exact with_node_ordered _ _ h (fun _ _ => h)

theorem dispatch_all_ordered (events : List Event) :
    ∀ s : WlrBackendState, Inv s → deliverable_all events s = true →
      SerialsOrdered s.windows → SerialsOrdered (dispatch_all events s).windows := by
  induction events with
  | nil => intro s _ _ h; exact h
  | cons e rest ih =>
    intro s hinv hd h
    simp only [deliverable_all, Bool.and_eq_true] at hd
    rw [dispatch_all_cons]
    exact ih _ (dispatch_inv e hinv hd.1) hd.2 (dispatch_ordered e hinv h)

theorem init_serials_inactive (l : List WindowNode) :
    ∀ c : Int, l.all (fun x => !x.is_active) = true → init_serials l c = (l, c) := by
  induction l with
  | nil => intro c _; rfl
  | cons curr next ih =>
    intro c h
    simp only [List.all_cons, Bool.and_eq_true, Bool.not_eq_true'] at h
    unfold init_serials
    simp only [h.1, Bool.false_eq_true, if_false]
    rw [ih c h.2]

theorem init_serials_ordered (l : List WindowNode) :
    ∀ c : Int, (∀ w ∈ l, w.activation_serial ≤ c) → SerialsOrdered l →
      derivation_ordered l = true → SerialsOrdered (init_serials l c).1 := by
  induction l with
  | nil => intro c _ _ _; exact List.Pairwise.nil
  | cons curr next ih =>
    intro c hb h hsafe
    have htail : SerialsOrdered next := serialsOrdered_sublist (List.sublist_cons_self _ _) h
    unfold derivation_ordered at hsafe
    simp only [Bool.or_eq_true, Bool.and_eq_true, Bool.not_eq_true', decide_eq_true_eq] at hsafe
    rcases hsafe with hnone | ⟨⟨hna, hs0⟩, hrest⟩
    · unfold init_serials
      split
      · rw [init_serials_inactive next (c + 1) hnone]
        unfold SerialsOrdered
        simp only [List.map_cons]
        refine List.Pairwise.cons ?_ htail
        intro b hbm _ _
        obtain ⟨x, hx, rfl⟩ := List.mem_map.mp hbm
        have := hb x (List.mem_cons_of_mem _ hx)
        omega
      · rw [init_serials_inactive next c hnone]
        exact h
    · unfold init_serials
      simp only [hna, Bool.false_eq_true, if_false]
      unfold SerialsOrdered
      simp only [List.map_cons]
      refine List.Pairwise.cons ?_
        (ih c (fun w hw => hb w (List.mem_cons_of_mem _ hw)) htail hrest)
      intro b _ h0 _
      omega

theorem wlr_backend_init_ordered (env : InitEnv) {s : WlrBackendState} (hinv : Inv s)
    (h : SerialsOrdered s.windows)
    (h1 : deliverable_all env.round1 (init_connected env s) = true)
    (h2 : deliverable_all env.round2 (dispatch_all env.round1 (init_connected env s)) = true)
    (hsafe : init_derives env s = true →
      derivation_ordered (dispatch_all env.round2
        (dispatch_all env.round1 (init_connected env s))).windows = true) :
    SerialsOrdered (wlr_backend_init env s).2.windows := by
  have hconn : Inv (init_connected env s) := hinv
  have hi1 := dispatch_all_inv _ _ hconn h1
  have hi2 := dispatch_all_inv _ _ hi1 h2
  have ho1 : SerialsOrdered (dispatch_all env.round1 (init_connected env s)).windows :=
    dispatch_all_ordered _ _ hconn h1 h
  have ho2 := dispatch_all_ordered _ _ hi1 h2 ho1
  unfold init_derives at hsafe
  unfold init_connected at hi2 ho1 ho2 hsafe
  unfold wlr_backend_init
  dsimp only
  split
  · exact h
  · rename_i hni
    split
    · exact h
    · rename_i hd
      split
      · exact h
      · rename_i hr
        split
        · exact ho1
        · rename_i hm
          refine init_serials_ordered _ _ (fun w hw => (hi2.2.2.2.2 w hw).2.2.2.2) ho2 ?_
          apply hsafe
          simp only [Bool.and_eq_true, Bool.not_eq_true', decide_eq_true_eq]
          exact ⟨⟨⟨by simpa using hni, hd⟩, hr⟩, hm⟩

theorem wlr_get_windows_ordered (queued arrived : List Event) {s : WlrBackendState}
    (state : AppState) (hinv : Inv s) (h : SerialsOrdered s.windows)
    (h1 : deliverable_all queued s = true)
    (h2 : deliverable_all arrived (pump_flushed queued s) = true) :
    SerialsOrdered (wlr_get_windows queued arrived s state).2.1.windows := by
  cases hi : s.initialized
  · simp [wlr_get_windows, hi]; exact h
  · rw [wlr_get_windows_eq _ _ _ _ hi]
    have hq : Inv (pump_flushed queued s) := dispatch_all_inv _ _ hinv h1
    have ho : SerialsOrdered (pump_flushed queued s).windows :=
      dispatch_all_ordered queued s hinv h1 h
    exact dispatch_all_ordered arrived _ hq h2 ho

theorem wlr_activate_window_ordered (identifier : Option String) {s : WlrBackendState}
    (hinv : Inv s) (h : SerialsOrdered s.windows) :
    SerialsOrdered (wlr_activate_window identifier s).windows := by
  unfold wlr_activate_window
  split
  · exact h
  · split
    · exact h
    · split
      · exact h
      · dsimp only
        split <;> exact move_window_to_front_ordered hinv h

theorem reachOrdered_reach {s : WlrBackendState} (h : ReachOrdered s) : Reach s := by
  induction h with
  | zero => exact Reach.zero
  | event e s _ hd ih => exact Reach.event e s ih hd
  | init env s _ h1 h2 _ ih => exact Reach.init env s ih h1 h2
  | get_windows queued arrived s state _ h1 h2 ih =>
    exact Reach.get_windows queued arrived s state ih h1 h2
  | activate identifier s _ ih => exact Reach.activate identifier s ih
  | cleanup s _ ih => exact Reach.cleanup s ih

/-- C19, as stated, fails: when two windows are announced and both reported active
during startup (`sample_env_two_active`), the startup derivation numbers them
front to back, and the reachable state after `wlr_backend_init` has the serials
3, 4 in history order, which increase. -/
theorem history_order_counterexample :
    Reach (wlr_backend_init sample_env_two_active backend_state).2 ∧
    (wlr_backend_init sample_env_two_active backend_state).1 = 0 ∧
    (wlr_backend_init sample_env_two_active backend_state).2.windows.map
      (fun w => (w.addr, w.activation_serial)) = [(32, 3), (16, 4)] ∧
    ¬ SerialsOrdered (wlr_backend_init sample_env_two_active backend_state).2.windows := by
  refine ⟨Reach.init sample_env_two_active backend_state Reach.zero (by decide) (by decide),
    by decide, by decide, ?_⟩
  intro h
  have hw : (wlr_backend_init sample_env_two_active backend_state).2.windows.map
      (fun w => w.activation_serial) = [3, 4] := by decide
  unfold SerialsOrdered at h
  rw [hw] at h
  have := (List.pairwise_cons.mp h).1 4 (List.mem_singleton.mpr rfl) (by decide) (by decide)
  exact absurd this (by decide)

/-- C19 (history/serial consistency), amended: in every state reached from the
zero state by events, `wlr_get_windows`, `wlr_activate_window`,
`wlr_backend_cleanup` and `wlr_backend_init` calls whose startup derivation met
at most one active window, with only non-active windows of serial 0 in front of
it, the positive serials do not increase along the history list scanned from
the front. -/
theorem history_order (s : WlrBackendState) (h : ReachOrdered s) :
    SerialsOrdered s.windows := by
  induction h with
  | zero => exact List.Pairwise.nil
  | event e s hr _ ih => exact dispatch_ordered e (reach_inv (reachOrdered_reach hr)) ih
  | init env s hr h1 h2 hsafe ih =>
    exact wlr_backend_init_ordered env (reach_inv (reachOrdered_reach hr)) ih h1 h2 hsafe
  | get_windows queued arrived s state hr h1 h2 ih =>
    exact wlr_get_windows_ordered queued arrived state (reach_inv (reachOrdered_reach hr)) ih h1 h2
  | activate identifier s hr ih =>
    exact wlr_activate_window_ordered identifier (reach_inv (reachOrdered_reach hr)) ih
  | cleanup s _ _ =>
    rw [(wlr_backend_cleanup_fields s).1]
    exact List.Pairwise.nil

theorem sample_one_active_reach :
    ReachOrdered (wlr_backend_init sample_env_one_active backend_state).2 :=
  ReachOrdered.init sample_env_one_active backend_state ReachOrdered.zero (by decide)
    (by decide) (fun _ => by decide)

theorem history_order_witness :
    ReachOrdered (wlr_activate_window (some "wlr-0x1000")
      (wlr_backend_init sample_env_one_active backend_state).2) ∧
    (wlr_activate_window (some "wlr-0x1000")
      (wlr_backend_init sample_env_one_active backend_state).2).windows.map
        (fun w => (w.addr, w.activation_serial)) = [(16, 2), (48, 0), (32, 1)] ∧
    SerialsOrdered (wlr_activate_window (some "wlr-0x1000")
      (wlr_backend_init sample_env_one_active backend_state).2).windows :=
  ⟨ReachOrdered.activate _ _ sample_one_active_reach, by decide,
    history_order _ (ReachOrdered.activate _ _ sample_one_active_reach)⟩

/-! ## Activation of the front window -/

/-- C16 fails on the code: the window announced last is the head of the list, and
when a State event changes its `is_active` from false to true,
`move_window_to_front` returns at once: the activation counter stays 0 and the
serial of the window stays 0.  After the next State event has made it inactive
again, the reachable state holds a window with serial 0 that has been reported
active. -/
theorem head_activation_keeps_serial :
    Reach (dispatch (Event.state 16 []) (dispatch (Event.state 16 [STATE_ACTIVATED])
      sample_announced)) ∧
    (node_at 16 sample_announced.windows).map (fun w => w.is_active) = some false ∧
    sample_announced.activation_counter = 0 ∧
    (node_at 16 (dispatch (Event.state 16 [STATE_ACTIVATED]) sample_announced).windows).map
      (fun w => (w.is_active, w.activation_serial)) = some (true, 0) ∧
    (dispatch (Event.state 16 [STATE_ACTIVATED]) sample_announced).activation_counter = 0 ∧
    (node_at 16 (dispatch (Event.state 16 []) (dispatch (Event.state 16 [STATE_ACTIVATED])
      sample_announced)).windows).map
      (fun w => (w.is_active, w.activation_serial)) = some (false, 0) :=
  ⟨Reach.event _ _ (Reach.event _ _ (Reach.event _ _ sample_session_reach (by decide))
      (by decide)) (by decide),
    by decide, by decide, by decide, by decide, by decide⟩

theorem foldl_state_step_active (l : List Nat) :
    ∀ v : WindowNode, (STATE_ACTIVATED ∈ l ∨ v.is_active = true) →
      (l.foldl state_step v).is_active = true := by
  induction l with
  | nil =>
    intro v h
    rcases h with h | h
    · cases h
    · exact h
  | cons st tl ih =>
    intro v h
    simp only [List.foldl_cons]
    apply ih
    by_cases hst : st = STATE_ACTIVATED
    · right
      unfold state_step
      dsimp only
      rw [if_pos hst]
      split <;> rfl
    · rcases h with h | h
      · rcases List.mem_cons.mp h with h | h
        · exact absurd h.symm hst
        · exact Or.inl h
      · right
        unfold state_step
        dsimp only
        rw [if_neg hst]
        split <;> exact h

theorem toplevel_handle_state_activated (s : WlrBackendState) (w : WindowNode)
    (wl_state : List Nat) (hwas : w.is_active = false) (hnow : STATE_ACTIVATED ∈ wl_state) :
    ∃ v : WindowNode, v.addr = w.addr ∧ v.activation_serial = w.activation_serial ∧
      toplevel_handle_state w wl_state s =
        move_window_to_front (some v) { s with windows := store v s.windows } := by
  have hsame := state_update_same w wl_state
  have hactive := foldl_state_step_active wl_state
    { w with state := 0, is_active := false, is_minimized := false } (Or.inl hnow)
  refine ⟨_, hsame.1, hsame.2.2.2, ?_⟩
  unfold toplevel_handle_state
  dsimp only
  rw [hactive, hwas]
  rfl

/-- What the code does on the transition: a State event that changes `is_active`
of a window from false to true increments the counter by one and assigns it as
the serial when the window is not the head of the list, and changes neither
when it is the head. -/
theorem state_activation (s : WlrBackendState) (w : WindowNode) (wl_state : List Nat)
    (head : WindowNode) (rest : List WindowNode) (hl : s.windows = head :: rest)
    (hwas : w.is_active = false) (hnow : STATE_ACTIVATED ∈ wl_state) :
    (w.addr ≠ head.addr →
      (toplevel_handle_state w wl_state s).activation_counter = s.activation_counter + 1 ∧
      (toplevel_handle_state w wl_state s).windows.head?.map
        (fun x => (x.addr, x.activation_serial)) = some (w.addr, s.activation_counter + 1)) ∧
    (w.addr = head.addr →
      (toplevel_handle_state w wl_state s).activation_counter = s.activation_counter ∧
      (toplevel_handle_state w wl_state s).windows.head?.map
        (fun x => (x.addr, x.activation_serial)) = some (w.addr, w.activation_serial)) := by
  obtain ⟨v, ha, hs, heq⟩ := toplevel_handle_state_activated s w wl_state hwas hnow
  rw [heq]
  constructor
  · intro hne
    have h1 : ¬ head.addr = w.addr := fun h => hne h.symm
    have h2 : ¬ w.addr = head.addr := hne
    unfold move_window_to_front
    simp only [hl, store, List.map_cons, ha, h1, if_false, h2, List.head?_cons,
      Option.map_some', and_self]
  · intro he
    have h1 : head.addr = w.addr := he.symm
    unfold move_window_to_front
    simp only [hl, store, List.map_cons, ha, h1, if_true, List.head?_cons, Option.map_some',
      hs, and_self]

/-! ## The State event -/

theorem foldl_flags_testBit (l : List Nat) :
    ∀ (acc b : Nat),
      (l.foldl (fun flags code => flags ||| (1 <<< code)) acc).testBit b =
        (acc.testBit b || decide (b ∈ l)) := by
  induction l with
  | nil => intro acc b; simp
  | cons c rest ih =>
    intro acc b
    simp only [List.foldl_cons]
    rw [ih, Nat.testBit_or, Nat.one_shiftLeft, Nat.testBit_two_pow]
    by_cases hb : b = c
    · subst hb; simp
    · have hcb : ¬ c = b := fun h => hb h.symm
      simp [hb, hcb]

theorem foldl_state_step_eq (l : List Nat) :
    ∀ v : WindowNode, l.foldl state_step v =
      { v with
        state := l.foldl (fun flags code => flags ||| (1 <<< code)) v.state
        is_active := v.is_active || decide (STATE_ACTIVATED ∈ l)
        is_minimized := v.is_minimized || decide (STATE_MINIMIZED ∈ l) } := by
  induction l with
  | nil => intro v; simp
  | cons c rest ih =>
    intro v
    simp only [List.foldl_cons]
    rw [ih]
    unfold state_step
    dsimp only
    by_cases ha : c = STATE_ACTIVATED <;> by_cases hm : c = STATE_MINIMIZED
    · subst ha; exact absurd hm (by decide)
    · subst ha; simp [STATE_ACTIVATED, STATE_MINIMIZED]
    · subst hm; simp [STATE_ACTIVATED, STATE_MINIMIZED]
    · have ha2 : ¬ STATE_ACTIVATED = c := fun h => ha h.symm
      have hm2 : ¬ STATE_MINIMIZED = c := fun h => hm h.symm
      simp [ha, hm, ha2, hm2]

theorem state_update_eq (w : WindowNode) (wl_state : List Nat) :
    wl_state.foldl state_step { w with state := 0, is_active := false, is_minimized := false }
      = reported_node w wl_state := by
  rw [foldl_state_step_eq]
  simp [reported_node, reported_flags]

theorem reported_flags_testBit (wl_state : List Nat) (b : Nat) :
    (reported_flags wl_state).testBit b = decide (b ∈ wl_state) := by
  unfold reported_flags
  rw [foldl_flags_testBit]
  simp

theorem toplevel_handle_state_eq (s : WlrBackendState) (w : WindowNode) (wl_state : List Nat) :
    toplevel_handle_state w wl_state s =
      if w.is_active = false ∧ STATE_ACTIVATED ∈ wl_state then
        move_window_to_front (some (reported_node w wl_state))
          { s with windows := store (reported_node w wl_state) s.windows }
      else { s with windows := store (reported_node w wl_state) s.windows } := by
  unfold toplevel_handle_state
  dsimp only
  rw [state_update_eq]
  by_cases ha : STATE_ACTIVATED ∈ wl_state <;> cases hw : w.is_active <;>
    simp [reported_node, ha, hw]

/-- C21 (State event): for every previous value of the window node and every
reported array of state codes below 32, the state fields of the node are
afterwards those of `reported_node`: `state` is the bitwise OR of `1 << code`
over the array (bit `b` is set exactly when `b` is in the array, and the value
fits 32 bits), `is_active` tells whether the array contains ACTIVATED and
`is_minimized` whether it contains MINIMIZED, whatever the flags were before;
`move_window_to_front` is called exactly when `is_active` was false and the
array contains ACTIVATED, and otherwise the order of the history list and the
activation counter are unchanged. -/
theorem state_event_wholesale (s : WlrBackendState) (w : WindowNode) (wl_state : List Nat)
    (hcodes : ∀ c ∈ wl_state, c < 32) :
    (∀ b : Nat, (reported_flags wl_state).testBit b = decide (b ∈ wl_state)) ∧
    reported_flags wl_state < 2 ^ 32 ∧
    toplevel_handle_state w wl_state s =
      (if w.is_active = false ∧ STATE_ACTIVATED ∈ wl_state then
        move_window_to_front (some (reported_node w wl_state))
          { s with windows := store (reported_node w wl_state) s.windows }
      else { s with windows := store (reported_node w wl_state) s.windows }) ∧
    (∀ x ∈ (toplevel_handle_state w wl_state s).windows, x.addr = w.addr →
      x.state = reported_flags wl_state ∧
      x.is_active = decide (STATE_ACTIVATED ∈ wl_state) ∧
      x.is_minimized = decide (STATE_MINIMIZED ∈ wl_state)) ∧
    (¬ (w.is_active = false ∧ STATE_ACTIVATED ∈ wl_state) →
      (toplevel_handle_state w wl_state s).windows.map (fun x => x.addr) =
        s.windows.map (fun x => x.addr) ∧
      (toplevel_handle_state w wl_state s).activation_counter = s.activation_counter) := by
  refine ⟨reported_flags_testBit wl_state, ?_, toplevel_handle_state_eq s w wl_state, ?_, ?_⟩
  · apply Nat.lt_pow_two_of_testBit
    intro i hi
    rw [reported_flags_testBit]
    simp only [decide_eq_false_iff_not]
    intro hmem
    have := hcodes i hmem
    omega
  · intro x hx hxa
    have hstore : ∀ y ∈ store (reported_node w wl_state) s.windows, y.addr = w.addr →
        y = reported_node w wl_state := by
      intro y hy hya
      rcases mem_store_ne hy with h | ⟨_, hne⟩
      · exact h
      · exact absurd hya hne
    rw [toplevel_handle_state_eq] at hx
    split at hx
    · rcases mem_move_window_to_front hx with hx | rfl
      · rw [hstore x hx hxa]; exact ⟨rfl, rfl, rfl⟩
      · exact ⟨rfl, rfl, rfl⟩
    · rw [hstore x hx hxa]; exact ⟨rfl, rfl, rfl⟩
  · intro hno
    rw [toplevel_handle_state_eq, if_neg hno]
    exact ⟨store_map (fun x => x.addr) _ _ (fun curr _ he => he.symm), rfl⟩

theorem state_event_wholesale_witness :
    (∀ c ∈ [STATE_ACTIVATED, 3], c < 32) ∧
    reported_flags [STATE_ACTIVATED, 3] = 12 ∧
    reported_flags [STATE_ACTIVATED, 3] < 2 ^ 32 ∧
    toplevel_handle_state (new_window 4096 16 true) [STATE_ACTIVATED, 3] sample_three_windows =
      (if (new_window 4096 16 true).is_active = false ∧
          STATE_ACTIVATED ∈ [STATE_ACTIVATED, 3] then
        move_window_to_front (some (reported_node (new_window 4096 16 true) [STATE_ACTIVATED, 3]))
          { sample_three_windows with
            windows := store (reported_node (new_window 4096 16 true) [STATE_ACTIVATED, 3])
              sample_three_windows.windows }
      else
        { sample_three_windows with
          windows := store (reported_node (new_window 4096 16 true) [STATE_ACTIVATED, 3])
            sample_three_windows.windows }) ∧
    (toplevel_handle_state (new_window 4096 16 true) [STATE_ACTIVATED, 3]
      sample_three_windows).windows.map
        (fun x => (x.addr, x.state, x.is_active, x.is_minimized, x.activation_serial)) =
      [(16, 12, true, false, 1), (48, 0, false, false, 0), (32, 0, false, false, 0)] :=
  ⟨by decide, by decide,
    (state_event_wholesale sample_three_windows (new_window 4096 16 true) [STATE_ACTIVATED, 3]
      (by decide)).2.1,
    (state_event_wholesale sample_three_windows (new_window 4096 16 true) [STATE_ACTIVATED, 3]
      (by decide)).2.2.1,
    by decide⟩

/-! ## The snapshot as a sorted permutation -/

theorem summaries_eq_enum (l : List WindowNode) :
    ∀ index : Nat, summaries l index =
      ((l.filter (fun w => !w.is_minimized)).enumFrom index).map
        (fun p => window_info p.2 p.1) := by
  induction l with
  | nil => intro index; rfl
  | cons curr next ih =>
    intro index
    unfold summaries
    cases h : curr.is_minimized
    · simp [List.filter, h, ih, List.enumFrom]
    · simp [List.filter, h, ih]

theorem window_info_constants (w : WindowNode) (k : Nat) :
    (window_info w k).group_count = 1 ∧ (window_info w k).workspace_id = 0 ∧
      (window_info w k).is_floating = false :=
  ⟨rfl, rfl, rfl⟩

/-- C22 (sorted permutation): for every backend state in which a successful
`wlr_get_windows` takes its snapshot, the returned sequence is ascending in
`focus_history_id` and each of its summaries has `group_count = 1`,
`workspace_id = 0` and `is_floating = false`; when the state is reachable (so
that `window_count` is the length of the list), the sequence is a permutation
of the summaries of the walk: the non-minimized windows of the history list,
front to back, each numbered by its position among them. -/
theorem enumerate_sorted_perm (queued arrived : List Event) (s : WlrBackendState)
    (state : AppState) (hinit : s.initialized = true) :
    Ascending (wlr_get_windows queued arrived s state).2.2.windows ∧
    (∀ info ∈ (wlr_get_windows queued arrived s state).2.2.windows,
      info.group_count = 1 ∧ info.workspace_id = 0 ∧ info.is_floating = false) ∧
    (Reach (wlr_get_windows queued arrived s state).2.1 →
      (wlr_get_windows queued arrived s state).2.2.windows.Perm
        ((((wlr_get_windows queued arrived s state).2.1.windows.filter
          (fun w => !w.is_minimized)).enumFrom 0).map (fun p => window_info p.2 p.1))) := by
  refine ⟨wlr_get_windows_ascending queued arrived s state hinit, ?_, ?_⟩
  · intro info hinfo
    obtain ⟨w, _, _, k, _, he⟩ :=
      mem_summaries _ _ _ (wlr_get_windows_subset queued arrived s state hinit info hinfo)
    rw [he]
    exact window_info_constants w k
  · intro hreach
    rw [← summaries_eq_enum]
    exact wlr_get_windows_perm queued arrived s state hinit (reach_inv hreach).1

theorem enumerate_sorted_perm_witness :
    sample_session.initialized = true ∧
    Reach (wlr_get_windows [] sample_two_activations sample_session { windows := [] }).2.1 ∧
    (wlr_get_windows [] sample_two_activations sample_session { windows := [] }).2.2.windows.map
      (fun info => (info.address, info.focus_history_id)) =
      [("wlr-0x2000", 998), ("wlr-0x1000", 999), ("wlr-0x3000", 10002)] ∧
    Ascending (wlr_get_windows [] sample_two_activations sample_session
      { windows := [] }).2.2.windows ∧
    (wlr_get_windows [] sample_two_activations sample_session { windows := [] }).2.2.windows.Perm
      ((((wlr_get_windows [] sample_two_activations sample_session
          { windows := [] }).2.1.windows.filter
        (fun w => !w.is_minimized)).enumFrom 0).map (fun p => window_info p.2 p.1)) :=
  ⟨by decide,
    Reach.get_windows [] sample_two_activations sample_session { windows := [] }
      sample_session_reach (by decide) (by decide),
    by decide,
    (enumerate_sorted_perm [] sample_two_activations sample_session { windows := [] }
      (by decide)).1,
    (enumerate_sorted_perm [] sample_two_activations sample_session { windows := [] }
      (by decide)).2.2
      (Reach.get_windows [] sample_two_activations sample_session { windows := [] }
        sample_session_reach (by decide) (by decide))⟩

/-! ## Frame of the attribute events -/

theorem node_at_none {a : Nat} {l : List WindowNode} (h : node_at a l = none) :
    ∀ c ∈ l, c.addr ≠ a := by
  intro c hc hca
  unfold node_at at h
  have := List.find?_eq_none.mp h c hc
  simp [hca] at this

theorem store_update (l : List WindowNode) (n : WindowNode) (f : WindowNode → WindowNode)
    (hf : (f n).addr = n.addr) (huniq : ∀ c ∈ l, c.addr = n.addr → c = n) :
    store (f n) l = l.map (fun c => if c.addr = n.addr then f c else c) := by
  unfold store
  apply List.map_congr_left
  intro c hc
  rw [hf]
  by_cases hca : c.addr = n.addr
  · rw [if_pos hca, if_pos hca, huniq c hc hca]
  · rw [if_neg hca, if_neg hca]

theorem map_update_absent (l : List WindowNode) (a : Nat) (f : WindowNode → WindowNode)
    (h : ∀ c ∈ l, c.addr ≠ a) : l.map (fun c => if c.addr = a then f c else c) = l := by
  have : l.map (fun c => if c.addr = a then f c else c) = l.map id := by
    apply List.map_congr_left
    intro c hc
    rw [if_neg (h c hc)]
    rfl
  rw [this, List.map_id]

theorem dispatch_title_eq (s : WlrBackendState) (hnodup : (s.windows.map (fun w => w.addr)).Nodup)
    (a : Nat) (title : Option String) :
    dispatch (Event.title a title) s =
      { s with
        windows := s.windows.map
          (fun c => if c.addr = a then { c with title := some (title.getD "") } else c) } := by
  simp only [dispatch, with_node]
  split
  · rename_i n hn
    obtain ⟨hmem, ha⟩ := node_at_some hn
    unfold toplevel_handle_title
    rw [store_update s.windows n (fun c => { c with title := some (title.getD "") }) rfl
      (fun c hc he => addr_unique hnodup hmem hc he), ha]
  · rename_i hn
    rw [map_update_absent _ _ _ (node_at_none hn)]

theorem dispatch_app_id_eq (s : WlrBackendState)
    (hnodup : (s.windows.map (fun w => w.addr)).Nodup) (a : Nat) (app_id : Option String) :
    dispatch (Event.app_id a app_id) s =
      { s with
        windows := s.windows.map
          (fun c => if c.addr = a then { c with app_id := some (app_id.getD "") } else c) } := by
  simp only [dispatch, with_node]
  split
  · rename_i n hn
    obtain ⟨hmem, ha⟩ := node_at_some hn
    unfold toplevel_handle_app_id
    rw [store_update s.windows n (fun c => { c with app_id := some (app_id.getD "") }) rfl
      (fun c hc he => addr_unique hnodup hmem hc he), ha]
  · rename_i hn
    rw [map_update_absent _ _ _ (node_at_none hn)]

theorem recency_map_update (s : WlrBackendState) (a : Nat) (f : WindowNode → WindowNode)
    (hf : ∀ c, ((f c).addr, (f c).activation_serial, (f c).state, (f c).is_active,
      (f c).is_minimized) = (c.addr, c.activation_serial, c.state, c.is_active, c.is_minimized)) :
    recency { s with windows := s.windows.map (fun c => if c.addr = a then f c else c) } =
      recency s := by
  unfold recency
  simp only [List.map_map, Prod.mk.injEq, and_true]
  apply List.map_congr_left
  intro c _
  simp only [Function.comp]
  split
  · exact hf c
  · rfl

theorem with_node_recency (window : Nat) (s : WlrBackendState)
    (handler : WindowNode → WlrBackendState → WlrBackendState)
    (h : ∀ w, recency (handler w s) = recency s) :
    recency (with_node window s handler) = recency s := by
  unfold with_node
  split
  · exact h _
  · rfl

/-- C23 (attribute events): in a session whose nodes have pairwise distinct
addresses, a title, app-id, output-enter, output-leave, parent, Done or Finished
event leaves the recency data as it was (history order, `window_count`, every
window's serial, state flags, `is_active`, `is_minimized`, and the activation
counter); output-enter, output-leave and parent events change nothing at all, a
Done event for a linked window changes only `needs_refresh`, a Finished event
changes only `manager`, and a title (app-id) event changes only the `title`
(`app_id`) field of the node of the targeted address, to the received string
or, for `NULL`, to the empty string. -/
theorem attribute_events_frame (s : WlrBackendState)
    (hnodup : (s.windows.map (fun w => w.addr)).Nodup) :
    (∀ e : Event, quiet e = true → recency (dispatch e s) = recency s) ∧
    (∀ a : Nat, dispatch (Event.output_enter a) s = s ∧ dispatch (Event.output_leave a) s = s ∧
      dispatch (Event.parent a) s = s) ∧
    (∀ a : Nat, (node_at a s.windows).isSome = true →
      dispatch (Event.done a) s = { s with needs_refresh := true }) ∧
    dispatch Event.finished s = { s with manager := 0 } ∧
    (∀ (a : Nat) (title : Option String), dispatch (Event.title a title) s =
      { s with
        windows := s.windows.map
          (fun c => if c.addr = a then { c with title := some (title.getD "") } else c) }) ∧
    (∀ (a : Nat) (app_id : Option String), dispatch (Event.app_id a app_id) s =
      { s with
        windows := s.windows.map
          (fun c => if c.addr = a then { c with app_id := some (app_id.getD "") } else c) }) := by
  refine ⟨?_, ?_, ?_, rfl, dispatch_title_eq s hnodup, dispatch_app_id_eq s hnodup⟩
  · intro e he
    cases e with
    | global name interface version bound => simp [quiet] at he
    | global_remove name => simp [quiet] at he
    | toplevel toplevel node identifier_ok => simp [quiet] at he
    | state window wl_state => simp [quiet] at he
    | closed window => simp [quiet] at he
    | finished => rfl
    | title window title =>
      rw [dispatch_title_eq s hnodup]
      exact recency_map_update s window _ (fun _ => rfl)
    | app_id window app_id =>
      rw [dispatch_app_id_eq s hnodup]
      exact recency_map_update s window _ (fun _ => rfl)
    | output_enter window => exact with_node_recency _ _ _ (fun _ => rfl)
    | output_leave window => exact with_node_recency _ _ _ (fun _ => rfl)
    | done window => exact with_node_recency _ _ _ (fun _ => rfl)
    | parent window => exact with_node_recency _ _ _ (fun _ => rfl)
  · intro a
    refine ⟨?_, ?_, ?_⟩ <;> (simp only [dispatch, with_node]; split <;> rfl)
  · intro a ha
    obtain ⟨w, hw⟩ := Option.isSome_iff_exists.mp ha
    simp only [dispatch, with_node, hw]
    rfl

theorem attribute_events_frame_witness :
    (sample_three_windows.windows.map (fun w => w.addr)).Nodup ∧
    quiet (Event.title 16 (some "Terminal")) = true ∧
    recency (dispatch (Event.title 16 (some "Terminal")) sample_three_windows) =
      recency sample_three_windows ∧
    (node_at 32 sample_three_windows.windows).isSome = true ∧
    dispatch (Event.done 32) sample_three_windows =
      { sample_three_windows with needs_refresh := true } ∧
    (dispatch (Event.title 16 (some "Terminal")) sample_three_windows).windows.map
      (fun w => (w.addr, w.title)) = [(48, none), (32, none), (16, some "Terminal")] :=
  ⟨by decide, by decide,
    (attribute_events_frame sample_three_windows (by decide)).1 _ (by decide),
    by decide,
    (attribute_events_frame sample_three_windows (by decide)).2.2.1 32 (by decide),
    by decide⟩

/-! ## Serial bookkeeping -/

theorem move_window_to_front_length {s : WlrBackendState} {w : WindowNode}
    (hw : w ∈ s.windows) :
    (move_window_to_front (some w) s).windows.length = s.windows.length := by
  unfold move_window_to_front
  split
  · rfl
  · rfl
  · rename_i w1 head tail heq hl
    cases heq
    split
    · rfl
    · simp only [List.length_cons]
      exact unlink_length ((linked_iff _ _).mpr ⟨w, hw, rfl⟩)

/-- C26 (count invariant): in every reachable state `window_count` equals the
number of nodes of the window list, so it is 0 (the test of the early return
of `wlr_get_windows`) exactly when the list is empty; a Created event whose
node is allocated adds one node and one count, a Closed event for a linked
node removes one of each and for a node that is not linked changes neither,
`move_window_to_front` of a member changes neither, and `wlr_backend_cleanup`
leaves both at zero. -/
theorem count_invariant (s : WlrBackendState) (hreach : Reach s) :
    s.window_count = (s.windows.length : Int) ∧
    (s.window_count = 0 ↔ s.windows = []) ∧
    (∀ (toplevel node : Nat) (identifier_ok : Bool), node ≠ 0 →
      (manager_handle_toplevel toplevel node identifier_ok s).windows.length =
        s.windows.length + 1 ∧
      (manager_handle_toplevel toplevel node identifier_ok s).window_count =
        s.window_count + 1) ∧
    (∀ w : WindowNode, linked w.addr s.windows = true →
      (toplevel_handle_closed w s).windows.length + 1 = s.windows.length ∧
      (toplevel_handle_closed w s).window_count = s.window_count - 1) ∧
    (∀ w : WindowNode, linked w.addr s.windows = false →
      (toplevel_handle_closed w s).windows = s.windows ∧
      (toplevel_handle_closed w s).window_count = s.window_count) ∧
    (∀ w ∈ s.windows,
      (move_window_to_front (some w) s).windows.length = s.windows.length ∧
      (move_window_to_front (some w) s).window_count = s.window_count) ∧
    ((wlr_backend_cleanup s).windows.length = 0 ∧ (wlr_backend_cleanup s).window_count = 0) := by
  have hcount := (reach_inv hreach).1
  refine ⟨hcount, ?_, ?_, ?_, ?_, ?_, ?_⟩
  · rw [hcount]
    constructor
    · intro h
      exact List.eq_nil_of_length_eq_zero (by exact_mod_cast h)
    · intro h
      rw [h]; rfl
  · intro toplevel node identifier_ok hnode
    simp [manager_handle_toplevel, hnode]
  · intro w hl
    rw [toplevel_handle_closed_windows]
    refine ⟨unlink_length hl, ?_⟩
    unfold toplevel_handle_closed
    simp only [hl, if_true]
    split <;> rfl
  · intro w hl
    rw [toplevel_handle_closed_windows]
    refine ⟨unlink_not_linked _ _ hl, ?_⟩
    unfold toplevel_handle_closed
    simp only [hl, Bool.false_eq_true, if_false]
    split <;> rfl
  · intro w hw
    exact ⟨move_window_to_front_length hw, (move_window_to_front_frame (some w) s).2.2.2⟩
  · obtain ⟨_, _, _, _, hw, hc, _⟩ := wlr_backend_cleanup_state s
    rw [hw, hc]
    exact ⟨rfl, rfl⟩

theorem count_invariant_witness :
    Reach sample_minimized_session ∧
    sample_minimized_session.window_count = (sample_minimized_session.windows.length : Int) ∧
    sample_minimized_session.window_count = 3 ∧
    linked sample_minimized.addr sample_minimized_session.windows = true ∧
    (toplevel_handle_closed sample_minimized sample_minimized_session).windows.length + 1 =
      sample_minimized_session.windows.length ∧
    (toplevel_handle_closed sample_minimized sample_minimized_session).window_count =
      sample_minimized_session.window_count - 1 :=
  ⟨sample_minimized_session_reach,
    (count_invariant sample_minimized_session sample_minimized_session_reach).1,
    by decide, by decide,
    ((count_invariant sample_minimized_session sample_minimized_session_reach).2.2.2.1
      sample_minimized (by decide)).1,
    ((count_invariant sample_minimized_session sample_minimized_session_reach).2.2.2.1
      sample_minimized (by decide)).2⟩

/-! ## Bounded keys -/

/-- In an ascending list, a member whose key is strictly below the key of every
other member is the first element. -/
theorem ascending_head_of_least (l : List WindowInfo) (hasc : Ascending l) (x : WindowInfo)
    (hx : x ∈ l) (hleast : ∀ y ∈ l, y = x ∨ x.focus_history_id < y.focus_history_id) :
    l[0]? = some x := by
  obtain ⟨i, hi⟩ := List.mem_iff_getElem?.mp hx
  match l, hasc, hx, hleast, hi with
  | [], _, hx, _, _ => cases hx
  | first :: rest, hasc, _, hleast, hi =>
    simp only [List.getElem?_cons_zero, Option.some.injEq]
    rcases hleast first (List.mem_cons_self _ _) with h | h
    · exact h
    · exfalso
      have := ascending_index_lt (first :: rest) hasc i 0 x first hi (by simp) h
      omega

theorem window_info_key_bounds (w : WindowNode) (k : Nat) (c : Int) (hc : c < 1000)
    (ha : w.is_active = false) (hle : w.activation_serial ≤ c) :
    (0 < w.activation_serial →
      1 ≤ (window_info w k).focus_history_id ∧ (window_info w k).focus_history_id ≤ 999) ∧
    (w.activation_serial = 0 → 10000 ≤ (window_info w k).focus_history_id) := by
  constructor
  · intro hpos
    rw [window_info_key_activated w k ha (by omega)]
    omega
  · intro hz
    rw [window_info_key_never w k ha hz]
    omega

/-- What the code guarantees about the keys, read by the stored serial: for every
reachable backend state in which a successful `wlr_get_windows` takes its
snapshot, whose activation counter is below 1000 and in which exactly one
window `W` is active and `W` is not minimized: the summary of `W` is at index 0
with `focus_history_id = 0`; every non-active, non-minimized window has its
summary in the result, with a `focus_history_id` between 1 and 999 when its
serial is positive and of at least 10000 when its serial is 0; and the result
holds no other kind of summary.  A window whose serial is 0 may have been
active before: one that was reported active while it was the head of the list. -/
theorem keys_by_serial (queued arrived : List Event) (s : WlrBackendState) (state : AppState)
    (W : WindowNode) (hinit : s.initialized = true)
    (hreach : Reach (wlr_get_windows queued arrived s state).2.1)
    (hcounter : (wlr_get_windows queued arrived s state).2.1.activation_counter < 1000)
    (hW : W ∈ (wlr_get_windows queued arrived s state).2.1.windows)
    (hactive : W.is_active = true) (hmin : W.is_minimized = false)
    (hsole : ∀ w ∈ (wlr_get_windows queued arrived s state).2.1.windows,
      w.is_active = true → w = W) :
    (wlr_get_windows queued arrived s state).2.2.windows[0]? = some (window_info W 0) ∧
    (window_info W 0).focus_history_id = 0 ∧
    (∀ w ∈ (wlr_get_windows queued arrived s state).2.1.windows,
      w.is_minimized = false → w.is_active = false →
      ∃ k : Nat, window_info w k ∈ (wlr_get_windows queued arrived s state).2.2.windows ∧
        (0 < w.activation_serial →
          1 ≤ (window_info w k).focus_history_id ∧ (window_info w k).focus_history_id ≤ 999) ∧
        (w.activation_serial = 0 → 10000 ≤ (window_info w k).focus_history_id)) ∧
    (∀ info ∈ (wlr_get_windows queued arrived s state).2.2.windows,
      info = window_info W 0 ∨
      (1 ≤ info.focus_history_id ∧ info.focus_history_id ≤ 999) ∨
      10000 ≤ info.focus_history_id) := by
  have hinv := reach_inv hreach
  have hperm := wlr_get_windows_perm queued arrived s state hinit hinv.1
  have hasc := wlr_get_windows_ascending queued arrived s state hinit
  have hkey0 : (window_info W 0).focus_history_id = 0 := window_info_key_active W 0 hactive
  have hkinds : ∀ info ∈ (wlr_get_windows queued arrived s state).2.2.windows,
      info = window_info W 0 ∨
      (1 ≤ info.focus_history_id ∧ info.focus_history_id ≤ 999) ∨
      10000 ≤ info.focus_history_id := by
    intro info hinfo
    obtain ⟨w, hw, _, k, _, he⟩ := mem_summaries _ _ _ (hperm.subset hinfo)
    cases ha : w.is_active
    · right
      have hok := hinv.2.2.2.2 w hw
      have hb := window_info_key_bounds w k _ hcounter ha hok.2.2.2.2
      rw [he]
      by_cases hs : w.activation_serial = 0
      · exact Or.inr (hb.2 hs)
      · exact Or.inl (hb.1 (by have := hok.2.2.2.1; omega))
    · left
      rw [he, hsole w hw ha]
      exact window_info_active_index W k hactive
  refine ⟨?_, hkey0, ?_, hkinds⟩
  · obtain ⟨k, hk⟩ := summaries_mem _ 0 W hW hmin
    rw [window_info_active_index W k hactive] at hk
    refine ascending_head_of_least _ hasc _ (hperm.symm.subset hk) ?_
    intro y hy
    rcases hkinds y hy with h | h | h
    · exact Or.inl h
    · right; omega
    · right; omega
  · intro w hw hm ha
    obtain ⟨k, hk⟩ := summaries_mem _ 0 w hw hm
    have hok := hinv.2.2.2.2 w hw
    exact ⟨k, hperm.symm.subset hk,
      window_info_key_bounds w k _ hcounter ha hok.2.2.2.2⟩

theorem keys_by_serial_witness :
    sample_session.initialized = true ∧
    Reach (wlr_get_windows [] sample_new_window_focused sample_session { windows := [] }).2.1 ∧
    (wlr_get_windows [] sample_new_window_focused sample_session
      { windows := [] }).2.1.activation_counter < 1000 ∧
    sample_focused ∈
      (wlr_get_windows [] sample_new_window_focused sample_session { windows := [] }).2.1.windows ∧
    sample_focused.is_active = true ∧ sample_focused.is_minimized = false ∧
    (∀ w ∈ (wlr_get_windows [] sample_new_window_focused sample_session
        { windows := [] }).2.1.windows, w.is_active = true → w = sample_focused) ∧
    (wlr_get_windows [] sample_new_window_focused sample_session { windows := [] }).2.2.windows[0]?
      = some (window_info sample_focused 0) ∧
    (wlr_get_windows [] sample_new_window_focused sample_session
        { windows := [] }).2.2.windows.map (fun info => info.focus_history_id)
      = [0, 999, 10002] :=
  ⟨by decide,
    Reach.get_windows [] sample_new_window_focused sample_session { windows := [] }
      sample_session_reach (by decide) (by decide),
    by decide, by decide, by decide, by decide, by decide,
    (keys_by_serial [] sample_new_window_focused sample_session { windows := [] } sample_focused
      (by decide)
      (Reach.get_windows [] sample_new_window_focused sample_session { windows := [] }
        sample_session_reach (by decide) (by decide))
      (by decide) (by decide) (by decide) (by decide) (by decide)).1,
    by decide⟩

/-- C24 fails on the code: in the reachable state after `sample_head_activated` the
activation counter is 0, below 1000, and exactly one window is active, the one
announced last, which is not minimized.  The window announced first was
reported active by the second event and is not active any more, so it is a
non-active, previously activated window; since it was the head of the list
when it was activated, `move_window_to_front` returned before stamping it, its
serial is still 0 and `wlr_get_windows` gives it `focus_history_id = 10001`,
outside 1..999. -/
theorem head_activated_key :
    deliverable_all sample_head_activated (pump_flushed [] sample_session) = true ∧
    Reach (wlr_get_windows [] sample_head_activated sample_session { windows := [] }).2.1 ∧
    (node_at 16 (dispatch_all (sample_head_activated.take 2) sample_session).windows).map
      (fun w => w.is_active) = some true ∧
    (wlr_get_windows [] sample_head_activated sample_session
      { windows := [] }).2.1.activation_counter = 0 ∧
    (wlr_get_windows [] sample_head_activated sample_session { windows := [] }).2.1.windows.map
      (fun w => (w.handle, w.is_active, w.is_minimized, w.activation_serial))
      = [(8192, true, false, 0), (4096, false, false, 0)] ∧
    (wlr_get_windows [] sample_head_activated sample_session { windows := [] }).1 = 0 ∧
    (wlr_get_windows [] sample_head_activated sample_session { windows := [] }).2.2.windows.map
      (fun info => (info.address, info.is_active, info.focus_history_id))
      = [("wlr-0x2000", true, 0), ("wlr-0x1000", false, 10001)] ∧
    ¬ ((1 : Int) ≤ 10001 ∧ (10001 : Int) ≤ 999) :=
  ⟨by decide,
    Reach.get_windows [] sample_head_activated sample_session { windows := [] }
      sample_session_reach (by decide) (by decide),
    by decide, by decide, by decide, by decide, by decide, by decide⟩

end WlrBackend
